import Mathlib

/-!
# BespokeSynth `MultitrackRecorder`: shallow embedding and verified properties

The definitions follow `src/Source/MultitrackRecorder.cpp` function by function.

Conventions of the embedding
* C++ `int` values are `Int` (no wrap-around is modelled: sample counts stay far below 2^31).
* `float` samples, volumes, tempo and swing are exact rationals (`ℚ`); rounding and NaN are
  not modelled.
* A raw `float*` array is a `List ℚ` whose length is the allocated size.  Every access
  outside the allocation is undefined behaviour in C++ and makes the embedded operation
  return `none`.
* `new float[n]` returns uninitialised storage: its contents are `junk 0, junk 1, ...` for an
  arbitrary function `junk`, over which every statement is quantified.
* The mutex calls, the drawing code, the clip arrangers and `FilesDropped` (which needs the
  absent `Sample` class) are not part of the embedding.
* `RECORD_CHUNK_SIZE` and `gSampleRate` come from headers that are not in `src/`; they are
  parameters.
-/

set_option autoImplicit false

namespace MultitrackRecorder

/-! ## Data model -/

/-- Per-buffer controls (`BufferControls`): volume and mute flag. -/
structure BufferControls where
  mVol : ℚ
  mMute : Bool
  deriving DecidableEq, Repr

/-- The constructor `BufferControls::BufferControls()`: volume 1, not muted. -/
def BufferControls.new : BufferControls := ⟨1, false⟩

/-- A dual-channel sample buffer (`RecordBuffer`): two raw arrays and the `mLength` field. -/
structure RecordBuffer where
  mLeft : List ℚ
  mRight : List ℚ
  mLength : Int
  mControls : BufferControls
  deriving DecidableEq, Repr

/-- One entry of `mStructureInfoPoints` (`StructureInfo`). -/
structure StructureInfo where
  mSample : Int
  mScaleRoot : Int
  mScaleType : String
  mTimeSigTop : Int
  mTimeSigBottom : Int
  mTempo : ℚ
  mSwing : ℚ
  deriving DecidableEq, Repr

/-- The externally owned musical context: what `TheScale` and `TheTransport` currently hold.
`measurePos` is the value last given to `SetMeasurePos`. -/
structure Collaborators where
  scaleRoot : Int
  scaleType : String
  timeSigTop : Int
  timeSigBottom : Int
  tempo : ℚ
  swing : ℚ
  measurePos : ℚ
  deriving DecidableEq, Repr

/-- The state of the recorder: the members of `MultitrackRecorder`, the three statics of
`ArrangementController`, and the collaborators it reads and writes.  `mMeasures` is a
fixed array whose capacity is declared in the absent header; it is modelled unbounded. -/
structure Recorder where
  mRecordingLength : Int
  mRecording : Bool
  mBufferWidth : ℚ
  mBufferHeight : ℚ
  mActiveStructureIdx : Int
  mRecordIdx : Int
  mMaxRecordedLength : Int
  mNumMeasures : Int
  mMeasures : Nat → Int
  mSelectedMeasureStart : Int
  mSelectedMeasureEnd : Int
  mSelecting : Bool
  mMergeBufferIdx : Int
  mUndoBuffer : RecordBuffer
  mRecordBuffers : List RecordBuffer
  mMeasurePos : List ℚ
  mStructureInfoPoints : List StructureInfo
  mPlayhead : Int
  mPlay : Bool
  mSampleLength : Int
  world : Collaborators

/-! ## Raw array primitives -/

/-- Storage returned by `new float[n]`: `n` cells of arbitrary content; a negative size
is an error. -/
def newFloatArray (junk : Nat → ℚ) (n : Int) : Option (List ℚ) :=
  if 0 ≤ n then some ((List.range n.toNat).map junk) else none

/-- Modelled from the spec: `BufferCopy(dst + dstOff, src + srcOff, n)` of the absent
`SynthGlobals`, a plain copy of `n` samples ("preserving existing samples").  Both ranges
must lie inside their allocations. -/
def BufferCopy (dst : List ℚ) (dstOff : Int) (src : List ℚ) (srcOff : Int) (n : Int) :
    Option (List ℚ) :=
  if 0 ≤ dstOff ∧ 0 ≤ srcOff ∧ 0 ≤ n ∧ srcOff + n ≤ src.length ∧ dstOff + n ≤ dst.length then
    some (dst.take dstOff.toNat ++ (src.drop srcOff.toNat).take n.toNat
      ++ dst.drop (dstOff.toNat + n.toNat))
  else none

/-- Modelled from the spec: `Clear(buf + off, n)` of the absent `SynthGlobals`, which
zero-fills `n` samples ("zero-filling the new tail"). -/
def Clear (buf : List ℚ) (off : Int) (n : Int) : Option (List ℚ) :=
  if 0 ≤ off ∧ 0 ≤ n ∧ off + n ≤ buf.length then
    some (buf.take off.toNat ++ List.replicate n.toNat 0 ++ buf.drop (off.toNat + n.toNat))
  else none

/-- Modelled from the spec: `Add(dst, src, n)` of the absent `SynthGlobals`, which "sums
`src` into `dst` sample-wise" over the first `n` samples. -/
def Add (dst : List ℚ) (src : List ℚ) (n : Int) : Option (List ℚ) :=
  if 0 ≤ n ∧ n ≤ src.length ∧ n ≤ dst.length then
    some (List.zipWith (fun a b => a + b) (dst.take n.toNat) (src.take n.toNat)
      ++ dst.drop n.toNat)
  else none

/-- The element `mRecordBuffers[i]`; an index outside the vector is an error. -/
def getBuffer (bufs : List RecordBuffer) (i : Int) : Option RecordBuffer :=
  if 0 ≤ i then bufs[i.toNat]? else none

/-- Overwrite the buffer object `mRecordBuffers[i]` (callers have read it first). -/
def setBuffer (bufs : List RecordBuffer) (i : Int) (b : RecordBuffer) : List RecordBuffer :=
  bufs.set i.toNat b

/-- The constructor `RecordBuffer::RecordBuffer(length)`: two zeroed arrays. -/
def RecordBuffer.new (length : Int) : Option RecordBuffer :=
  if 0 ≤ length then
    some ⟨List.replicate length.toNat 0, List.replicate length.toNat 0, length,
      BufferControls.new⟩
  else none

/-! ## `Poll` -/

/-- Lines 106-136 of `Poll`: the body of the `if`, which reallocates the active buffer and
the measure-position array `RECORD_CHUNK_SIZE` samples longer. -/
def growRecording (RECORD_CHUNK_SIZE : Nat) (reallocDist : Int) (junk : Nat → ℚ)
    (s : Recorder) : Option Recorder := do
  let newChunk : Int := RECORD_CHUNK_SIZE
  let newLength := s.mRecordingLength + newChunk
  let newLeft ← newFloatArray junk newLength
  let newRight ← newFloatArray junk newLength
  let newMeasurePos ← newFloatArray junk newLength
  let buf ← getBuffer s.mRecordBuffers s.mRecordIdx
  let oldLeft := buf.mLeft
  let oldRight := buf.mRight
  let newLeft ← BufferCopy newLeft 0 oldLeft 0 (s.mRecordingLength - reallocDist)
  let newRight ← BufferCopy newRight 0 oldRight 0 (s.mRecordingLength - reallocDist)
  let newMeasurePos ← BufferCopy newMeasurePos 0 s.mMeasurePos 0
    (s.mRecordingLength - reallocDist)
  let newLeft ← Clear newLeft s.mRecordingLength newChunk
  let newRight ← Clear newRight s.mRecordingLength newChunk
  let newMeasurePos ← Clear newMeasurePos s.mRecordingLength newChunk
  let newLeft ← BufferCopy newLeft (s.mRecordingLength - reallocDist) oldLeft
    (s.mRecordingLength - reallocDist) reallocDist
  let newRight ← BufferCopy newRight (s.mRecordingLength - reallocDist) oldRight
    (s.mRecordingLength - reallocDist) reallocDist
  let newMeasurePos ← BufferCopy newMeasurePos (s.mRecordingLength - reallocDist)
    s.mMeasurePos (s.mRecordingLength - reallocDist) reallocDist
  some { s with
    mRecordBuffers := setBuffer s.mRecordBuffers s.mRecordIdx
      { buf with mLeft := newLeft, mRight := newRight, mLength := newLength }
    mMeasurePos := newMeasurePos
    mRecordingLength := newLength }

/-- Lines 95-96 of `Poll`: `ArrangementController::mSampleLength = mRecordingLength`. -/
def publishLength (s : Recorder) : Recorder :=
  { s with mSampleLength := s.mRecordingLength }

/-- The method `MultitrackRecorder::Poll`: when recording within `gSampleRate` samples
(`reallocDist`) of the end, grow the recording. -/
def Poll (RECORD_CHUNK_SIZE : Nat) (gSampleRate : Int) (junk : Nat → ℚ) (s : Recorder) :
    Option Recorder :=
  if s.mRecording = true ∧ s.mPlayhead > s.mRecordingLength - gSampleRate then
    growRecording RECORD_CHUNK_SIZE gSampleRate junk (publishLength s)
  else some (publishLength s)

/-! ## Construction and track-set operations -/

/-- The method `AddRecordBuffer`: append a fresh buffer of the current recording length and
make it the record target. -/
def AddRecordBuffer (s : Recorder) : Option Recorder := do
  let b ← RecordBuffer.new s.mRecordingLength
  let bufs := s.mRecordBuffers ++ [b]
  some { s with mRecordBuffers := bufs, mRecordIdx := (bufs.length : Int) - 1 }

/-- The constructor `MultitrackRecorder::MultitrackRecorder()`, together with the static
initialisers of `ArrangementController`.  `mSelecting` and `mMeasures` are not initialised by
the constructor, so their first values are arbitrary; `w` is what the collaborators hold. -/
def Recorder.new (RECORD_CHUNK_SIZE : Nat) (selecting0 : Bool) (measures0 : Nat → Int)
    (w : Collaborators) : Option Recorder := do
  let s : Recorder :=
    { mRecordingLength := RECORD_CHUNK_SIZE
      mRecording := false
      mBufferWidth := 800
      mBufferHeight := 80
      mActiveStructureIdx := -1
      mRecordIdx := 0
      mMaxRecordedLength := -1
      mNumMeasures := 0
      mMeasures := measures0
      mSelectedMeasureStart := -1
      mSelectedMeasureEnd := -1
      mSelecting := selecting0
      mMergeBufferIdx := -1
      mUndoBuffer := ⟨[], [], 0, BufferControls.new⟩
      mRecordBuffers := []
      mMeasurePos := List.replicate RECORD_CHUNK_SIZE 0
      mStructureInfoPoints := []
      mPlayhead := 0
      mPlay := false
      mSampleLength := 0
      world := w }
  let s ← AddRecordBuffer s
  let u ← RecordBuffer.new s.mRecordingLength
  some { s with mUndoBuffer := u }

/-- The method `ResetAll`: drop every buffer and reset the listed members. -/
def ResetAll (RECORD_CHUNK_SIZE : Nat) (s : Recorder) : Recorder :=
  { s with
    mRecordBuffers := []
    mRecordingLength := RECORD_CHUNK_SIZE
    mMaxRecordedLength := -1
    mNumMeasures := 0
    mRecording := false
    mRecordIdx := 0
    mPlayhead := 0 }

/-- One buffer of the loop in `FixLengths`: a buffer shorter than the recording length is
reallocated to that length, old samples copied, the rest cleared. -/
def fixLength (junk : Nat → ℚ) (recordingLength : Int) (b : RecordBuffer) :
    Option RecordBuffer :=
  if b.mLength < recordingLength then do
    let newLeft ← newFloatArray junk recordingLength
    let newRight ← newFloatArray junk recordingLength
    let oldLeft := b.mLeft
    let oldRight := b.mRight
    let oldLength := b.mLength
    let newLeft ← BufferCopy newLeft 0 oldLeft 0 oldLength
    let newRight ← BufferCopy newRight 0 oldRight 0 oldLength
    let newLeft ← Clear newLeft oldLength (recordingLength - oldLength)
    let newRight ← Clear newRight oldLength (recordingLength - oldLength)
    some { b with mLeft := newLeft, mRight := newRight, mLength := recordingLength }
  else some b

/-- The loop of `FixLengths` over the buffers, front to back. -/
def fixLengthsLoop (junk : Nat → ℚ) (recordingLength : Int) :
    List RecordBuffer → Option (List RecordBuffer)
  | [] => some []
  | b :: bs => do
    let b' ← fixLength junk recordingLength b
    let bs' ← fixLengthsLoop junk recordingLength bs
    some (b' :: bs')

/-- The method `FixLengths`. -/
def FixLengths (junk : Nat → ℚ) (s : Recorder) : Option Recorder := do
  let bufs ← fixLengthsLoop junk s.mRecordingLength s.mRecordBuffers
  some { s with mRecordBuffers := bufs }

/-- The method `DeleteBuffer(idx)`: the iterator starts at `begin()` and is advanced once
for every `i` with `0 <= i < idx` (that is `idx.toNat` times), then the element it points
to is deleted and erased.  Dereferencing `end()` or moving past it is an error. -/
def DeleteBuffer (s : Recorder) (idx : Int) : Option Recorder :=
  let steps := idx.toNat
  if steps < s.mRecordBuffers.length then
    some { s with mRecordBuffers := s.mRecordBuffers.eraseIdx steps }
  else none

/-- The method `CopyRecordBufferContents(dst, src)`; the result is the new `*dst`. -/
def CopyRecordBufferContents (junk : Nat → ℚ) (dst src : RecordBuffer) :
    Option RecordBuffer := do
  let dst ← (if dst.mLength ≠ src.mLength then do
      let l ← newFloatArray junk src.mLength
      let r ← newFloatArray junk src.mLength
      some { dst with mLeft := l, mRight := r, mLength := src.mLength }
    else some dst)
  let l ← BufferCopy dst.mLeft 0 src.mLeft 0 src.mLength
  let r ← BufferCopy dst.mRight 0 src.mRight 0 src.mLength
  some { dst with mLeft := l, mRight := r }

/-- The buttons that `ButtonClicked` distinguishes. -/
inductive Button where
  | addTrack
  | resetPlayhead
  | fixLengths
  | undoRecord
  deriving DecidableEq, Repr

/-- The method `ButtonClicked(button)`. -/
def ButtonClicked (junk : Nat → ℚ) (button : Button) (s : Recorder) : Option Recorder := do
  let s ← (if button = Button.addTrack then AddRecordBuffer s else some s)
  let s := if button = Button.resetPlayhead then { s with mPlayhead := 0 } else s
  let s ← (if button = Button.fixLengths then FixLengths junk s else some s)
  if button = Button.undoRecord then do
    let s := { s with mRecording := false }
    let b ← getBuffer s.mRecordBuffers s.mRecordIdx
    let b ← CopyRecordBufferContents junk b s.mUndoBuffer
    some { s with mRecordBuffers := setBuffer s.mRecordBuffers s.mRecordIdx b }
  else some s

/-- The checkboxes that reach `CheckboxUpdated`: record, play, or a buffer's mute box. -/
inductive Checkbox where
  | record
  | play
  | mute
  deriving DecidableEq, Repr

/-- The method `CheckboxUpdated(checkbox)`.  `transportReset` is the effect of the absent
`TheTransport->Reset()` on the collaborators. -/
def CheckboxUpdated (transportReset : Collaborators → Collaborators) (junk : Nat → ℚ)
    (checkbox : Checkbox) (s : Recorder) : Option Recorder :=
  if checkbox = Checkbox.record then do
    let s := if s.mRecordIdx = 0 ∧ s.mPlayhead = 0 then
      { s with world := transportReset s.world } else s
    let b ← getBuffer s.mRecordBuffers s.mRecordIdx
    let u ← CopyRecordBufferContents junk s.mUndoBuffer b
    some { s with mUndoBuffer := u }
  else some s

/-- Modelled from the spec: the absent `Checkbox` widget created in `CreateUIControls`
with `&mRecording`; a click stores the new value in the bound variable and then notifies
`CheckboxUpdated` ("`snapshotForUndo()` ... called when recording is armed"). -/
def setRecording (transportReset : Collaborators → Collaborators) (junk : Nat → ℚ)
    (value : Bool) (s : Recorder) : Option Recorder :=
  CheckboxUpdated transportReset junk Checkbox.record { s with mRecording := value }

/-- Modelled from the spec: the absent `Checkbox` widget bound to
`ArrangementController::mPlay` (`setPlaying(bool)`). -/
def setPlaying (transportReset : Collaborators → Collaborators) (junk : Nat → ℚ)
    (value : Bool) (s : Recorder) : Option Recorder :=
  CheckboxUpdated transportReset junk Checkbox.play { s with mPlay := value }

/-! ## Structure capture and replay -/

/-- Read `a[i]`; an index outside the allocation is an error. -/
def readAt (a : List ℚ) (i : Int) : Option ℚ :=
  if 0 ≤ i then a[i.toNat]? else none

/-- Store `v` into `a[i]`; an index outside the allocation is an error. -/
def writeAt (a : List ℚ) (i : Int) (v : ℚ) : Option (List ℚ) :=
  if 0 ≤ i ∧ i < a.length then some (a.set i.toNat v) else none

/-- The method `GetRecordIdx`. -/
def GetRecordIdx (s : Recorder) : Int :=
  if s.mRecording = false then -1 else s.mRecordIdx

/-- The method `IsRecordingStructure`. -/
def IsRecordingStructure (s : Recorder) : Bool :=
  s.mRecording && decide (s.mPlayhead > s.mMaxRecordedLength)

/-- The comparison in `RecordStructure` between the last entry and the collaborators. -/
def structureDiffers (last : StructureInfo) (w : Collaborators) : Bool :=
  decide (last.mScaleRoot ≠ w.scaleRoot) ||
  decide (last.mScaleType ≠ w.scaleType) ||
  decide (last.mTimeSigTop ≠ w.timeSigTop) ||
  decide (last.mTimeSigBottom ≠ w.timeSigBottom) ||
  decide (last.mTempo ≠ w.tempo) ||
  decide (last.mSwing ≠ w.swing)

/-- The snapshot that `RecordStructure` appends. -/
def snapshot (playhead : Int) (w : Collaborators) : StructureInfo :=
  { mSample := playhead
    mScaleRoot := w.scaleRoot
    mScaleType := w.scaleType
    mTimeSigTop := w.timeSigTop
    mTimeSigBottom := w.timeSigBottom
    mTempo := w.tempo
    mSwing := w.swing }

/-- Lines 287-291 of `RecordStructure`: at sample 0, or where the measure position just
stored is smaller than the one before it, the playhead is entered into `mMeasures`. -/
def registerMeasure (s : Recorder) : Option Recorder := do
  let boundary ← (if s.mPlayhead = 0 then some true else do
    let before ← readAt s.mMeasurePos (s.mPlayhead - 1)
    let here ← readAt s.mMeasurePos s.mPlayhead
    some (decide (before > here)))
  if boundary = true then
    (if 0 ≤ s.mNumMeasures then
      some { s with
        mMeasures := Function.update s.mMeasures s.mNumMeasures.toNat s.mPlayhead
        mNumMeasures := s.mNumMeasures + 1 }
    else none)
  else some s

/-- The flag `needToRecord` of `RecordStructure` (lines 293-310): set when the list is
empty or the last entry differs from what the collaborators hold now. -/
def needToRecord (s : Recorder) : Bool :=
  match s.mStructureInfoPoints.getLast? with
  | none => true
  | some lastStructure => structureDiffers lastStructure s.world

/-- Lines 312-325 of `RecordStructure`: when `needToRecord` is set a snapshot is appended
and the replay cursor is put on it. -/
def appendStructure (s : Recorder) : Recorder :=
  if needToRecord s = true then
    { s with
      mStructureInfoPoints := s.mStructureInfoPoints ++ [snapshot s.mPlayhead s.world]
      mActiveStructureIdx := ((s.mStructureInfoPoints ++ [snapshot s.mPlayhead s.world]).length
        : Int) - 1 }
  else s

/-- The method `RecordStructure(offset)`.  `measurePos` is the value the transport returns
from `GetMeasurePos(gTime + offset * gInvSampleRateMs)`. -/
def RecordStructure (measurePos : ℚ) (s : Recorder) : Option Recorder := do
  let mp ← writeAt s.mMeasurePos s.mPlayhead measurePos
  let s1 : Recorder := { s with
    mMeasurePos := mp
    mMaxRecordedLength := max s.mPlayhead s.mMaxRecordedLength }
  let s2 ← registerMeasure s1
  some (appendStructure s2)

/-- The setters `ApplyStructure` calls on `TheScale` and `TheTransport`. -/
def pushStructure (info : StructureInfo) (w : Collaborators) : Collaborators :=
  { w with
    scaleRoot := info.mScaleRoot
    scaleType := info.mScaleType
    timeSigTop := info.mTimeSigTop
    timeSigBottom := info.mTimeSigBottom
    tempo := info.mTempo
    swing := info.mSwing }

/-- Lines 330-331 of `ApplyStructure`: a stored measure position other than 0 is given to
`TheTransport->SetMeasurePos`. -/
def applyMeasurePos (mp : ℚ) (s : Recorder) : Recorder :=
  if mp ≠ 0 then { s with world := { s.world with measurePos := mp } } else s

/-- Lines 336-347 of `ApplyStructure`, for a non-empty entry list.  In
`mActiveStructureIdx < size()-1` the index is converted to an unsigned value, so the
comparison fails for every negative index. -/
def advanceStructure (s : Recorder) : Option Recorder := do
  let advance ← (if s.mActiveStructureIdx = -1 then some true
    else if 0 ≤ s.mActiveStructureIdx ∧
        s.mActiveStructureIdx < (s.mStructureInfoPoints.length : Int) - 1 then do
      let next ← s.mStructureInfoPoints[(s.mActiveStructureIdx + 1).toNat]?
      some (decide (next.mSample ≤ s.mPlayhead))
    else some false)
  if advance = true then do
    let idx := s.mActiveStructureIdx + 1
    let info ← s.mStructureInfoPoints[idx.toNat]?
    some { s with mActiveStructureIdx := idx, world := pushStructure info s.world }
  else some s

/-- The method `ApplyStructure`. -/
def ApplyStructure (s : Recorder) : Option Recorder := do
  let mp ← readAt s.mMeasurePos s.mPlayhead
  let s1 := applyMeasurePos mp s
  if s1.mStructureInfoPoints.isEmpty then some s1
  else advanceStructure s1

/-! ## `Process` -/

/-- The inner loop of `Process` over `j`, from buffer number `j` on: every buffer that is not
the record target, is not muted and is longer than the playhead adds its sample times the
squared volume to the output pair. -/
def mixBuffers (playhead recordIdx : Int) :
    List RecordBuffer → Int → ℚ × ℚ → Option (ℚ × ℚ)
  | [], _, out => some out
  | b :: bs, j, out =>
    if j ≠ recordIdx ∧ b.mControls.mMute = false ∧ playhead < b.mLength then do
      let volSq := b.mControls.mVol * b.mControls.mVol
      let l ← readAt b.mLeft playhead
      let r ← readAt b.mRight playhead
      mixBuffers playhead recordIdx bs (j + 1) (out.1 + l * volSq, out.2 + r * volSq)
    else mixBuffers playhead recordIdx bs (j + 1) out

/-- One sample of the audio batch: `left[i]`, `right[i]`, and the measure position the
transport reports for that sample's time. -/
structure SampleIn where
  left : ℚ
  right : ℚ
  measurePos : ℚ
  deriving DecidableEq, Repr

/-- Lines 157-160 of `Process`: capture the structure at the recording frontier, replay
it behind the frontier. -/
def structureStep (s : Recorder) (x : SampleIn) : Option Recorder :=
  if IsRecordingStructure s = true then RecordStructure x.measurePos s
  else ApplyStructure s

/-- Lines 162-166 of `Process`: when recording, the input sample is stored in the buffer
numbered `recordIdx` at the playhead. -/
def recordInput (recordIdx : Int) (x : SampleIn) (s : Recorder) : Option Recorder :=
  if s.mRecording = true then do
    let b ← getBuffer s.mRecordBuffers recordIdx
    let l ← writeAt b.mLeft s.mPlayhead x.left
    let r ← writeAt b.mRight s.mPlayhead x.right
    some { s with
      mRecordBuffers := setBuffer s.mRecordBuffers recordIdx { b with mLeft := l, mRight := r } }
  else some s

/-- Lines 180-181 of `Process`: the playhead moves on unless it is on the last sample. -/
def advancePlayhead (s : Recorder) : Recorder :=
  if s.mPlayhead < s.mRecordingLength - 1 then { s with mPlayhead := s.mPlayhead + 1 } else s

/-- The body of the per-sample loop of `Process`.  Returns the new state and the values left
in `left[i]` and `right[i]`. -/
def ProcessSample (s : Recorder) (x : SampleIn) : Option (Recorder × ℚ × ℚ) := do
  let recordIdx := GetRecordIdx s
  let s1 ← structureStep s x
  let s2 ← recordInput recordIdx x s1
  let out ← mixBuffers s2.mPlayhead recordIdx s2.mRecordBuffers 0 (x.left, x.right)
  some (advancePlayhead s2, out)

/-- The per-sample loop of `Process` over a batch. -/
def processLoop : Recorder → List SampleIn → Option (Recorder × List (ℚ × ℚ))
  | s, [] => some (s, [])
  | s, x :: xs => do
    let (s1, out) ← ProcessSample s x
    let (s2, outs) ← processLoop s1 xs
    some (s2, out :: outs)

/-- The method `Process` on an enabled module: the loop runs when recording or playing,
otherwise the batch passes through untouched.  (The clip arrangers, which are processed
afterwards, are outside the embedding.) -/
def Process (s : Recorder) (batch : List SampleIn) : Option (Recorder × List (ℚ × ℚ)) :=
  if s.mRecording = true ∨ s.mPlay = true then processLoop s batch
  else some (s, batch.map (fun x => (x.left, x.right)))

/-! ## `OnClicked` -/

/-- The openFrameworks helper `ofClamp(value, min, max)`. -/
def ofClamp (value lo hi : ℚ) : ℚ :=
  if value < lo then lo else if value > hi then hi else value

/-- Conversion of a `float` to `int`: truncation toward zero. -/
def truncToInt (q : ℚ) : Int :=
  if 0 ≤ q then ⌊q⌋ else -⌊-q⌋

/-- The method `MeasureToPos(measure)`. -/
def MeasureToPos (s : Recorder) (measure : Nat) : ℚ :=
  (s.mMeasures measure : ℚ) / (s.mRecordingLength : ℚ)

/-- The loop of `PosToMeasure(pos)` from measure number `i` on, with `n` measures left. -/
def posToMeasureFrom (s : Recorder) (pos : ℚ) : Nat → Nat → Int
  | _, 0 => -1
  | i, n + 1 => if pos < MeasureToPos s i then (i : Int) - 1 else posToMeasureFrom s pos (i + 1) n

/-- The method `PosToMeasure(pos)`. -/
def PosToMeasure (s : Recorder) (pos : ℚ) : Int :=
  posToMeasureFrom s pos 0 s.mNumMeasures.toNat

/-- The method `MouseXToBufferPos(mouseX)`. -/
def MouseXToBufferPos (s : Recorder) (mouseX : ℚ) : ℚ :=
  (mouseX - 5) / s.mBufferWidth

/-- The value `mRecordBuffers.size()-1` as the unsigned type computes it. -/
def sizeMinusOne (bufs : List RecordBuffer) : Int :=
  if bufs.length = 0 then 2 ^ 64 - 1 else (bufs.length : Int) - 1

/-- The local `clickedIdx` of `OnClicked`:
`ofClamp((y-20)/mBufferHeight, 0, mRecordBuffers.size()-1)` converted to `int`. -/
def clickedIndex (s : Recorder) (y : Int) : Int :=
  truncToInt (ofClamp (((y - 20 : Int) : ℚ) / s.mBufferHeight) 0
    (sizeMinusOne s.mRecordBuffers : ℚ))

/-- The merge branch of `OnClicked` once the two indices are known to differ:
`FixLengths`, two `Add`s of `mRecordingLength` samples, `DeleteBuffer(mMergeBufferIdx)`. -/
def mergeInto (junk : Nat → ℚ) (clickedIdx : Int) (s : Recorder) : Option Recorder := do
  let s ← FixLengths junk s
  let dst ← getBuffer s.mRecordBuffers clickedIdx
  let src ← getBuffer s.mRecordBuffers s.mMergeBufferIdx
  let l ← Add dst.mLeft src.mLeft s.mRecordingLength
  let s := { s with mRecordBuffers := setBuffer s.mRecordBuffers clickedIdx { dst with mLeft := l } }
  let dst ← getBuffer s.mRecordBuffers clickedIdx
  let src ← getBuffer s.mRecordBuffers s.mMergeBufferIdx
  let r ← Add dst.mRight src.mRight s.mRecordingLength
  let s := { s with mRecordBuffers := setBuffer s.mRecordBuffers clickedIdx { dst with mRight := r } }
  DeleteBuffer s s.mMergeBufferIdx

/-- The last branch of `OnClicked`: move the playhead, select the record target, forget the
replay cursor. -/
def seekClick (clickedIdx : Int) (clickPos : ℚ) (s : Recorder) : Recorder :=
  let s := { s with
    mPlayhead := truncToInt (ofClamp (clickPos * (s.mRecordingLength : ℚ)) 0
      ((s.mRecordingLength - 1 : Int) : ℚ)) }
  let s := if clickedIdx ≠ s.mRecordIdx then
    { s with mRecordIdx := clickedIdx, mRecording := false } else s
  { s with mActiveStructureIdx := -1 }

/-- The keys `OnClicked` asks about and whether a clip arranger took the click. -/
structure ClickContext where
  clipHit : Bool
  keyX : Bool
  keyS : Bool
  keyA : Bool
  deriving DecidableEq, Repr

/-- The method `OnClicked(x, y, right)`. -/
def OnClicked (RECORD_CHUNK_SIZE : Nat) (junk : Nat → ℚ) (c : ClickContext) (x y : Int)
    (s : Recorder) : Option Recorder :=
  if c.clipHit = true then some s
  else if y > 20 ∧ x > 5 ∧ (x : ℚ) < s.mBufferWidth + 5 then
    let clickedIdx := clickedIndex s y
    let clickPos := MouseXToBufferPos s x
    if c.keyX = true then do
      let s ← DeleteBuffer s clickedIdx
      if s.mRecordBuffers.isEmpty then AddRecordBuffer (ResetAll RECORD_CHUNK_SIZE s)
      else some s
    else if c.keyS = true then
      let m := PosToMeasure s clickPos
      some { s with mSelectedMeasureStart := m, mSelectedMeasureEnd := m + 1, mSelecting := true }
    else if c.keyA = true then
      (if s.mMergeBufferIdx = clickedIdx then some { s with mMergeBufferIdx := -1 }
      else some { s with mMergeBufferIdx := clickedIdx })
    else if s.mMergeBufferIdx ≠ -1 then do
      let s ← (if s.mMergeBufferIdx ≠ clickedIdx then mergeInto junk clickedIdx s else some s)
      some { s with mMergeBufferIdx := -1 }
    else some (seekClick clickedIdx clickPos s)
  else some s

/-! ## Concrete states used to instantiate the theorems -/

/-- Collaborator values used in the examples. -/
def demoWorld : Collaborators := ⟨0, "major", 4, 4, 120, 0, 0⟩

/-- Uninitialised storage used in the examples: every cell reads `7`. -/
def demoJunk : Nat → ℚ := fun _ => 7

/-- A buffer of length 2 holding the samples `1, 1` on both channels. -/
def demoBuffer : RecordBuffer := ⟨[1, 1], [1, 1], 2, BufferControls.new⟩

/-- A recording engine of length 2 with one buffer, playhead on the last sample. -/
def demoRecording : Recorder :=
  { mRecordingLength := 2
    mRecording := true
    mBufferWidth := 800
    mBufferHeight := 80
    mActiveStructureIdx := 0
    mRecordIdx := 0
    mMaxRecordedLength := 0
    mNumMeasures := 1
    mMeasures := fun _ => 0
    mSelectedMeasureStart := -1
    mSelectedMeasureEnd := -1
    mSelecting := false
    mMergeBufferIdx := -1
    mUndoBuffer := ⟨[0, 0], [0, 0], 2, BufferControls.new⟩
    mRecordBuffers := [demoBuffer]
    mMeasurePos := [0, 1 / 2]
    mStructureInfoPoints := [snapshot 0 demoWorld]
    mPlayhead := 1
    mPlay := false
    mSampleLength := 2
    world := demoWorld }

/-! ## Predicates used in the statements -/

/-- The representation invariant of a `RecordBuffer`: both arrays are allocated with exactly
`mLength` samples. -/
def RecordBuffer.WF (b : RecordBuffer) : Prop :=
  (b.mLeft.length : Int) = b.mLength ∧ (b.mRight.length : Int) = b.mLength

instance (b : RecordBuffer) : Decidable b.WF := by
  unfold RecordBuffer.WF; infer_instance

/-- The buffer `b` extended with silence up to `recordingLength` samples (unchanged when
it is already that long): what `FixLengths` is meant to produce. -/
def padTo (recordingLength : Int) (b : RecordBuffer) : RecordBuffer :=
  { b with
    mLeft := b.mLeft ++ List.replicate (recordingLength - b.mLength).toNat 0
    mRight := b.mRight ++ List.replicate (recordingLength - b.mLength).toNat 0
    mLength := max b.mLength recordingLength }

/-- A buffer of length 2 holding `1, 1` and one holding silence, used in the merge example. -/
def demoLoud : RecordBuffer := ⟨[1, 1], [1, 1], 2, BufferControls.new⟩

/-- A silent buffer of length 2. -/
def demoQuiet : RecordBuffer := ⟨[0, 0], [0, 0], 2, BufferControls.new⟩

/-- An engine whose recording length (1) is shorter than its two buffers (2 each), with
buffer 0 selected for merging. -/
def demoMerge : Recorder :=
  { demoRecording with
    mRecordingLength := 1
    mRecording := false
    mPlayhead := 0
    mMergeBufferIdx := 0
    mRecordBuffers := [demoLoud, demoQuiet]
    mMeasurePos := [0] }

/-- The merge-conservation sentence exactly as the specification words it, for a click at
`(x, y)` that merges buffer `src` into buffer `dst`: the sum holds at every index below
`min(lenA, lenB)`. -/
def MergeConservationAsStated (C : Nat) (junk : Nat → ℚ) (x y : Int) (s : Recorder)
    (src dst : Nat) : Prop :=
  ∀ A B, s.mRecordBuffers[src]? = some A → s.mRecordBuffers[dst]? = some B →
    ∃ s' B', OnClicked C junk ⟨false, false, false, false⟩ x y s = some s' ∧
      s'.mRecordBuffers.length + 1 = s.mRecordBuffers.length ∧
      s'.mRecordBuffers[if dst < src then dst else dst - 1]? = some B' ∧
      (∀ (i : Nat) a b, (i : Int) < min A.mLength B.mLength →
        A.mLeft[i]? = some a → B.mLeft[i]? = some b → B'.mLeft[i]? = some (b + a)) ∧
      (∀ (i : Nat) a b, (i : Int) < min A.mLength B.mLength →
        A.mRight[i]? = some a → B.mRight[i]? = some b → B'.mRight[i]? = some (b + a))

/-- A session from a fresh engine (chunk size 2, sample rate 2): record four samples of
`1` with one `Poll` growth, stop, delete the only buffer (which resets the length to 2),
undo into the fresh buffer, add a track, undo into it too, then select buffer 0 as the
merge source.  Both buffers now hold four samples while the recording length is 2. -/
def demoLongBuffersSession : Option Recorder := do
  let s ← Recorder.new 2 false (fun _ => 0) demoWorld
  let s ← setRecording id demoJunk true s
  let (s, _) ← Process s [⟨1, 1, 0⟩]
  let s ← Poll 2 2 demoJunk s
  let (s, _) ← Process s [⟨1, 1, 1 / 2⟩, ⟨1, 1, 1 / 4⟩, ⟨1, 1, 1 / 2⟩]
  let s ← setRecording id demoJunk false s
  let s ← OnClicked 2 demoJunk ⟨false, true, false, false⟩ 6 21 s
  let s ← ButtonClicked demoJunk Button.undoRecord s
  let s ← ButtonClicked demoJunk Button.addTrack s
  let s ← ButtonClicked demoJunk Button.undoRecord s
  OnClicked 2 demoJunk ⟨false, false, false, true⟩ 6 21 s

/-- The memory-safety precondition of one per-sample step: the playhead indexes the
measure-position array, the measure counter is not negative, every buffer is well formed,
and when recording the record target exists and is longer than the playhead. -/
def StepSafe (s : Recorder) : Prop :=
  0 ≤ s.mPlayhead ∧ s.mPlayhead < s.mMeasurePos.length ∧ 0 ≤ s.mNumMeasures ∧
  (∀ b ∈ s.mRecordBuffers, b.WF) ∧
  (s.mRecording = true →
    ∃ b, getBuffer s.mRecordBuffers s.mRecordIdx = some b ∧ s.mPlayhead < b.mLength)

/-! ## Sessions: the operations a user and the audio callback can perform -/

/-- Modelled from the spec: the absent slider and checkbox widgets bound to a buffer's
`mVol` and `mMute` ("per-buffer mute/volume controls"); they overwrite the controls of
buffer `j` when it exists. -/
def setControls (j : Nat) (c : BufferControls) (s : Recorder) : Recorder :=
  match s.mRecordBuffers[j]? with
  | some b => { s with mRecordBuffers := s.mRecordBuffers.set j { b with mControls := c } }
  | none => s

/-- One operation on the engine: an audio batch, a `Poll`, a click, a button, the record or
play checkbox, a change of a buffer's controls, a change of what the collaborators hold
(made by the rest of the synthesizer), or `ResetAll`.  An operation that runs into undefined
behaviour has no successor state. -/
inductive Step (RECORD_CHUNK_SIZE : Nat) (gSampleRate : Int) : Recorder → Recorder → Prop
  | process {s s' : Recorder} (batch : List SampleIn) (outs : List (ℚ × ℚ)) :
      Process s batch = some (s', outs) → Step RECORD_CHUNK_SIZE gSampleRate s s'
  | poll {s s' : Recorder} (junk : Nat → ℚ) :
      Poll RECORD_CHUNK_SIZE gSampleRate junk s = some s' → Step RECORD_CHUNK_SIZE gSampleRate s s'
  | click {s s' : Recorder} (junk : Nat → ℚ) (c : ClickContext) (x y : Int) :
      OnClicked RECORD_CHUNK_SIZE junk c x y s = some s' →
      Step RECORD_CHUNK_SIZE gSampleRate s s'
  | button {s s' : Recorder} (junk : Nat → ℚ) (b : Button) :
      ButtonClicked junk b s = some s' → Step RECORD_CHUNK_SIZE gSampleRate s s'
  | record {s s' : Recorder} (transportReset : Collaborators → Collaborators)
      (junk : Nat → ℚ) (value : Bool) :
      setRecording transportReset junk value s = some s' →
      Step RECORD_CHUNK_SIZE gSampleRate s s'
  | play {s s' : Recorder} (transportReset : Collaborators → Collaborators)
      (junk : Nat → ℚ) (value : Bool) :
      setPlaying transportReset junk value s = some s' →
      Step RECORD_CHUNK_SIZE gSampleRate s s'
  | controls {s : Recorder} (j : Nat) (c : BufferControls) :
      Step RECORD_CHUNK_SIZE gSampleRate s (setControls j c s)
  | collaborators {s : Recorder} (w : Collaborators) :
      Step RECORD_CHUNK_SIZE gSampleRate s { s with world := w }
  | resetAll {s : Recorder} :
      Step RECORD_CHUNK_SIZE gSampleRate s (ResetAll RECORD_CHUNK_SIZE s)

/-- The states reachable from a freshly constructed engine. -/
inductive Reachable (RECORD_CHUNK_SIZE : Nat) (gSampleRate : Int) : Recorder → Prop
  | init {s : Recorder} (selecting0 : Bool) (measures0 : Nat → Int) (w : Collaborators) :
      Recorder.new RECORD_CHUNK_SIZE selecting0 measures0 w = some s →
      Reachable RECORD_CHUNK_SIZE gSampleRate s
  | step {s s' : Recorder} :
      Reachable RECORD_CHUNK_SIZE gSampleRate s → Step RECORD_CHUNK_SIZE gSampleRate s s' →
      Reachable RECORD_CHUNK_SIZE gSampleRate s'

/-- The playhead lies inside the recording region. -/
def PlayheadInRange (s : Recorder) : Prop :=
  0 ≤ s.mPlayhead ∧ s.mPlayhead ≤ s.mRecordingLength - 1

/-- Strictly increasing sample positions from one structure entry to the next. -/
def StrictlyIncreasingSamples (pts : List StructureInfo) : Prop :=
  ∀ (i : Nat) (a b : StructureInfo), pts[i]? = some a → pts[i + 1]? = some b →
    a.mSample < b.mSample

/-- A session from a fresh engine (chunk size 2): record one sample, delete the only buffer
with an x-click (which runs `ResetAll`), let the tempo change from 120 to 130, record one
sample again. -/
def demoResetSession : Option Recorder := do
  let s ← Recorder.new 2 false (fun _ => 0) demoWorld
  let s ← setRecording id demoJunk true s
  let (s, _) ← Process s [⟨0, 0, 0⟩]
  let s ← OnClicked 2 demoJunk ⟨false, true, false, false⟩ 6 21 s
  let s := { s with world := { demoWorld with tempo := 130 } }
  let s ← setRecording id demoJunk true s
  let (s, _) ← Process s [⟨0, 0, 0⟩]
  some s

/-- The first part of `demoResetSession`: record one sample on a fresh engine, then delete
the only buffer. -/
def demoDeleteLastSession : Option Recorder := do
  let s ← Recorder.new 2 false (fun _ => 0) demoWorld
  let s ← setRecording id demoJunk true s
  let (s, _) ← Process s [⟨0, 0, 0⟩]
  OnClicked 2 demoJunk ⟨false, true, false, false⟩ 6 21 s

/-! ## Capture and replay sessions -/

/-- The six values a structure entry records, read from the collaborators. -/
def structureOf (w : Collaborators) : Int × String × Int × Int × ℚ × ℚ :=
  (w.scaleRoot, w.scaleType, w.timeSigTop, w.timeSigBottom, w.tempo, w.swing)

/-- The six values stored in a structure entry. -/
def StructureInfo.values (e : StructureInfo) : Int × String × Int × Int × ℚ × ℚ :=
  (e.mScaleRoot, e.mScaleType, e.mTimeSigTop, e.mTimeSigBottom, e.mTempo, e.mSwing)

/-- Capture of the samples `0 .. n-1`: before sample `k` the collaborators hold `env k`, then
`Process` is called with the one-sample batch `inp k`. -/
def captureFrom (env : Nat → Collaborators) (inp : Nat → SampleIn) (s : Recorder) :
    Nat → Option Recorder
  | 0 => some s
  | k + 1 => do
    let s1 ← captureFrom env inp s k
    let (s2, _) ← Process { s1 with world := env k } [inp k]
    some s2

/-- Replay of `n` samples: `Process` is called `n` times with the one-sample batches
`inp 0, inp 1, ...`; nothing but the engine touches the collaborators. -/
def replayFrom (inp : Nat → SampleIn) (s : Recorder) : Nat → Option Recorder
  | 0 => some s
  | k + 1 => do
    let s1 ← replayFrom inp s k
    let (s2, _) ← Process s1 [inp k]
    some s2

/-- The number of changes of the structure values between consecutive samples up to
sample `p`: the position in the entry list of the entry that governs sample `p`. -/
def govIdx (env : Nat → Collaborators) : Nat → Nat
  | 0 => 0
  | p + 1 =>
    if structureOf (env (p + 1)) ≠ structureOf (env p) then govIdx env p + 1 else govIdx env p

/-- The entry list after capturing samples `0 .. k` under `env`: it has one entry per change,
the entry governing sample `p` starts at or before `p` and holds the values of `env p`, and
the entry after it starts later than `p`. -/
def EntriesOK (env : Nat → Collaborators) (k : Nat) (pts : List StructureInfo) : Prop :=
  pts.length = govIdx env k + 1 ∧
  (∀ p, p ≤ k → ∃ e, pts[govIdx env p]? = some e ∧ e.mSample ≤ (p : Int) ∧
    e.values = structureOf (env p)) ∧
  (∀ p, p ≤ k → ∀ e, pts[govIdx env p + 1]? = some e → (p : Int) < e.mSample)

/-- The engine after capturing the samples `0 .. n-1` of a session on a fresh engine with
chunk size `C` (no growth, `n <= C`): recording is on, the playhead and the frontier have
advanced with the samples, the single buffer is intact, and the entry list describes
`env`. -/
def CaptureState (C : Nat) (env : Nat → Collaborators) (n : Nat) (s : Recorder) : Prop :=
  s.mRecording = true ∧ s.mRecordingLength = C ∧ s.mMeasurePos.length = C ∧
  s.mPlayhead = (if n < C then (n : Int) else (C : Int) - 1) ∧
  s.mMaxRecordedLength = (n : Int) - 1 ∧ s.mRecordIdx = 0 ∧
  (∃ b, s.mRecordBuffers = [b] ∧ b.WF ∧ b.mLength = C) ∧ 0 ≤ s.mNumMeasures ∧
  s.mBufferWidth = 800 ∧ s.mMergeBufferIdx = -1 ∧ s.mUndoBuffer.WF ∧
  (match n with
    | 0 => s.mStructureInfoPoints = []
    | k + 1 => EntriesOK env k s.mStructureInfoPoints)

/-- The replay cursor after replaying the samples `0 .. p-1`: undetermined before the first
sample, afterwards on the entry governing the last replayed sample, whose values the
collaborators hold. -/
def CursorAt (env : Nat → Collaborators) (p : Nat) (cursor : Int) (w : Collaborators) : Prop :=
  match p with
  | 0 => cursor = -1
  | q + 1 => cursor = (govIdx env q : Int) ∧ structureOf w = structureOf (env q)

/-- The engine after replaying the samples `0 .. p-1` of a session of `N + 1` captured
samples: recording is off, playing is on, and the replay cursor is on the entry governing
the last replayed sample, whose values the collaborators hold. -/
def ReplayState (C : Nat) (env : Nat → Collaborators) (N p : Nat) (s : Recorder) : Prop :=
  s.mRecording = false ∧ s.mPlay = true ∧ s.mRecordingLength = C ∧ s.mMeasurePos.length = C ∧
  s.mPlayhead = (if p < C then (p : Int) else (C : Int) - 1) ∧
  (∀ b ∈ s.mRecordBuffers, b.WF) ∧ 0 ≤ s.mNumMeasures ∧
  EntriesOK env N s.mStructureInfoPoints ∧
  CursorAt env p s.mActiveStructureIdx s.world

/-- The state the constructor produces, written out field by field. -/
def freshEngine (C : Nat) (selecting0 : Bool) (measures0 : Nat → Int) (w : Collaborators) :
    Recorder :=
  { mRecordingLength := C
    mRecording := false
    mBufferWidth := 800
    mBufferHeight := 80
    mActiveStructureIdx := -1
    mRecordIdx := 0
    mMaxRecordedLength := -1
    mNumMeasures := 0
    mMeasures := measures0
    mSelectedMeasureStart := -1
    mSelectedMeasureEnd := -1
    mSelecting := selecting0
    mMergeBufferIdx := -1
    mUndoBuffer := ⟨List.replicate C 0, List.replicate C 0, C, BufferControls.new⟩
    mRecordBuffers := [⟨List.replicate C 0, List.replicate C 0, C, BufferControls.new⟩]
    mMeasurePos := List.replicate C 0
    mStructureInfoPoints := []
    mPlayhead := 0
    mPlay := false
    mSampleLength := 0
    world := w }

/-- The collaborators of the example session: tempo 120 at sample 0, tempo 130 afterwards. -/
def demoEnv : Nat → Collaborators :=
  fun k => if k = 0 then demoWorld else { demoWorld with tempo := 130 }

/-- The audio input of the example session: silence. -/
def demoInput : Nat → SampleIn := fun _ => ⟨0, 0, 0⟩

/-- The example session replayed after the reset-playhead button: on a fresh engine (chunk
size 2) capture two samples under `demoEnv`, stop recording, switch play on, press the
reset button, and replay `k` samples. -/
def demoButtonReplay (k : Nat) : Option Recorder := do
  let s ← Recorder.new 2 false (fun _ => 0) demoWorld
  let s ← setRecording id demoJunk true s
  let s ← captureFrom demoEnv demoInput s 2
  let s ← setRecording id demoJunk false s
  let s ← setPlaying id demoJunk true s
  let s ← ButtonClicked demoJunk Button.resetPlayhead s
  replayFrom demoInput s k

/-- An engine whose recording length (3) is longer than its two buffers (2 each). -/
def demoShortBuffers : Recorder :=
  { demoMerge with mRecordingLength := 3, mMergeBufferIdx := -1, mMeasurePos := [0, 0, 0] }

/-- The example session up to the moment before seeking back: on a fresh engine (chunk
size 2) capture two samples under `demoEnv`, stop recording, switch play on. -/
def demoCapturedSession : Option Recorder := do
  let s ← Recorder.new 2 false (fun _ => 0) demoWorld
  let s ← setRecording id demoJunk true s
  let s ← captureFrom demoEnv demoInput s 2
  let s ← setRecording id demoJunk false s
  setPlaying id demoJunk true s

/-- Consecutive structure entries differ in at least one of the six recorded values. -/
def NoRedundantEntries (pts : List StructureInfo) : Prop :=
  ∀ (i : Nat) (a b : StructureInfo), pts[i]? = some a → pts[i + 1]? = some b →
    a.values ≠ b.values

/-- A session from a fresh engine (chunk size 2): add a track (which becomes the record
target, index 1), switch recording on, then delete buffer 0 with an x-click. -/
def demoStaleTargetSession : Option Recorder := do
  let s ← Recorder.new 2 false (fun _ => 0) demoWorld
  let s ← ButtonClicked demoJunk Button.addTrack s
  let s ← setRecording id demoJunk true s
  OnClicked 2 demoJunk ⟨false, true, false, false⟩ 6 21 s

/-- A session from a fresh engine (chunk size 2, sample rate 2): record four samples with
one `Poll` growth in between, undo (which restores the two-sample snapshot taken at
record-enable), and switch recording on again. -/
def demoShortTargetSession : Option Recorder := do
  let s ← Recorder.new 2 false (fun _ => 0) demoWorld
  let s ← setRecording id demoJunk true s
  let (s, _) ← Process s [⟨1, 1, 0⟩]
  let s ← Poll 2 2 demoJunk s
  let (s, _) ← Process s [⟨1, 1, 0⟩, ⟨1, 1, 0⟩]
  let s ← ButtonClicked demoJunk Button.undoRecord s
  setRecording id demoJunk true s

/-- Every buffer of `l` is still at its position in `l'` with the same `mLength` and the same
allocated sizes. -/
def SameShape (l l' : List RecordBuffer) : Prop :=
  ∀ (k : Nat) (b : RecordBuffer), l[k]? = some b →
    ∃ b' : RecordBuffer, l'[k]? = some b' ∧ b'.mLength = b.mLength ∧
      b'.mLeft.length = b.mLeft.length ∧ b'.mRight.length = b.mRight.length

/-- A session from a fresh engine (chunk size 2, sample rate 2): switch recording on (the
snapshot taken has two samples), record one sample, let `Poll` grow the recording to four
samples. -/
def demoGrownSession : Option Recorder := do
  let s ← Recorder.new 2 false (fun _ => 0) demoWorld
  let s ← setRecording id demoJunk true s
  let (s, _) ← Process s [⟨1, 1, 0⟩]
  Poll 2 2 demoJunk s

/-- Entry number `g` of `pts` is the one whose sample position is the greatest that is at
most `p`. -/
def GoverningEntry (pts : List StructureInfo) (p : Int) (g : Nat) : Prop :=
  ∃ e : StructureInfo, pts[g]? = some e ∧ e.mSample ≤ p ∧
    ∀ (j : Nat) (e' : StructureInfo), pts[j]? = some e' → e'.mSample ≤ p →
      e'.mSample ≤ e.mSample

/-- The sentence "after the step the cursor indexes the entry whose samplePosition is the
greatest value <= p and that entry's scale/tempo/signature/swing are the ones last pushed
to the collaborators" as the specification words it, for one call of `ApplyStructure`
with a non-empty, strictly increasing entry list holding an entry at or before the playhead
and a prior cursor in `[-1, size - 1]` whose entry, if any, is at or before the playhead. -/
def ReplayLocatesAsStated (s : Recorder) : Prop :=
  s.mStructureInfoPoints ≠ [] → StrictlyIncreasingSamples s.mStructureInfoPoints →
  (∃ e ∈ s.mStructureInfoPoints, e.mSample ≤ s.mPlayhead) →
  -1 ≤ s.mActiveStructureIdx →
  s.mActiveStructureIdx ≤ (s.mStructureInfoPoints.length : Int) - 1 →
  (∀ e : StructureInfo, 0 ≤ s.mActiveStructureIdx →
    s.mStructureInfoPoints[s.mActiveStructureIdx.toNat]? = some e → e.mSample ≤ s.mPlayhead) →
  ∃ (s' : Recorder) (g : Nat) (e : StructureInfo), ApplyStructure s = some s' ∧
    s'.mActiveStructureIdx = (g : Int) ∧ GoverningEntry s.mStructureInfoPoints s.mPlayhead g ∧
    s.mStructureInfoPoints[g]? = some e ∧ structureOf s'.world = e.values

/-- The example capture followed by a seek: after `demoCapturedSession` (entries at samples
0 and 1) a click at x = 500 on the only buffer puts the playhead on sample 1. -/
def demoSeekSession : Option Recorder := do
  let s ← demoCapturedSession
  OnClicked 2 demoJunk ⟨false, false, false, false⟩ 500 30 s

/-- A replaying engine of length 2 with entries at samples 0 (tempo 120) and 1 (tempo 130),
the cursor on the first entry and the playhead on sample 1. -/
def demoReplaying : Recorder :=
  { demoRecording with
    mRecording := false
    mPlay := true
    mStructureInfoPoints := [snapshot 0 demoWorld, snapshot 1 { demoWorld with tempo := 130 }]
    mActiveStructureIdx := 0 }

/-! ## Lock discipline

The second reading of the methods: instead of the state they compute, the order in which
they take the mutex, release it, and write to the data it protects. -/

/-- The data the control side writes: what the mutex protects (the vector of buffers, a
buffer's channel arrays, a buffer's length, the measure-position array, the recording
length), and the undo snapshot, which the audio thread never touches. -/
inductive Target where
  | trackSet
  | bufferData
  | bufferLength
  | measurePos
  | recordingLength
  | undoBuffer
  deriving DecidableEq, Repr

/-- Whether the audio thread's loop in `Process` reads or writes the target. -/
def Target.isShared : Target → Bool
  | Target.undoBuffer => false
  | _ => true

/-- One step of a method as far as locking is concerned: `mMutex.Lock`, `mMutex.Unlock`, a
write to a target, or one iteration of the per-sample loop of `Process`. -/
inductive Effect where
  | lock
  | unlock
  | write (t : Target)
  | sample
  deriving DecidableEq, Repr

/-- Modelled from the spec: "a single mutual-exclusion lock" that the same thread may take
again while it holds it (`OnClicked` takes it and then calls `DeleteBuffer`, which takes it
too), so the thread holds it while it has locked more often than unlocked.  `runLocks d es`
runs the steps `es` from `d` acquisitions; the result is the number of acquisitions at the
end, or `none` when a shared target is written, a sample is processed or the mutex is
released while the thread does not hold it. -/
def runLocks : Nat → List Effect → Option Nat
  | d, [] => some d
  | d, Effect.lock :: es => runLocks (d + 1) es
  | d, Effect.unlock :: es => if d = 0 then none else runLocks (d - 1) es
  | d, Effect.write t :: es =>
    if t.isShared = true ∧ d = 0 then none else runLocks d es
  | d, Effect.sample :: es => if d = 0 then none else runLocks d es

/-- Every write to a shared target and every processed sample happens while the mutex is
held, and the mutex is released as often as it is taken. -/
def LockDisciplined (es : List Effect) : Prop :=
  runLocks 0 es = some 0

/-- The steps of `Poll` (lines 103-137): the three assignments to the active buffer, to
`mMeasurePos` and to `mRecordingLength` stand between `Lock` and `Unlock`; the copies
before write only the freshly allocated arrays. -/
def PollEffects (gSampleRate : Int) (s : Recorder) : List Effect :=
  if s.mRecording = true ∧ s.mPlayhead > s.mRecordingLength - gSampleRate then
    [Effect.lock, Effect.write Target.bufferData, Effect.write Target.bufferData,
      Effect.write Target.bufferLength, Effect.write Target.measurePos,
      Effect.write Target.recordingLength, Effect.unlock]
  else []

/-- The steps of `Process` (lines 149-188): the mutex is taken once, the per-sample loop
runs when recording or playing, the mutex is released. -/
def ProcessEffects (s : Recorder) (batch : List SampleIn) : List Effect :=
  [Effect.lock] ++
    (if s.mRecording = true ∨ s.mPlay = true then batch.map (fun _ => Effect.sample) else []) ++
    [Effect.unlock]

/-- The steps of `AddRecordBuffer` (lines 352-355). -/
def AddRecordBufferEffects : List Effect :=
  [Effect.lock, Effect.write Target.trackSet, Effect.unlock]

/-- The steps of `DeleteBuffer` (lines 565-571). -/
def DeleteBufferEffects : List Effect :=
  [Effect.lock, Effect.write Target.trackSet, Effect.unlock]

/-- The steps of `ResetAll` (lines 432-436): the buffers are deleted, the vector is cleared
and `mRecordingLength` is assigned; the method itself takes no lock. -/
def ResetAllEffects (s : Recorder) : List Effect :=
  s.mRecordBuffers.map (fun _ => Effect.write Target.trackSet) ++
    [Effect.write Target.trackSet, Effect.write Target.recordingLength]

/-- The loop of `FixLengths` (lines 537-559): each buffer shorter than `mRecordingLength`
gets new channel arrays and a new length. -/
def fixLengthsEffects (recordingLength : Int) : List RecordBuffer → List Effect
  | [] => []
  | b :: bs =>
    (if b.mLength < recordingLength then
      [Effect.write Target.bufferData, Effect.write Target.bufferData,
        Effect.write Target.bufferLength]
    else []) ++ fixLengthsEffects recordingLength bs

/-- The steps of `FixLengths` (lines 536-560). -/
def FixLengthsEffects (s : Recorder) : List Effect :=
  [Effect.lock] ++ fixLengthsEffects s.mRecordingLength s.mRecordBuffers ++ [Effect.unlock]

/-- The steps of `CopyRecordBufferContents(dst, src)` (lines 576-586): when the lengths
differ `dst` gets new channel arrays and the length of `src`; then both channels of `dst`
are overwritten.  `dstInTrackSet` tells whether `dst` is a buffer of the track set or the
undo snapshot.  The method takes no lock. -/
def CopyRecordBufferContentsEffects (dstInTrackSet : Bool) (dst src : RecordBuffer) :
    List Effect :=
  let data := if dstInTrackSet = true then Target.bufferData else Target.undoBuffer
  let len := if dstInTrackSet = true then Target.bufferLength else Target.undoBuffer
  (if dst.mLength ≠ src.mLength then
    [Effect.write data, Effect.write data, Effect.write len]
  else []) ++ [Effect.write data, Effect.write data]

/-- The steps of `ButtonClicked(button)` (lines 595-605). -/
def ButtonClickedEffects (button : Button) (s : Recorder) : List Effect :=
  (if button = Button.addTrack then AddRecordBufferEffects else []) ++
  (if button = Button.fixLengths then FixLengthsEffects s else []) ++
  (if button = Button.undoRecord then
    (match getBuffer s.mRecordBuffers s.mRecordIdx with
      | some dst => CopyRecordBufferContentsEffects true dst s.mUndoBuffer
      | none => [])
  else [])

/-- The steps of `CheckboxUpdated(checkbox)` (lines 610-615). -/
def CheckboxUpdatedEffects (checkbox : Checkbox) (s : Recorder) : List Effect :=
  if checkbox = Checkbox.record then
    (match getBuffer s.mRecordBuffers s.mRecordIdx with
      | some src => CopyRecordBufferContentsEffects false s.mUndoBuffer src
      | none => [])
  else []

/-- The steps of `OnClicked(x, y, right)` (lines 452-508): the delete branch and the merge
branch take the mutex around the methods they call, which take it again; the other branches
write none of the targets. -/
def OnClickedEffects (c : ClickContext) (x y : Int) (s : Recorder) : List Effect :=
  if c.clipHit = true then []
  else if y > 20 ∧ x > 5 ∧ (x : ℚ) < s.mBufferWidth + 5 then
    let clickedIdx := clickedIndex s y
    if c.keyX = true then
      [Effect.lock] ++ DeleteBufferEffects ++
        (match DeleteBuffer s clickedIdx with
          | some s1 =>
            if s1.mRecordBuffers.isEmpty then ResetAllEffects s1 ++ AddRecordBufferEffects
            else []
          | none => []) ++
        [Effect.unlock]
    else if c.keyS = true then []
    else if c.keyA = true then []
    else if s.mMergeBufferIdx ≠ -1 then
      (if s.mMergeBufferIdx ≠ clickedIdx then
        [Effect.lock] ++ FixLengthsEffects s ++
          [Effect.write Target.bufferData, Effect.write Target.bufferData] ++
          DeleteBufferEffects ++ [Effect.unlock]
      else [])
    else []
  else []

/-! # Theorems -/

/-! ## Raw arrays -/

theorem newFloatArray_natCast (junk : Nat → ℚ) (n : Nat) :
    newFloatArray junk (n : Int) = some ((List.range n).map junk) := by
  simp [newFloatArray]

theorem BufferCopy_natCast (dst src : List ℚ) (d o n : Nat)
    (hs : o + n ≤ src.length) (hd : d + n ≤ dst.length) :
    BufferCopy dst (d : Int) src (o : Int) (n : Int)
      = some (dst.take d ++ (src.drop o).take n ++ dst.drop (d + n)) := by
  have h : (0 : Int) ≤ d ∧ (0 : Int) ≤ o ∧ (0 : Int) ≤ n ∧
      (o : Int) + n ≤ src.length ∧ (d : Int) + n ≤ dst.length := by
    refine ⟨by omega, by omega, by omega, by omega, by omega⟩
  simp [BufferCopy, h]

theorem Clear_natCast (buf : List ℚ) (o n : Nat) (h : o + n ≤ buf.length) :
    Clear buf (o : Int) (n : Int)
      = some (buf.take o ++ List.replicate n 0 ++ buf.drop (o + n)) := by
  have h' : (0 : Int) ≤ o ∧ (0 : Int) ≤ n ∧ (o : Int) + n ≤ buf.length := by
    refine ⟨by omega, by omega, by omega⟩
  simp [Clear, h']

theorem getBuffer_setBuffer_self (bufs : List RecordBuffer) (i : Int) (b b' : RecordBuffer)
    (h : getBuffer bufs i = some b) : getBuffer (setBuffer bufs i b') i = some b' := by
  unfold getBuffer at h ⊢
  split at h
  · rename_i hi
    rw [if_pos hi]
    have hlt : i.toNat < bufs.length := by
      by_contra hc
      rw [List.getElem?_eq_none (by omega)] at h
      exact Option.noConfusion h
    simp [setBuffer, hlt]
  · exact Option.noConfusion h

/-- The two writes `FixLengths` performs on one freshly allocated array. -/
theorem pad_steps (old a0 : List ℚ) (n L : Nat) (hlen : old.length = n) (hlt : n < L)
    (h0 : a0.length = L) :
    ∃ a1, BufferCopy a0 0 old 0 (n : Int) = some a1 ∧
      Clear a1 (n : Int) ((L : Int) - (n : Int)) = some (old ++ List.replicate (L - n) 0) := by
  have e1 := BufferCopy_natCast a0 old 0 0 n (by omega) (by omega)
  simp only [Nat.cast_zero, List.take_zero, List.drop_zero, List.nil_append, Nat.zero_add] at e1
  rw [← hlen, List.take_length, hlen] at e1
  have hsub : ((L : Int) - (n : Int)) = ((L - n : Nat) : Int) := by omega
  have hlen1 : (old ++ a0.drop n).length = L := by
    rw [List.length_append, List.length_drop]; omega
  have e2 := Clear_natCast (old ++ a0.drop n) n (L - n) (by rw [hlen1]; omega)
  have htake : (old ++ a0.drop n).take n = old := by
    rw [← hlen, List.take_left]
  have hnil : (old ++ a0.drop n).drop (n + (L - n)) = [] :=
    List.drop_eq_nil_of_le (by rw [hlen1]; omega)
  rw [htake, hnil, List.append_nil] at e2
  rw [hsub]
  exact ⟨_, e1, e2⟩

theorem fixLength_eq (junk : Nat → ℚ) (L : Int) (b : RecordBuffer) (hwf : b.WF) :
    fixLength junk L b = some (padTo L b) := by
  obtain ⟨hl, hr⟩ := hwf
  unfold fixLength
  split
  · rename_i hlt
    have hL0 : 0 ≤ L := by omega
    obtain ⟨Ln, rfl⟩ := Int.eq_ofNat_of_zero_le hL0
    have hn : b.mLength = ((b.mLeft.length : Nat) : Int) := hl.symm
    have hrl : b.mRight.length = b.mLeft.length := by omega
    have hlenlt : b.mLeft.length < Ln := by omega
    have h0 := newFloatArray_natCast junk Ln
    have ha0 : ((List.range Ln).map junk).length = Ln := by simp
    obtain ⟨l1, hl1, hl2⟩ := pad_steps b.mLeft _ b.mLeft.length Ln rfl hlenlt ha0
    obtain ⟨r1, hr1, hr2⟩ := pad_steps b.mRight _ b.mLeft.length Ln hrl hlenlt ha0
    have hsub : ((Ln : Int) - (b.mLeft.length : Int)).toNat = Ln - b.mLeft.length := by omega
    have hmax : max ((b.mLeft.length : Nat) : Int) (Ln : Int) = Ln := by omega
    simp only [h0, hn, hl1, hl2, hr1, hr2, Option.bind_eq_bind, Option.some_bind, padTo, hsub,
      hmax]
  · rename_i hge
    have h0 : (L - b.mLength).toNat = 0 := by omega
    have hmax : max b.mLength L = b.mLength := by omega
    simp [padTo, h0, hmax]

theorem fixLengthsLoop_eq (junk : Nat → ℚ) (L : Int) (bufs : List RecordBuffer)
    (hwf : ∀ b ∈ bufs, b.WF) : fixLengthsLoop junk L bufs = some (bufs.map (padTo L)) := by
  induction bufs with
  | nil => rfl
  | cons b bs ih =>
    have hb := fixLength_eq junk L b (hwf b (List.mem_cons_self _ _))
    have hbs := ih (fun c hc => hwf c (List.mem_cons_of_mem _ hc))
    simp only [fixLengthsLoop, hb, hbs, Option.bind_eq_bind, Option.some_bind, List.map_cons]

theorem FixLengths_eq (junk : Nat → ℚ) (s : Recorder) (hwf : ∀ b ∈ s.mRecordBuffers, b.WF) :
    FixLengths junk s
      = some { s with mRecordBuffers := s.mRecordBuffers.map (padTo s.mRecordingLength) } := by
  simp only [FixLengths, fixLengthsLoop_eq junk _ _ hwf, Option.bind_eq_bind, Option.some_bind]


theorem Add_natCast (dst src : List ℚ) (n : Nat) (hs : n ≤ src.length) (hd : n ≤ dst.length) :
    Add dst src (n : Int)
      = some (List.zipWith (fun a b => a + b) (dst.take n) (src.take n) ++ dst.drop n) := by
  have h : (0 : Int) ≤ n ∧ (n : Int) ≤ src.length ∧ (n : Int) ≤ dst.length := by
    refine ⟨by omega, by omega, by omega⟩
  simp [Add, h]

theorem add_getElem?_lt (dst src : List ℚ) (n i : Nat) (d a : ℚ) (hi : i < n)
    (hd : dst[i]? = some d) (ha : src[i]? = some a) :
    (List.zipWith (fun a b => a + b) (dst.take n) (src.take n) ++ dst.drop n)[i]?
      = some (d + a) := by
  have hid : i < dst.length := by
    by_contra hc
    rw [List.getElem?_eq_none (by omega)] at hd
    exact Option.noConfusion hd
  have his : i < src.length := by
    by_contra hc
    rw [List.getElem?_eq_none (by omega)] at ha
    exact Option.noConfusion ha
  have hlen : i < (List.zipWith (fun a b => a + b) (dst.take n) (src.take n)).length := by
    rw [List.length_zipWith, List.length_take, List.length_take]; omega
  rw [List.getElem?_append_left hlen, List.getElem?_zipWith, List.getElem?_take_of_lt hi,
    List.getElem?_take_of_lt hi, hd, ha]

theorem add_getElem?_ge (dst src : List ℚ) (n i : Nat) (hi : n ≤ i) (hs : n ≤ src.length)
    (hd : n ≤ dst.length) :
    (List.zipWith (fun a b => a + b) (dst.take n) (src.take n) ++ dst.drop n)[i]? = dst[i]? := by
  have hlen : (List.zipWith (fun a b => a + b) (dst.take n) (src.take n)).length = n := by
    rw [List.length_zipWith, List.length_take, List.length_take]; omega
  rw [List.getElem?_append_right (by omega), hlen, List.getElem?_drop]
  congr 1
  omega

theorem padTo_left_length (L : Nat) (b : RecordBuffer) (h : b.WF) :
    L ≤ (padTo L b).mLeft.length := by
  obtain ⟨hl, _⟩ := h
  simp only [padTo, List.length_append, List.length_replicate]
  omega

theorem padTo_right_length (L : Nat) (b : RecordBuffer) (h : b.WF) :
    L ≤ (padTo L b).mRight.length := by
  obtain ⟨_, hr⟩ := h
  simp only [padTo, List.length_append, List.length_replicate]
  omega

theorem getBuffer_natCast (bufs : List RecordBuffer) (i : Nat) :
    getBuffer bufs (i : Int) = bufs[i]? := by
  simp [getBuffer]

theorem setBuffer_natCast (bufs : List RecordBuffer) (i : Nat) (b : RecordBuffer) :
    setBuffer bufs (i : Int) b = bufs.set i b := by
  simp [setBuffer]

/-- The result of the merge branch, in closed form. -/
theorem mergeInto_eq (junk : Nat → ℚ) (s : Recorder) (src dst L : Nat) (A B : RecordBuffer)
    (hwf : ∀ b ∈ s.mRecordBuffers, b.WF) (hL : s.mRecordingLength = L)
    (hsrc : s.mMergeBufferIdx = src) (hne : src ≠ dst)
    (hA : s.mRecordBuffers[src]? = some A) (hB : s.mRecordBuffers[dst]? = some B) :
    mergeInto junk dst s = some { s with
      mRecordBuffers := ((s.mRecordBuffers.map (padTo L)).set dst
        { padTo L B with
          mLeft := List.zipWith (fun a b => a + b) ((padTo L B).mLeft.take L)
            ((padTo L A).mLeft.take L) ++ (padTo L B).mLeft.drop L
          mRight := List.zipWith (fun a b => a + b) ((padTo L B).mRight.take L)
            ((padTo L A).mRight.take L) ++ (padTo L B).mRight.drop L }).eraseIdx src } := by
  have hAwf : A.WF := hwf A (List.getElem?_mem hA)
  have hBwf : B.WF := hwf B (List.getElem?_mem hB)
  have hsrclt : src < s.mRecordBuffers.length := by
    by_contra hc
    rw [List.getElem?_eq_none (by omega)] at hA
    exact Option.noConfusion hA
  have hdstlt : dst < s.mRecordBuffers.length := by
    by_contra hc
    rw [List.getElem?_eq_none (by omega)] at hB
    exact Option.noConfusion hB
  have hpA : (s.mRecordBuffers.map (padTo L))[src]? = some (padTo L A) := by
    rw [List.getElem?_map, hA]; rfl
  have hpB : (s.mRecordBuffers.map (padTo L))[dst]? = some (padTo L B) := by
    rw [List.getElem?_map, hB]; rfl
  have hadd1 := Add_natCast (padTo L B).mLeft (padTo L A).mLeft L
    (padTo_left_length L A hAwf) (padTo_left_length L B hBwf)
  have hadd2 := Add_natCast (padTo L B).mRight (padTo L A).mRight L
    (padTo_right_length L A hAwf) (padTo_right_length L B hBwf)
  have hset1 : ∀ b', ((s.mRecordBuffers.map (padTo L)).set dst b')[dst]? = some b' := by
    intro b'
    rw [List.getElem?_set_self (by simpa using hdstlt)]
  have hset2 : ∀ b', ((s.mRecordBuffers.map (padTo L)).set dst b')[src]? = some (padTo L A) := by
    intro b'
    rw [List.getElem?_set_ne (fun h => hne h.symm), hpA]
  simp only [mergeInto, FixLengths_eq junk s hwf, hL, hsrc, Option.bind_eq_bind,
    Option.some_bind, getBuffer_natCast, setBuffer_natCast, hpA, hpB, hadd1, hset1, hset2,
    hadd2, List.set_set, DeleteBuffer, Int.toNat_ofNat, List.length_set, List.length_map,
    hsrclt, if_true]


theorem getElem?_lt_length {α : Type} (l : List α) (i : Nat) (a : α) (h : l[i]? = some a) :
    i < l.length := by
  by_contra hc
  rw [List.getElem?_eq_none (by omega)] at h
  exact Option.noConfusion h

theorem padTo_left_getElem?_of_some (L : Int) (b : RecordBuffer) (i : Nat) (a : ℚ)
    (h : b.mLeft[i]? = some a) : (padTo L b).mLeft[i]? = some a := by
  simp only [padTo]
  rw [List.getElem?_append_left (getElem?_lt_length _ _ _ h), h]

theorem padTo_right_getElem?_of_some (L : Int) (b : RecordBuffer) (i : Nat) (a : ℚ)
    (h : b.mRight[i]? = some a) : (padTo L b).mRight[i]? = some a := by
  simp only [padTo]
  rw [List.getElem?_append_left (getElem?_lt_length _ _ _ h), h]

theorem append_replicate_getElem?_ge (l : List ℚ) (k i : Nat) (h : l.length + k ≤ i ∨ i < l.length) :
    (l ++ List.replicate k (0 : ℚ))[i]? = l[i]? := by
  rcases h with h | h
  · rw [List.getElem?_eq_none (by simp; omega), List.getElem?_eq_none (by omega)]
  · rw [List.getElem?_append_left h]

theorem padTo_left_getElem?_ge (L : Nat) (b : RecordBuffer) (i : Nat) (hwf : b.WF) (hi : L ≤ i) :
    (padTo L b).mLeft[i]? = b.mLeft[i]? := by
  obtain ⟨hl, _⟩ := hwf
  simp only [padTo]
  apply append_replicate_getElem?_ge
  omega

theorem padTo_right_getElem?_ge (L : Nat) (b : RecordBuffer) (i : Nat) (hwf : b.WF) (hi : L ≤ i) :
    (padTo L b).mRight[i]? = b.mRight[i]? := by
  obtain ⟨_, hr⟩ := hwf
  simp only [padTo]
  apply append_replicate_getElem?_ge
  omega

/-- The merge branch of `OnClicked` is taken when no key is held and a merge source is
selected. -/
theorem OnClicked_merge (C : Nat) (junk : Nat → ℚ) (x y : Int) (s : Recorder) (src dst : Nat)
    (hy : y > 20) (hx : x > 5) (hxw : (x : ℚ) < s.mBufferWidth + 5)
    (hclick : clickedIndex s y = dst) (hsrc : s.mMergeBufferIdx = src) (hne : src ≠ dst) :
    OnClicked C junk ⟨false, false, false, false⟩ x y s
      = (mergeInto junk dst s).bind (fun s1 => some { s1 with mMergeBufferIdx := -1 }) := by
  have h1 : (src : Int) ≠ -1 := by omega
  have h2 : (src : Int) ≠ (dst : Int) := by omega
  simp [OnClicked, hy, hx, hxw, hclick, hsrc, h1, h2]

/-- C2, amended (merge conservation up to the recording length): for well-formed buffers,
recording length `L` and distinct valid indices `src` (merge source `A`) and `dst` (clicked
buffer `B`), the merge click succeeds; the set shrinks by exactly one; every buffer other
than `A` is still present, in the same relative order, with its controls and (when it is
not `B`) its samples as a prefix of the possibly zero-padded result; and the buffer that was
`B` satisfies `B'[i] = B[i] + A[i]` on both channels for every `i < min(lenA, lenB, L)` and
`B'[i] = B[i]` for every `i >= L`. -/
theorem merge_conservation_up_to_recording_length (C : Nat) (junk : Nat → ℚ) (x y : Int)
    (s : Recorder) (src dst L : Nat) (A B : RecordBuffer)
    (hy : y > 20) (hx : x > 5) (hxw : (x : ℚ) < s.mBufferWidth + 5)
    (hclick : clickedIndex s y = dst)
    (hwf : ∀ b ∈ s.mRecordBuffers, b.WF) (hL : s.mRecordingLength = L)
    (hsrc : s.mMergeBufferIdx = src) (hne : src ≠ dst)
    (hA : s.mRecordBuffers[src]? = some A) (hB : s.mRecordBuffers[dst]? = some B) :
    ∃ s', OnClicked C junk ⟨false, false, false, false⟩ x y s = some s' ∧
      s'.mRecordBuffers.length + 1 = s.mRecordBuffers.length ∧
      (∀ k b, k ≠ src → s.mRecordBuffers[k]? = some b →
        ∃ b', s'.mRecordBuffers[if k < src then k else k - 1]? = some b' ∧
          b'.mControls = b.mControls ∧
          (k ≠ dst → b.mLeft <+: b'.mLeft ∧ b.mRight <+: b'.mRight)) ∧
      (∃ B', s'.mRecordBuffers[if dst < src then dst else dst - 1]? = some B' ∧
        (∀ i a b, i < L → A.mLeft[i]? = some a → B.mLeft[i]? = some b →
          B'.mLeft[i]? = some (b + a)) ∧
        (∀ i a b, i < L → A.mRight[i]? = some a → B.mRight[i]? = some b →
          B'.mRight[i]? = some (b + a)) ∧
        (∀ i, L ≤ i → B'.mLeft[i]? = B.mLeft[i]? ∧ B'.mRight[i]? = B.mRight[i]?)) := by
  have hAwf : A.WF := hwf A (List.getElem?_mem hA)
  have hBwf : B.WF := hwf B (List.getElem?_mem hB)
  have hsrclt := getElem?_lt_length _ _ _ hA
  have hdstlt := getElem?_lt_length _ _ _ hB
  rw [OnClicked_merge C junk x y s src dst hy hx hxw hclick hsrc hne,
    mergeInto_eq junk s src dst L A B hwf hL hsrc hne hA hB]
  refine ⟨_, rfl, ?_, ?_, ?_⟩
  · simp only [List.length_eraseIdx, List.length_set, List.length_map, hsrclt, if_true]
    omega
  · intro k b hk hb
    have hmid : ∀ b2, (((s.mRecordBuffers.map (padTo L)).set dst b2).eraseIdx src)[
        if k < src then k else k - 1]? = ((s.mRecordBuffers.map (padTo L)).set dst b2)[k]? := by
      intro b2
      rw [List.getElem?_eraseIdx]
      by_cases hks : k < src
      · simp [hks]
      · have h1 : ¬ (k - 1 < src) := by omega
        have h2 : k - 1 + 1 = k := by omega
        simp only [hks, if_false, h1, h2]
    simp only [hmid]
    by_cases hkd : k = dst
    · subst hkd
      rw [List.getElem?_set_self (by simpa using hdstlt)]
      refine ⟨_, rfl, ?_, fun h => absurd rfl h⟩
      rw [hB] at hb
      cases hb
      rfl
    · rw [List.getElem?_set_ne (fun h => hkd h.symm), List.getElem?_map, hb]
      refine ⟨_, rfl, rfl, fun _ => ⟨?_, ?_⟩⟩
      · exact List.prefix_append _ _
      · exact List.prefix_append _ _
  · have hmid : ∀ b2, (((s.mRecordBuffers.map (padTo L)).set dst b2).eraseIdx src)[
        if dst < src then dst else dst - 1]? = some b2 := by
      intro b2
      rw [List.getElem?_eraseIdx]
      by_cases hks : dst < src
      · simp only [hks, if_true]
        rw [List.getElem?_set_self (by simpa using hdstlt)]
      · have h1 : ¬ (dst - 1 < src) := by omega
        have h2 : dst - 1 + 1 = dst := by omega
        simp only [hks, if_false, h1, h2]
        rw [List.getElem?_set_self (by simpa using hdstlt)]
    refine ⟨_, hmid _, ?_, ?_, ?_⟩
    · intro i a b hi ha hb
      exact add_getElem?_lt _ _ _ _ _ _ hi (padTo_left_getElem?_of_some _ _ _ _ hb)
        (padTo_left_getElem?_of_some _ _ _ _ ha)
    · intro i a b hi ha hb
      exact add_getElem?_lt _ _ _ _ _ _ hi (padTo_right_getElem?_of_some _ _ _ _ hb)
        (padTo_right_getElem?_of_some _ _ _ _ ha)
    · intro i hi
      constructor
      · show (_ ++ _)[i]? = _
        rw [add_getElem?_ge _ _ _ _ hi (padTo_left_length L A hAwf) (padTo_left_length L B hBwf)]
        exact padTo_left_getElem?_ge L B i hBwf hi
      · show (_ ++ _)[i]? = _
        rw [add_getElem?_ge _ _ _ _ hi (padTo_right_length L A hAwf)
          (padTo_right_length L B hBwf)]
        exact padTo_right_getElem?_ge L B i hBwf hi


/-- Witness for C2: the hypotheses hold for `demoMerge`, merging buffer 0 into buffer 1. -/
theorem merge_conservation_up_to_recording_length_witness :
    ∃ s', OnClicked 1 demoJunk ⟨false, false, false, false⟩ 6 101 demoMerge = some s' ∧
      s'.mRecordBuffers.length + 1 = demoMerge.mRecordBuffers.length ∧
      (∀ k b, k ≠ 0 → demoMerge.mRecordBuffers[k]? = some b →
        ∃ b', s'.mRecordBuffers[if k < 0 then k else k - 1]? = some b' ∧
          b'.mControls = b.mControls ∧
          (k ≠ 1 → b.mLeft <+: b'.mLeft ∧ b.mRight <+: b'.mRight)) ∧
      (∃ B', s'.mRecordBuffers[if 1 < 0 then 1 else 1 - 1]? = some B' ∧
        (∀ i a b, i < 1 → demoLoud.mLeft[i]? = some a → demoQuiet.mLeft[i]? = some b →
          B'.mLeft[i]? = some (b + a)) ∧
        (∀ i a b, i < 1 → demoLoud.mRight[i]? = some a → demoQuiet.mRight[i]? = some b →
          B'.mRight[i]? = some (b + a)) ∧
        (∀ i, 1 ≤ i → B'.mLeft[i]? = demoQuiet.mLeft[i]? ∧
          B'.mRight[i]? = demoQuiet.mRight[i]?)) :=
  merge_conservation_up_to_recording_length 1 demoJunk 6 101 demoMerge 0 1 1 demoLoud demoQuiet
    (by decide) (by decide) (by with_unfolding_all decide) (by with_unfolding_all decide)
    (by decide) rfl rfl (by decide) rfl rfl

/-- Counterexample for C2 as stated: in `demoMerge` both buffers have length 2 and the
recording length is 1, so index 1 is below `min(lenA, lenB)`; the merge leaves
`B'[1] = 0` although `B[1] + A[1] = 1`. -/
theorem merge_conservation_counterexample :
    ¬ MergeConservationAsStated 1 demoJunk 6 101 demoMerge 0 1 := by
  intro h
  obtain ⟨s', B', hs, _, hB', hl, _⟩ := h demoLoud demoQuiet rfl rfl
  have hev : (OnClicked 1 demoJunk ⟨false, false, false, false⟩ 6 101 demoMerge).map
      (fun s => s.mRecordBuffers) = some [⟨[1, 0], [1, 0], 2, BufferControls.new⟩] := by
    with_unfolding_all decide
  rw [hs] at hev
  simp only [Option.map_some', Option.some.injEq] at hev
  rw [hev] at hB'
  have hB2 : B' = ⟨[1, 0], [1, 0], 2, BufferControls.new⟩ := by
    simpa using hB'.symm
  have h1 := hl 1 1 0 (by decide) rfl rfl
  rw [hB2] at h1
  revert h1
  with_unfolding_all decide


/-- Buffers longer than the recording length arise in a real session, and merging them
leaves the samples from `mRecordingLength` on unsummed (`2, 2, 1, 1` and not
`2, 2, 2, 2`). -/
theorem long_buffers_reachable :
    demoLongBuffersSession.map
        (fun s => (s.mRecordingLength, s.mMergeBufferIdx, s.mRecordBuffers.map (fun b => b.mLeft)))
      = some (2, 0, [[1, 1, 1, 1], [1, 1, 1, 1]]) ∧
    (demoLongBuffersSession.bind
        (OnClicked 2 demoJunk ⟨false, false, false, false⟩ 6 101)).map
        (fun s => s.mRecordBuffers.map (fun b => b.mLeft))
      = some [[2, 2, 1, 1]] := by
  constructor <;> with_unfolding_all decide

/-! ## Undo (C3) -/

theorem BufferCopy_whole (dst src : List ℚ) (n : Nat) (hs : src.length = n) (hd : dst.length = n) :
    BufferCopy dst 0 src 0 (n : Int) = some src := by
  have e := BufferCopy_natCast dst src 0 0 n (by omega) (by omega)
  simp only [Nat.cast_zero, List.take_zero, List.drop_zero, List.nil_append, Nat.zero_add] at e
  rw [e, ← hs, List.take_length, hs, List.drop_eq_nil_of_le (by omega), List.append_nil]

/-- On well-formed buffers `CopyRecordBufferContents` makes `dst` a copy of `src`. -/
theorem CopyRecordBufferContents_eq (junk : Nat → ℚ) (dst src : RecordBuffer) (hd : dst.WF)
    (hs : src.WF) :
    CopyRecordBufferContents junk dst src
      = some { dst with mLeft := src.mLeft, mRight := src.mRight, mLength := src.mLength } := by
  obtain ⟨hsl, hsr⟩ := hs
  obtain ⟨hdl, hdr⟩ := hd
  have hn : src.mLength = ((src.mLeft.length : Nat) : Int) := hsl.symm
  have hrl : src.mRight.length = src.mLeft.length := by omega
  unfold CopyRecordBufferContents
  rw [hn]
  by_cases heq : dst.mLength = ((src.mLeft.length : Nat) : Int)
  · have hl := BufferCopy_whole dst.mLeft src.mLeft src.mLeft.length rfl (by omega)
    have hr := BufferCopy_whole dst.mRight src.mRight src.mLeft.length hrl (by omega)
    simp only [heq, ne_eq, not_true_eq_false, if_false, hl, hr, Option.bind_eq_bind,
      Option.some_bind]
  · have h0 := newFloatArray_natCast junk src.mLeft.length
    have hl := BufferCopy_whole ((List.range src.mLeft.length).map junk) src.mLeft
      src.mLeft.length rfl (by simp)
    have hr := BufferCopy_whole ((List.range src.mLeft.length).map junk) src.mRight
      src.mLeft.length hrl (by simp)
    simp only [heq, ne_eq, not_false_eq_true, if_true, h0, hl, hr, Option.bind_eq_bind,
      Option.some_bind]

/-- What the record checkbox does: the active buffer is copied into the undo buffer. -/
theorem setRecording_spec (transportReset : Collaborators → Collaborators) (junk : Nat → ℚ)
    (value : Bool) (s : Recorder) (b : RecordBuffer)
    (hb : getBuffer s.mRecordBuffers s.mRecordIdx = some b) (hwf : b.WF)
    (hu : s.mUndoBuffer.WF) :
    ∃ s1, setRecording transportReset junk value s = some s1 ∧
      s1.mRecordBuffers = s.mRecordBuffers ∧ s1.mRecordIdx = s.mRecordIdx ∧
      s1.mRecording = value ∧
      s1.mUndoBuffer
        = { s.mUndoBuffer with mLeft := b.mLeft, mRight := b.mRight, mLength := b.mLength } := by
  have hc1 := CopyRecordBufferContents_eq junk s.mUndoBuffer b hu hwf
  simp only [setRecording, CheckboxUpdated, if_true, Option.bind_eq_bind]
  split <;> simp only [hb, hc1, Option.some_bind] <;> exact ⟨_, rfl, rfl, rfl, rfl, rfl⟩

/-- What the undo button does: recording stops and the undo buffer is copied into the
active buffer. -/
theorem undoRecord_spec (junk : Nat → ℚ) (s : Recorder) (b : RecordBuffer)
    (hb : getBuffer s.mRecordBuffers s.mRecordIdx = some b) (hwf : b.WF)
    (hu : s.mUndoBuffer.WF) :
    ∃ s2, ButtonClicked junk Button.undoRecord s = some s2 ∧
      s2.mRecordBuffers = setBuffer s.mRecordBuffers s.mRecordIdx
        { b with mLeft := s.mUndoBuffer.mLeft, mRight := s.mUndoBuffer.mRight,
                 mLength := s.mUndoBuffer.mLength } ∧
      s2.mRecordIdx = s.mRecordIdx ∧ s2.mRecording = false ∧
      s2.mUndoBuffer = s.mUndoBuffer := by
  have hc2 := CopyRecordBufferContents_eq junk b s.mUndoBuffer hwf hu
  simp only [ButtonClicked, reduceCtorEq, if_false, if_true, Option.bind_eq_bind,
    Option.some_bind, hb, hc2]
  exact ⟨_, rfl, rfl, rfl, rfl, rfl⟩

/-- C3 (undo round-trip): in every state whose active record index is valid (with
well-formed active and undo buffers), enabling recording through the record checkbox and
then pressing undo both succeed, and leave the active buffer with its pre-enable length,
left samples and right samples, and recording switched off. -/
theorem undo_round_trip (transportReset : Collaborators → Collaborators)
    (junk junk' : Nat → ℚ) (s : Recorder) (b : RecordBuffer)
    (hb : getBuffer s.mRecordBuffers s.mRecordIdx = some b)
    (hwf : b.WF) (hu : s.mUndoBuffer.WF) :
    ∃ s1 s2 b2, setRecording transportReset junk true s = some s1 ∧
      ButtonClicked junk' Button.undoRecord s1 = some s2 ∧
      getBuffer s2.mRecordBuffers s2.mRecordIdx = some b2 ∧
      b2.mLength = b.mLength ∧ b2.mLeft = b.mLeft ∧ b2.mRight = b.mRight ∧
      s2.mRecording = false := by
  obtain ⟨s1, hs1, hbufs, hidx, _, hundo⟩ :=
    setRecording_spec transportReset junk true s b hb hwf hu
  have hb1 : getBuffer s1.mRecordBuffers s1.mRecordIdx = some b := by rw [hbufs, hidx]; exact hb
  have hu1 : s1.mUndoBuffer.WF := by rw [hundo]; exact hwf
  obtain ⟨s2, hs2, hbufs2, hidx2, hrec2, _⟩ := undoRecord_spec junk' s1 b hb1 hwf hu1
  refine ⟨s1, s2, ⟨s1.mUndoBuffer.mLeft, s1.mUndoBuffer.mRight, s1.mUndoBuffer.mLength,
    b.mControls⟩, hs1, hs2, ?_, ?_, ?_, ?_, hrec2⟩
  · rw [hbufs2, hidx2]
    exact getBuffer_setBuffer_self _ _ _ _ hb1
  · simp only [hundo]
  · simp only [hundo]
  · simp only [hundo]

/-- Witness for C3: the hypotheses hold for `demoRecording`. -/
theorem undo_round_trip_witness :
    ∃ s1 s2 b2, setRecording id demoJunk true demoRecording = some s1 ∧
      ButtonClicked demoJunk Button.undoRecord s1 = some s2 ∧
      getBuffer s2.mRecordBuffers s2.mRecordIdx = some b2 ∧
      b2.mLength = demoBuffer.mLength ∧ b2.mLeft = demoBuffer.mLeft ∧
      b2.mRight = demoBuffer.mRight ∧ s2.mRecording = false :=
  undo_round_trip id demoJunk demoJunk demoRecording demoBuffer rfl (by decide) (by decide)

/-! ## The per-sample step (C4) -/

theorem registerMeasure_frame (s s' : Recorder) (h : registerMeasure s = some s') :
    s'.mPlayhead = s.mPlayhead ∧ s'.mRecording = s.mRecording ∧
    s'.mRecordBuffers = s.mRecordBuffers ∧ s'.mRecordIdx = s.mRecordIdx ∧
    s'.mRecordingLength = s.mRecordingLength := by
  simp only [registerMeasure, Option.bind_eq_bind, Option.bind_eq_some] at h
  obtain ⟨b, -, h⟩ := h
  split at h
  · split at h
    · cases h; exact ⟨rfl, rfl, rfl, rfl, rfl⟩
    · exact Option.noConfusion h
  · cases h; exact ⟨rfl, rfl, rfl, rfl, rfl⟩

theorem appendStructure_frame (s : Recorder) :
    (appendStructure s).mPlayhead = s.mPlayhead ∧ (appendStructure s).mRecording = s.mRecording ∧
    (appendStructure s).mRecordBuffers = s.mRecordBuffers ∧
    (appendStructure s).mRecordIdx = s.mRecordIdx ∧
    (appendStructure s).mRecordingLength = s.mRecordingLength := by
  unfold appendStructure
  split <;> exact ⟨rfl, rfl, rfl, rfl, rfl⟩

/-- The fields `RecordStructure` leaves alone. -/
theorem RecordStructure_frame (m : ℚ) (s s' : Recorder) (h : RecordStructure m s = some s') :
    s'.mPlayhead = s.mPlayhead ∧ s'.mRecording = s.mRecording ∧
    s'.mRecordBuffers = s.mRecordBuffers ∧ s'.mRecordIdx = s.mRecordIdx ∧
    s'.mRecordingLength = s.mRecordingLength := by
  simp only [RecordStructure, Option.bind_eq_bind, Option.bind_eq_some] at h
  obtain ⟨mp, -, s2, hs2, h⟩ := h
  cases h
  obtain ⟨h1, h2, h3, h4, h5⟩ := registerMeasure_frame _ _ hs2
  obtain ⟨g1, g2, g3, g4, g5⟩ := appendStructure_frame s2
  exact ⟨g1.trans h1, g2.trans h2, g3.trans h3, g4.trans h4, g5.trans h5⟩

theorem applyMeasurePos_frame (mp : ℚ) (s : Recorder) :
    (applyMeasurePos mp s).mPlayhead = s.mPlayhead ∧
    (applyMeasurePos mp s).mRecording = s.mRecording ∧
    (applyMeasurePos mp s).mRecordBuffers = s.mRecordBuffers ∧
    (applyMeasurePos mp s).mRecordIdx = s.mRecordIdx ∧
    (applyMeasurePos mp s).mRecordingLength = s.mRecordingLength := by
  unfold applyMeasurePos
  split <;> exact ⟨rfl, rfl, rfl, rfl, rfl⟩

theorem advanceStructure_frame (s s' : Recorder) (h : advanceStructure s = some s') :
    s'.mPlayhead = s.mPlayhead ∧ s'.mRecording = s.mRecording ∧
    s'.mRecordBuffers = s.mRecordBuffers ∧ s'.mRecordIdx = s.mRecordIdx ∧
    s'.mRecordingLength = s.mRecordingLength := by
  simp only [advanceStructure, Option.bind_eq_bind, Option.bind_eq_some] at h
  obtain ⟨adv, -, h⟩ := h
  split at h
  · simp only [Option.bind_eq_some] at h
    obtain ⟨info, -, h⟩ := h
    cases h; exact ⟨rfl, rfl, rfl, rfl, rfl⟩
  · cases h; exact ⟨rfl, rfl, rfl, rfl, rfl⟩

/-- The fields `ApplyStructure` leaves alone. -/
theorem ApplyStructure_frame (s s' : Recorder) (h : ApplyStructure s = some s') :
    s'.mPlayhead = s.mPlayhead ∧ s'.mRecording = s.mRecording ∧
    s'.mRecordBuffers = s.mRecordBuffers ∧ s'.mRecordIdx = s.mRecordIdx ∧
    s'.mRecordingLength = s.mRecordingLength := by
  simp only [ApplyStructure, Option.bind_eq_bind, Option.bind_eq_some] at h
  obtain ⟨mp, -, h⟩ := h
  obtain ⟨g1, g2, g3, g4, g5⟩ := applyMeasurePos_frame mp s
  split at h
  · cases h; exact ⟨g1, g2, g3, g4, g5⟩
  · obtain ⟨h1, h2, h3, h4, h5⟩ := advanceStructure_frame _ _ h
    exact ⟨h1.trans g1, h2.trans g2, h3.trans g3, h4.trans g4, h5.trans g5⟩

/-- The structure step changes neither the playhead nor the track set. -/
theorem structureStep_frame (s s' : Recorder) (x : SampleIn) (h : structureStep s x = some s') :
    s'.mPlayhead = s.mPlayhead ∧ s'.mRecording = s.mRecording ∧
    s'.mRecordBuffers = s.mRecordBuffers ∧ s'.mRecordIdx = s.mRecordIdx ∧
    s'.mRecordingLength = s.mRecordingLength := by
  unfold structureStep at h
  split at h
  · exact RecordStructure_frame _ _ _ h
  · exact ApplyStructure_frame _ _ h

theorem writeAt_some (a a' : List ℚ) (i : Int) (v : ℚ) (h : writeAt a i v = some a') :
    a' = a.set i.toNat v := by
  unfold writeAt at h
  split at h
  · cases h; rfl
  · exact Option.noConfusion h

/-- What `recordInput` does to the fields the mix reads. -/
theorem recordInput_spec (r : Int) (x : SampleIn) (s s' : Recorder)
    (h : recordInput r x s = some s') :
    s'.mPlayhead = s.mPlayhead ∧ s'.mRecordingLength = s.mRecordingLength ∧
    s'.mRecording = s.mRecording ∧ s'.mRecordIdx = s.mRecordIdx ∧
    (s'.mRecordBuffers = s.mRecordBuffers ∨
      (s.mRecording = true ∧ 0 ≤ r ∧ ∃ b, getBuffer s.mRecordBuffers r = some b ∧
        s'.mRecordBuffers = s.mRecordBuffers.set r.toNat
          { b with mLeft := b.mLeft.set s.mPlayhead.toNat x.left,
                   mRight := b.mRight.set s.mPlayhead.toNat x.right })) := by
  unfold recordInput at h
  split at h
  · rename_i hrec
    simp only [Option.bind_eq_bind, Option.bind_eq_some] at h
    obtain ⟨b, hb, l, hl, rr, hr, h⟩ := h
    cases h
    have h0 : 0 ≤ r := by
      unfold getBuffer at hb
      split at hb
      · assumption
      · exact Option.noConfusion hb
    rw [writeAt_some _ _ _ _ hl, writeAt_some _ _ _ _ hr]
    exact ⟨rfl, rfl, rfl, rfl, Or.inr ⟨hrec, h0, b, hb, rfl⟩⟩
  · cases h
    exact ⟨rfl, rfl, rfl, rfl, Or.inl rfl⟩

theorem readAt_isSome (a : List ℚ) (i : Int) (h0 : 0 ≤ i) (h1 : i < a.length) :
    ∃ v, readAt a i = some v := by
  have hlt : i.toNat < a.length := by omega
  exact ⟨a[i.toNat], by simp [readAt, h0, List.getElem?_eq_getElem hlt]⟩

theorem writeAt_eq (a : List ℚ) (i : Int) (v : ℚ) (h0 : 0 ≤ i) (h1 : i < a.length) :
    writeAt a i v = some (a.set i.toNat v) := by
  simp [writeAt, h0, h1]

theorem registerMeasure_isSome (s : Recorder) (h0 : 0 ≤ s.mPlayhead)
    (h1 : s.mPlayhead < s.mMeasurePos.length) (h2 : 0 ≤ s.mNumMeasures) :
    ∃ s', registerMeasure s = some s' := by
  unfold registerMeasure
  by_cases hp : s.mPlayhead = 0
  · simp [hp, h2]
  · obtain ⟨a, ha⟩ := readAt_isSome s.mMeasurePos (s.mPlayhead - 1) (by omega) (by omega)
    obtain ⟨b, hb⟩ := readAt_isSome s.mMeasurePos s.mPlayhead h0 h1
    simp only [hp, if_false, ha, hb, Option.bind_eq_bind, Option.some_bind, h2, if_true]
    split
    · exact ⟨_, rfl⟩
    · exact ⟨_, rfl⟩

theorem RecordStructure_isSome (m : ℚ) (s : Recorder) (h0 : 0 ≤ s.mPlayhead)
    (h1 : s.mPlayhead < s.mMeasurePos.length) (h2 : 0 ≤ s.mNumMeasures) :
    ∃ s', RecordStructure m s = some s' := by
  obtain ⟨s2, hs2⟩ := registerMeasure_isSome
    { s with mMeasurePos := s.mMeasurePos.set s.mPlayhead.toNat m,
             mMaxRecordedLength := max s.mPlayhead s.mMaxRecordedLength }
    h0 (by simpa using h1) h2
  simp only [RecordStructure, writeAt_eq _ _ _ h0 h1, Option.bind_eq_bind, Option.some_bind, hs2]
  exact ⟨_, rfl⟩

theorem advanceStructure_isSome (s : Recorder) (hne : s.mStructureInfoPoints ≠ []) :
    ∃ s', advanceStructure s = some s' := by
  have hlen : 0 < s.mStructureInfoPoints.length := List.length_pos.mpr hne
  unfold advanceStructure
  by_cases hc : s.mActiveStructureIdx = -1
  · have h0 : (s.mActiveStructureIdx + 1).toNat < s.mStructureInfoPoints.length := by
      rw [hc]; simpa using hlen
    simp only [hc, if_true, Option.bind_eq_bind, Option.some_bind] at h0 ⊢
    rw [List.getElem?_eq_getElem h0]
    exact ⟨_, rfl⟩
  · by_cases hr : 0 ≤ s.mActiveStructureIdx ∧
        s.mActiveStructureIdx < (s.mStructureInfoPoints.length : Int) - 1
    · have h0 : (s.mActiveStructureIdx + 1).toNat < s.mStructureInfoPoints.length := by omega
      simp only [hc, if_false, hr, and_self, if_true, Option.bind_eq_bind,
        List.getElem?_eq_getElem h0, Option.some_bind]
      split
      · exact ⟨_, rfl⟩
      · exact ⟨_, rfl⟩
    · simp only [hc, if_false, hr, Option.bind_eq_bind, Option.some_bind, Bool.false_eq_true]
      exact ⟨_, rfl⟩

theorem applyMeasurePos_points (mp : ℚ) (s : Recorder) :
    (applyMeasurePos mp s).mStructureInfoPoints = s.mStructureInfoPoints := by
  unfold applyMeasurePos
  split <;> rfl

theorem ApplyStructure_isSome (s : Recorder) (h0 : 0 ≤ s.mPlayhead)
    (h1 : s.mPlayhead < s.mMeasurePos.length) : ∃ s', ApplyStructure s = some s' := by
  obtain ⟨mp, hmp⟩ := readAt_isSome s.mMeasurePos s.mPlayhead h0 h1
  simp only [ApplyStructure, hmp, Option.bind_eq_bind, Option.some_bind]
  split
  · exact ⟨_, rfl⟩
  · rename_i hne
    apply advanceStructure_isSome
    intro hnil
    apply hne
    rw [hnil]
    rfl

theorem structureStep_isSome (s : Recorder) (x : SampleIn) (h0 : 0 ≤ s.mPlayhead)
    (h1 : s.mPlayhead < s.mMeasurePos.length) (h2 : 0 ≤ s.mNumMeasures) :
    ∃ s', structureStep s x = some s' := by
  unfold structureStep
  split
  · exact RecordStructure_isSome _ s h0 h1 h2
  · exact ApplyStructure_isSome s h0 h1

theorem recordInput_isSome (r : Int) (x : SampleIn) (s : Recorder) (h0 : 0 ≤ s.mPlayhead)
    (h : s.mRecording = true →
      ∃ b, getBuffer s.mRecordBuffers r = some b ∧ b.WF ∧ s.mPlayhead < b.mLength) :
    ∃ s', recordInput r x s = some s' := by
  unfold recordInput
  split
  · rename_i hrec
    obtain ⟨b, hb, ⟨hl, hr⟩, hp⟩ := h hrec
    simp only [hb, Option.bind_eq_bind, Option.some_bind,
      writeAt_eq b.mLeft _ x.left h0 (by omega), writeAt_eq b.mRight _ x.right h0 (by omega)]
    exact ⟨_, rfl⟩
  · exact ⟨_, rfl⟩

theorem mixBuffers_isSome (p r : Int) (l : List RecordBuffer) (j : Int) (out : ℚ × ℚ)
    (h0 : 0 ≤ p) (hwf : ∀ b ∈ l, b.WF) : ∃ out', mixBuffers p r l j out = some out' := by
  induction l generalizing j out with
  | nil => exact ⟨_, rfl⟩
  | cons b bs ih =>
    have hbs : ∀ c ∈ bs, c.WF := fun c hc => hwf c (List.mem_cons_of_mem _ hc)
    obtain ⟨hl, hr⟩ := hwf b (List.mem_cons_self _ _)
    unfold mixBuffers
    split
    · rename_i hc
      obtain ⟨lv, hlv⟩ := readAt_isSome b.mLeft p h0 (by omega)
      obtain ⟨rv, hrv⟩ := readAt_isSome b.mRight p h0 (by omega)
      simp only [hlv, hrv, Option.bind_eq_bind, Option.some_bind]
      exact ih _ _ hbs
    · exact ih _ _ hbs

theorem getBuffer_mem (bufs : List RecordBuffer) (i : Int) (b : RecordBuffer)
    (h : getBuffer bufs i = some b) : b ∈ bufs := by
  unfold getBuffer at h
  split at h
  · exact List.getElem?_mem h
  · exact Option.noConfusion h

/-- A per-sample step is defined in every state that satisfies `StepSafe`. -/
theorem ProcessSample_isSome (s : Recorder) (x : SampleIn) (h : StepSafe s) :
    ∃ r, ProcessSample s x = some r := by
  obtain ⟨h0, h1, h2, hwf, hrec⟩ := h
  obtain ⟨s1, hs1⟩ := structureStep_isSome s x h0 h1 h2
  obtain ⟨f1, f2, f3, f4, -⟩ := structureStep_frame _ _ _ hs1
  have hr1 : s1.mRecording = true →
      ∃ b, getBuffer s1.mRecordBuffers (GetRecordIdx s) = some b ∧ b.WF ∧
        s1.mPlayhead < b.mLength := by
    intro hr
    rw [f2] at hr
    obtain ⟨b, hb, hp⟩ := hrec hr
    refine ⟨b, ?_, hwf b (getBuffer_mem _ _ _ hb), by rw [f1]; exact hp⟩
    rw [f3]
    simp only [GetRecordIdx, hr, Bool.true_eq_false, if_false]
    exact hb
  obtain ⟨s2, hs2⟩ := recordInput_isSome (GetRecordIdx s) x s1 (by rw [f1]; exact h0) hr1
  obtain ⟨g1, -, -, -, g5⟩ := recordInput_spec _ _ _ _ hs2
  have hwf2 : ∀ b ∈ s2.mRecordBuffers, b.WF := by
    rcases g5 with g5 | ⟨-, -, b0, hb0, g5⟩
    · rw [g5, f3]; exact hwf
    · rw [g5]
      intro b hb
      rcases List.mem_or_eq_of_mem_set hb with hb | hb
      · rw [f3] at hb; exact hwf b hb
      · have hw0 : b0.WF := hwf b0 (by rw [← f3]; exact getBuffer_mem _ _ _ hb0)
        rw [hb]
        simpa [RecordBuffer.WF] using hw0
  obtain ⟨o, ho⟩ := mixBuffers_isSome s2.mPlayhead (GetRecordIdx s) s2.mRecordBuffers 0
    (x.left, x.right) (by rw [g1, f1]; exact h0) hwf2
  exact ⟨(advancePlayhead s2, o), by
    simp only [ProcessSample, hs1, hs2, ho, Option.bind_eq_bind, Option.some_bind]⟩


theorem ofClamp_zero_zero (v : ℚ) : ofClamp v 0 0 = 0 := by
  unfold ofClamp
  split
  · rfl
  · split
    · rfl
    · rename_i h1 h2
      exact le_antisymm (not_lt.mp h2) (not_lt.mp h1)

theorem clickedIndex_single (s : Recorder) (y : Int) (b : RecordBuffer)
    (h : s.mRecordBuffers = [b]) : clickedIndex s y = 0 := by
  simp [clickedIndex, sizeMinusOne, h, ofClamp_zero_zero, truncToInt]

/-- The delete branch of `OnClicked` on a one-buffer set, in closed form. -/
theorem OnClicked_delete_last (C : Nat) (junk : Nat → ℚ) (c : ClickContext) (x y : Int)
    (s : Recorder) (b : RecordBuffer)
    (hclip : c.clipHit = false) (hkey : c.keyX = true)
    (hy : y > 20) (hx : x > 5) (hxw : (x : ℚ) < s.mBufferWidth + 5)
    (hone : s.mRecordBuffers = [b]) :
    OnClicked C junk c x y s = some { s with
      mRecordBuffers := [⟨List.replicate C 0, List.replicate C 0, C, BufferControls.new⟩]
      mRecordingLength := C
      mMaxRecordedLength := -1
      mNumMeasures := 0
      mRecording := false
      mRecordIdx := 0
      mPlayhead := 0 } := by
  have hidx := clickedIndex_single s y b hone
  simp [OnClicked, hclip, hkey, hy, hx, hxw, hidx, DeleteBuffer, hone, ResetAll, AddRecordBuffer,
    RecordBuffer.new]

/-- C5 (delete-last resets): in every state whose track set holds exactly one buffer, a
click inside the buffer area with the delete key held succeeds and leaves a track set of
size exactly 1 whose single buffer has length `RECORD_CHUNK_SIZE` on both channels with
every sample 0, and `mRecordingLength = RECORD_CHUNK_SIZE`. -/
theorem delete_last_resets (C : Nat) (junk : Nat → ℚ) (c : ClickContext) (x y : Int)
    (s : Recorder) (b : RecordBuffer)
    (hclip : c.clipHit = false) (hkey : c.keyX = true)
    (hy : y > 20) (hx : x > 5) (hxw : (x : ℚ) < s.mBufferWidth + 5)
    (hone : s.mRecordBuffers = [b]) :
    ∃ s' b', OnClicked C junk c x y s = some s' ∧
      s'.mRecordBuffers = [b'] ∧ s'.mRecordBuffers.length = 1 ∧
      b'.mLength = C ∧ b'.mLeft.length = C ∧ b'.mRight.length = C ∧
      (∀ v ∈ b'.mLeft, v = 0) ∧ (∀ v ∈ b'.mRight, v = 0) ∧
      s'.mRecordingLength = C := by
  refine ⟨_, _, OnClicked_delete_last C junk c x y s b hclip hkey hy hx hxw hone, rfl, rfl, rfl,
    ?_, ?_, ?_, ?_, rfl⟩
  · simp
  · simp
  · intro v hv
    exact (List.mem_replicate.mp hv).2
  · intro v hv
    exact (List.mem_replicate.mp hv).2

/-- Witness for C5: a delete click on the one-buffer state `demoRecording`. -/
theorem delete_last_resets_witness :
    ∃ s' b', OnClicked 2 demoJunk ⟨false, true, false, false⟩ 6 21 demoRecording = some s' ∧
      s'.mRecordBuffers = [b'] ∧ s'.mRecordBuffers.length = 1 ∧
      b'.mLength = (2 : Nat) ∧ b'.mLeft.length = 2 ∧ b'.mRight.length = 2 ∧
      (∀ v ∈ b'.mLeft, v = 0) ∧ (∀ v ∈ b'.mRight, v = 0) ∧
      s'.mRecordingLength = (2 : Nat) :=
  delete_last_resets 2 demoJunk ⟨false, true, false, false⟩ 6 21 demoRecording demoBuffer
    rfl rfl (by decide) (by decide) (by with_unfolding_all decide) rfl

/-! ## The playhead (C8) -/

theorem advancePlayhead_playhead (s : Recorder) :
    (advancePlayhead s).mPlayhead
      = if s.mPlayhead < s.mRecordingLength - 1 then s.mPlayhead + 1 else s.mPlayhead := by
  unfold advancePlayhead
  split <;> rfl

theorem advancePlayhead_length (s : Recorder) :
    (advancePlayhead s).mRecordingLength = s.mRecordingLength := by
  unfold advancePlayhead
  split <;> rfl

/-- How a per-sample step moves the playhead. -/
theorem ProcessSample_playhead (s s' : Recorder) (x : SampleIn) (out : ℚ × ℚ)
    (h : ProcessSample s x = some (s', out)) :
    s'.mRecordingLength = s.mRecordingLength ∧
    s'.mPlayhead
      = if s.mPlayhead < s.mRecordingLength - 1 then s.mPlayhead + 1 else s.mPlayhead := by
  simp only [ProcessSample, Option.bind_eq_bind, Option.bind_eq_some] at h
  obtain ⟨s1, h1, s2, h2, o, ho, h⟩ := h
  simp only [Option.some.injEq, Prod.mk.injEq] at h
  obtain ⟨rfl, -⟩ := h
  obtain ⟨f1, -, -, -, f5⟩ := structureStep_frame _ _ _ h1
  obtain ⟨g1, g2, -, -, -⟩ := recordInput_spec _ _ _ _ h2
  rw [advancePlayhead_playhead, advancePlayhead_length, g1, g2, f1, f5]
  exact ⟨rfl, rfl⟩

theorem ProcessSample_inRange (s s' : Recorder) (x : SampleIn) (out : ℚ × ℚ)
    (h : ProcessSample s x = some (s', out)) (hs : PlayheadInRange s) : PlayheadInRange s' := by
  obtain ⟨hl, hp⟩ := ProcessSample_playhead s s' x out h
  unfold PlayheadInRange at hs ⊢
  rw [hl, hp]
  split <;> omega

theorem processLoop_inRange (batch : List SampleIn) (s s' : Recorder) (outs : List (ℚ × ℚ))
    (h : processLoop s batch = some (s', outs)) (hs : PlayheadInRange s) :
    PlayheadInRange s' := by
  induction batch generalizing s outs with
  | nil =>
    simp only [processLoop, Option.some.injEq, Prod.mk.injEq] at h
    rw [← h.1]; exact hs
  | cons x xs ih =>
    simp only [processLoop, Option.bind_eq_bind, Option.bind_eq_some] at h
    obtain ⟨⟨s1, o1⟩, h1, ⟨s2, o2⟩, h2, h⟩ := h
    simp only [Option.some.injEq, Prod.mk.injEq] at h
    obtain ⟨rfl, -⟩ := h
    exact ih s1 o2 h2 (ProcessSample_inRange s s1 x o1 h1 hs)

theorem Process_inRange (batch : List SampleIn) (s s' : Recorder) (outs : List (ℚ × ℚ))
    (h : Process s batch = some (s', outs)) (hs : PlayheadInRange s) : PlayheadInRange s' := by
  unfold Process at h
  split at h
  · exact processLoop_inRange batch s s' outs h hs
  · simp only [Option.some.injEq, Prod.mk.injEq] at h
    rw [← h.1]; exact hs


/-- A property of every result of the continuation is a property of the whole `bind`. -/
theorem bind_some_of_forall {α β : Type} (o : Option α) (f : α → Option β) (P : β → Prop)
    (hf : ∀ a b, f a = some b → P b) (b : β) (h : o.bind f = some b) : P b := by
  cases o with
  | none => exact Option.noConfusion h
  | some a => exact hf a b h

theorem growRecording_playhead (C : Nat) (rd : Int) (junk : Nat → ℚ) (s s' : Recorder)
    (h : growRecording C rd junk s = some s') :
    s'.mPlayhead = s.mPlayhead ∧ s'.mRecordingLength = s.mRecordingLength + (C : Int) := by
  unfold growRecording at h
  revert h s'
  iterate 13 (refine bind_some_of_forall _ _ _ (fun _ => ?_))
  intro s' h
  cases h
  exact ⟨rfl, rfl⟩

theorem Poll_playhead (C : Nat) (sr : Int) (junk : Nat → ℚ) (s s' : Recorder)
    (h : Poll C sr junk s = some s') :
    s'.mPlayhead = s.mPlayhead ∧
    (s'.mRecordingLength = s.mRecordingLength ∨
      s'.mRecordingLength = s.mRecordingLength + (C : Int)) := by
  unfold Poll at h
  split at h
  · obtain ⟨h1, h2⟩ := growRecording_playhead C sr junk _ s' h
    exact ⟨h1, Or.inr h2⟩
  · cases h
    exact ⟨rfl, Or.inl rfl⟩

theorem AddRecordBuffer_playhead (s s' : Recorder) (h : AddRecordBuffer s = some s') :
    s'.mPlayhead = s.mPlayhead ∧ s'.mRecordingLength = s.mRecordingLength := by
  simp only [AddRecordBuffer, Option.bind_eq_bind, Option.bind_eq_some] at h
  obtain ⟨b, -, h⟩ := h
  cases h
  exact ⟨rfl, rfl⟩

theorem DeleteBuffer_some (s s' : Recorder) (idx : Int) (h : DeleteBuffer s idx = some s') :
    s' = { s with mRecordBuffers := s.mRecordBuffers.eraseIdx idx.toNat } := by
  unfold DeleteBuffer at h
  simp only at h
  split at h
  · cases h; rfl
  · exact Option.noConfusion h

theorem FixLengths_some (junk : Nat → ℚ) (s s' : Recorder) (h : FixLengths junk s = some s') :
    ∃ bufs, s' = { s with mRecordBuffers := bufs } := by
  simp only [FixLengths, Option.bind_eq_bind, Option.bind_eq_some] at h
  obtain ⟨bufs, -, h⟩ := h
  cases h
  exact ⟨bufs, rfl⟩

theorem mergeInto_some (junk : Nat → ℚ) (clickedIdx : Int) (s s' : Recorder)
    (h : mergeInto junk clickedIdx s = some s') :
    ∃ bufs, s' = { s with mRecordBuffers := bufs } := by
  simp only [mergeInto, Option.bind_eq_bind, Option.bind_eq_some] at h
  obtain ⟨s1, h1, _, -, _, -, _, -, _, -, _, -, _, -, h⟩ := h
  obtain ⟨bufs, rfl⟩ := FixLengths_some junk s s1 h1
  rw [DeleteBuffer_some _ _ _ h]
  exact ⟨_, rfl⟩

theorem ofClamp_mem (v lo hi : ℚ) (h : lo ≤ hi) : lo ≤ ofClamp v lo hi ∧ ofClamp v lo hi ≤ hi := by
  unfold ofClamp
  split
  · exact ⟨le_refl _, h⟩
  · split
    · exact ⟨h, le_refl _⟩
    · rename_i h1 h2
      exact ⟨not_lt.mp h1, not_lt.mp h2⟩

theorem truncToInt_mem (q : ℚ) (n : Int) (h0 : 0 ≤ q) (h1 : q ≤ (n : ℚ)) :
    0 ≤ truncToInt q ∧ truncToInt q ≤ n := by
  unfold truncToInt
  rw [if_pos h0]
  constructor
  · exact Int.floor_nonneg.mpr h0
  · have := Int.floor_le_floor h1
    rwa [Int.floor_intCast] at this

theorem seekClick_inRange (clickedIdx : Int) (clickPos : ℚ) (s : Recorder)
    (hs : PlayheadInRange s) : PlayheadInRange (seekClick clickedIdx clickPos s) := by
  obtain ⟨h0, h1⟩ := hs
  have hL : (0 : ℚ) ≤ ((s.mRecordingLength - 1 : Int) : ℚ) := by
    have : (0 : Int) ≤ s.mRecordingLength - 1 := by omega
    exact_mod_cast this
  obtain ⟨c0, c1⟩ := ofClamp_mem (clickPos * (s.mRecordingLength : ℚ)) 0 _ hL
  obtain ⟨t0, t1⟩ := truncToInt_mem _ _ c0 c1
  unfold seekClick PlayheadInRange
  simp only
  split <;> exact ⟨t0, t1⟩


theorem OnClicked_inRange (C : Nat) (hC : 0 < C) (junk : Nat → ℚ) (c : ClickContext) (x y : Int)
    (s s' : Recorder) (h : OnClicked C junk c x y s = some s') (hs : PlayheadInRange s) :
    PlayheadInRange s' := by
  have hreset : ∀ t t', AddRecordBuffer (ResetAll C t) = some t' → PlayheadInRange t' := by
    intro t t' ht
    obtain ⟨h1, h2⟩ := AddRecordBuffer_playhead _ _ ht
    unfold PlayheadInRange
    rw [h1, h2]
    simp only [ResetAll]
    omega
  unfold OnClicked at h
  split at h
  · cases h; exact hs
  · split at h
    · simp only at h
      split at h
      · simp only [Option.bind_eq_bind, Option.bind_eq_some] at h
        obtain ⟨s1, h1, h⟩ := h
        have e1 := DeleteBuffer_some _ _ _ h1
        split at h
        · exact hreset _ _ h
        · cases h; rw [e1]; exact hs
      · split at h
        · cases h; exact hs
        · split at h
          · split at h <;> (cases h; exact hs)
          · split at h
            · simp only [Option.bind_eq_bind, Option.bind_eq_some] at h
              obtain ⟨s1, h1, h⟩ := h
              cases h
              split at h1
              · obtain ⟨bufs, rfl⟩ := mergeInto_some _ _ _ _ h1
                exact hs
              · cases h1; exact hs
            · cases h
              exact seekClick_inRange _ _ _ hs
    · cases h; exact hs

theorem ButtonClicked_inRange (junk : Nat → ℚ) (b : Button) (s s' : Recorder)
    (h : ButtonClicked junk b s = some s') (hs : PlayheadInRange s) : PlayheadInRange s' := by
  simp only [ButtonClicked, Option.bind_eq_bind, Option.bind_eq_some] at h
  obtain ⟨s1, h1, s2, h2, h⟩ := h
  have r1 : PlayheadInRange s1 := by
    split at h1
    · obtain ⟨e1, e2⟩ := AddRecordBuffer_playhead _ _ h1
      unfold PlayheadInRange; rw [e1, e2]; exact hs
    · cases h1; exact hs
  have r2 : PlayheadInRange s2 := by
    split at h2
    · rename_i hb
      obtain ⟨bufs, e⟩ := FixLengths_some _ _ _ h2
      rw [e]
      split
      · unfold PlayheadInRange at r1 ⊢; simp only; omega
      · exact r1
    · cases h2
      split
      · unfold PlayheadInRange at r1 ⊢; simp only; omega
      · exact r1
  split at h
  · simp only [Option.bind_eq_bind, Option.bind_eq_some] at h
    obtain ⟨_, -, _, -, h⟩ := h
    cases h
    exact r2
  · cases h; exact r2

theorem CheckboxUpdated_inRange (transportReset : Collaborators → Collaborators)
    (junk : Nat → ℚ) (cb : Checkbox) (s s' : Recorder)
    (h : CheckboxUpdated transportReset junk cb s = some s') (hs : PlayheadInRange s) :
    PlayheadInRange s' := by
  unfold CheckboxUpdated at h
  split at h
  · simp only [Option.bind_eq_bind, Option.bind_eq_some] at h
    obtain ⟨_, -, _, -, h⟩ := h
    cases h
    split <;> exact hs
  · cases h; exact hs

theorem setControls_inRange (j : Nat) (c : BufferControls) (s : Recorder)
    (hs : PlayheadInRange s) : PlayheadInRange (setControls j c s) := by
  unfold setControls
  split <;> exact hs

theorem Recorder.new_inRange (C : Nat) (hC : 0 < C) (sel : Bool) (m : Nat → Int)
    (w : Collaborators) (s : Recorder) (h : Recorder.new C sel m w = some s) :
    PlayheadInRange s := by
  simp only [Recorder.new, Option.bind_eq_bind, Option.bind_eq_some] at h
  obtain ⟨s1, h1, u, -, h⟩ := h
  cases h
  obtain ⟨e1, e2⟩ := AddRecordBuffer_playhead _ _ h1
  unfold PlayheadInRange
  simp only [e1, e2]
  omega

theorem Step_inRange (C : Nat) (hC : 0 < C) (sr : Int) (s s' : Recorder) (h : Step C sr s s')
    (hs : PlayheadInRange s) : PlayheadInRange s' := by
  cases h with
  | process batch outs h => exact Process_inRange batch s s' outs h hs
  | poll junk h =>
    obtain ⟨e1, e2⟩ := Poll_playhead C sr junk s s' h
    unfold PlayheadInRange at hs ⊢
    rw [e1]
    rcases e2 with e2 | e2 <;> rw [e2] <;> omega
  | click junk c x y h => exact OnClicked_inRange C hC junk c x y s s' h hs
  | button junk b h => exact ButtonClicked_inRange junk b s s' h hs
  | record tr junk v h => exact CheckboxUpdated_inRange tr junk _ _ s' h hs
  | play tr junk v h => exact CheckboxUpdated_inRange tr junk _ _ s' h hs
  | controls j c => exact setControls_inRange j c s hs
  | collaborators w => exact hs
  | resetAll =>
    unfold PlayheadInRange ResetAll
    simp only
    omega

/-- C8 (playhead clamp): with a positive chunk size, every state reachable from a fresh
engine through audio batches, `Poll`, clicks (seek, delete, merge), buttons (reset playhead,
add, fix lengths, undo), the checkboxes, collaborator changes and `ResetAll` has
`0 <= playhead <= mRecordingLength - 1`; and a per-sample step of `Process` sets the playhead
to `playhead + 1` when `playhead < mRecordingLength - 1` and leaves it unchanged when
`playhead = mRecordingLength - 1`. -/
theorem playhead_clamp (C : Nat) (sr : Int) (hC : 0 < C) :
    (∀ s, Reachable C sr s → 0 ≤ s.mPlayhead ∧ s.mPlayhead ≤ s.mRecordingLength - 1) ∧
    (∀ s x s' out, ProcessSample s x = some (s', out) →
      (s.mPlayhead < s.mRecordingLength - 1 → s'.mPlayhead = s.mPlayhead + 1) ∧
      (s.mPlayhead = s.mRecordingLength - 1 → s'.mPlayhead = s.mPlayhead)) := by
  constructor
  · intro s hr
    induction hr with
    | init sel m w h => exact Recorder.new_inRange C hC sel m w _ h
    | step _ hstep ih => exact Step_inRange C hC sr _ _ hstep ih
  · intro s x s' out h
    obtain ⟨-, hp⟩ := ProcessSample_playhead s s' x out h
    constructor
    · intro hlt; rw [hp, if_pos hlt]
    · intro heq; rw [hp, if_neg (by omega)]

/-- Witness for C8: chunk size 2 is positive. -/
theorem playhead_clamp_witness :
    (∀ s, Reachable 2 2 s → 0 ≤ s.mPlayhead ∧ s.mPlayhead ≤ s.mRecordingLength - 1) ∧
    (∀ s x s' out, ProcessSample s x = some (s', out) →
      (s.mPlayhead < s.mRecordingLength - 1 → s'.mPlayhead = s.mPlayhead + 1) ∧
      (s.mPlayhead = s.mRecordingLength - 1 → s'.mPlayhead = s.mPlayhead)) :=
  playhead_clamp 2 2 (by decide)

/-! ## `DeleteBuffer` on an index out of range (C9) -/

/-- The index `OnClicked` computes from the click is a valid buffer index whenever the
track set is not empty, so its calls of `DeleteBuffer` are in range. -/
theorem clickedIndex_inRange (s : Recorder) (y : Int) (hne : s.mRecordBuffers ≠ []) :
    0 ≤ clickedIndex s y ∧ clickedIndex s y < s.mRecordBuffers.length := by
  have hlen : 0 < s.mRecordBuffers.length := List.length_pos.mpr hne
  have hsz : sizeMinusOne s.mRecordBuffers = (s.mRecordBuffers.length : Int) - 1 := by
    unfold sizeMinusOne
    rw [if_neg (by omega)]
  have h0 : (0 : ℚ) ≤ ((sizeMinusOne s.mRecordBuffers : Int) : ℚ) := by
    have : (0 : Int) ≤ sizeMinusOne s.mRecordBuffers := by rw [hsz]; omega
    exact_mod_cast this
  obtain ⟨c0, c1⟩ := ofClamp_mem (((y - 20 : Int) : ℚ) / s.mBufferHeight) 0 _ h0
  obtain ⟨t0, t1⟩ := truncToInt_mem _ _ c0 c1
  unfold clickedIndex
  exact ⟨t0, by omega⟩

/-- The state produced by `demoDeleteLastSession` is reachable. -/
theorem demoDeleteLastSession_reachable (s : Recorder) (h : demoDeleteLastSession = some s) :
    Reachable 2 2 s := by
  simp only [demoDeleteLastSession, Option.bind_eq_bind, Option.bind_eq_some] at h
  obtain ⟨s0, h0, s1, h1, ⟨s2, o2⟩, h2, h3⟩ := h
  exact (((Reachable.init _ _ _ h0).step (Step.record _ _ _ h1)).step
    (Step.process _ _ h2)).step (Step.click _ _ _ _ h3)

/-- The state produced by `demoResetSession` is reachable. -/
theorem demoResetSession_reachable (s : Recorder) (h : demoResetSession = some s) :
    Reachable 2 2 s := by
  simp only [demoResetSession, Option.bind_eq_bind, Option.bind_eq_some] at h
  obtain ⟨s0, h0, s1, h1, ⟨s2, o2⟩, h2, s3, h3, s4, h4, ⟨s5, o5⟩, h5, h6⟩ := h
  cases h6
  exact ((((((Reachable.init _ _ _ h0).step (Step.record _ _ _ h1)).step
    (Step.process _ _ h2)).step (Step.click _ _ _ _ h3)).step
    (Step.collaborators { demoWorld with tempo := 130 })).step (Step.record _ _ _ h4)).step
    (Step.process _ _ h5)

/-- C6 (code defect): `ResetAll` resets the capture frontier but keeps
`mStructureInfoPoints`, so the reachable session `demoResetSession` (record, delete the last
buffer, change the tempo, record) ends with two entries both at sample position 0: the
sample positions are not strictly increasing. -/
theorem structure_monotonicity_broken_by_reset :
    ∃ s, Reachable 2 2 s ∧ s.mStructureInfoPoints.map (fun e => e.mSample) = [0, 0] ∧
      ¬ StrictlyIncreasingSamples s.mStructureInfoPoints := by
  have hv : demoResetSession.map (fun s => s.mStructureInfoPoints)
      = some [snapshot 0 demoWorld, snapshot 0 { demoWorld with tempo := 130 }] := by
    with_unfolding_all decide
  cases hs : demoResetSession with
  | none => rw [hs] at hv; exact Option.noConfusion hv
  | some s =>
    rw [hs] at hv
    simp only [Option.map_some', Option.some.injEq] at hv
    refine ⟨s, demoResetSession_reachable s hs, ?_, ?_⟩
    · rw [hv]; rfl
    · rw [hv]
      intro h
      exact absurd (h 0 _ _ rfl rfl) (by decide)

/-- C10 (code defect): after recording one sample on a fresh engine and deleting the only
buffer, the playhead is 0, recording is off, the frontier is -1 and no measure is
registered, but the structure entry list still holds the captured entry and the replay
cursor is still 0, where a fresh engine has an empty list and cursor -1. -/
theorem delete_last_keeps_structure_entries :
    ∃ s, Reachable 2 2 s ∧ demoDeleteLastSession = some s ∧
      s.mRecordBuffers.length = 1 ∧ s.mPlayhead = 0 ∧ s.mRecording = false ∧
      s.mMaxRecordedLength = -1 ∧ s.mNumMeasures = 0 ∧
      s.mStructureInfoPoints = [snapshot 0 demoWorld] ∧ s.mActiveStructureIdx = 0 := by
  have hv : demoDeleteLastSession.map (fun s => (s.mRecordBuffers.length, s.mPlayhead,
      s.mRecording, s.mMaxRecordedLength)) = some (1, 0, false, -1) := by
    with_unfolding_all decide
  have hw : demoDeleteLastSession.map (fun s => (s.mNumMeasures, s.mStructureInfoPoints,
      s.mActiveStructureIdx)) = some (0, [snapshot 0 demoWorld], 0) := by
    with_unfolding_all decide
  cases hs : demoDeleteLastSession with
  | none => rw [hs] at hv; exact Option.noConfusion hv
  | some s =>
    rw [hs] at hv hw
    simp only [Option.map_some', Option.some.injEq, Prod.mk.injEq] at hv hw
    obtain ⟨h1, h2, h3, h4⟩ := hv
    obtain ⟨h5, h6, h7⟩ := hw
    exact ⟨s, demoDeleteLastSession_reachable s hs, rfl, h1, h2, h3, h4, h5, h6, h7⟩

/-- A freshly constructed engine has no structure entries and an undetermined cursor. -/
theorem Recorder.new_structure (C : Nat) (sel : Bool) (m : Nat → Int) (w : Collaborators)
    (s : Recorder) (h : Recorder.new C sel m w = some s) :
    s.mStructureInfoPoints = [] ∧ s.mActiveStructureIdx = -1 := by
  simp only [Recorder.new, AddRecordBuffer, Option.bind_eq_bind, Option.bind_eq_some] at h
  obtain ⟨s1, ⟨b, -, h1⟩, u, -, h⟩ := h
  cases h
  cases h1
  exact ⟨rfl, rfl⟩

/-! ## Capture and replay (C7) -/

theorem structureDiffers_iff (e : StructureInfo) (w : Collaborators) :
    structureDiffers e w = true ↔ e.values ≠ structureOf w := by
  simp only [structureDiffers, StructureInfo.values, structureOf, Bool.or_eq_true,
    decide_eq_true_eq, ne_eq, Prod.mk.injEq, not_and]
  constructor
  · intro h h1
    tauto
  · intro h
    by_contra hc
    simp only [not_or, not_not] at hc
    obtain ⟨⟨⟨⟨⟨h1, h2⟩, h3⟩, h4⟩, h5⟩, h6⟩ := hc
    exact h h1 h2 h3 h4 h5 h6

theorem snapshot_values (p : Int) (w : Collaborators) :
    (snapshot p w).values = structureOf w := rfl

theorem pushStructure_values (e : StructureInfo) (w : Collaborators) :
    structureOf (pushStructure e w) = e.values := rfl

theorem govIdx_mono (env : Nat → Collaborators) (p k : Nat) (h : p ≤ k) :
    govIdx env p ≤ govIdx env k := by
  induction k with
  | zero =>
    have : p = 0 := by omega
    rw [this]
  | succ k ih =>
    by_cases hp : p = k + 1
    · rw [hp]
    · have := ih (by omega)
      simp only [govIdx]
      split <;> omega

theorem EntriesOK_zero (env : Nat → Collaborators) :
    EntriesOK env 0 [snapshot 0 (env 0)] := by
  refine ⟨rfl, ?_, ?_⟩
  · intro p hp
    have : p = 0 := by omega
    subst this
    exact ⟨_, rfl, le_refl _, rfl⟩
  · intro p hp e he
    have : p = 0 := by omega
    subst this
    simp [govIdx] at he

theorem EntriesOK_last (env : Nat → Collaborators) (k : Nat) (pts : List StructureInfo)
    (h : EntriesOK env k pts) :
    ∃ e, pts.getLast? = some e ∧ e.values = structureOf (env k) := by
  obtain ⟨hlen, h1, -⟩ := h
  obtain ⟨e, he, -, hv⟩ := h1 k (le_refl _)
  refine ⟨e, ?_, hv⟩
  rw [List.getLast?_eq_getElem?, hlen]
  simpa using he

theorem EntriesOK_succ (env : Nat → Collaborators) (k : Nat) (pts : List StructureInfo)
    (last : StructureInfo) (h : EntriesOK env k pts) (hlast : pts.getLast? = some last) :
    EntriesOK env (k + 1)
      (if structureDiffers last (env (k + 1)) = true then
        pts ++ [snapshot ((k + 1 : Nat) : Int) (env (k + 1))] else pts) := by
  obtain ⟨e, he, hv⟩ := EntriesOK_last env k pts h
  rw [hlast] at he
  cases he
  obtain ⟨hlen, h1, h2⟩ := h
  by_cases hd : structureDiffers last (env (k + 1)) = true
  · have hne : structureOf (env (k + 1)) ≠ structureOf (env k) := by
      rw [← hv]; exact fun hc => (structureDiffers_iff _ _).mp hd hc.symm
    have hg : govIdx env (k + 1) = govIdx env k + 1 := by simp [govIdx, hne]
    rw [if_pos hd]
    refine ⟨by simp [hlen, hg], ?_, ?_⟩
    · intro p hp
      by_cases hpk : p = k + 1
      · subst hpk
        refine ⟨snapshot ((k + 1 : Nat) : Int) (env (k + 1)), ?_, le_refl _, rfl⟩
        rw [hg, ← hlen, List.getElem?_append_right (le_refl _)]
        simp
      · obtain ⟨e, he, hs, hv'⟩ := h1 p (by omega)
        refine ⟨e, ?_, hs, hv'⟩
        have := govIdx_mono env p k (by omega)
        rw [List.getElem?_append_left (by omega)]
        exact he
    · intro p hp e he
      by_cases hpk : p = k + 1
      · subst hpk
        rw [hg, List.getElem?_eq_none (by simp; omega)] at he
        exact Option.noConfusion he
      · have hmono := govIdx_mono env p k (by omega)
        by_cases hlt : govIdx env p + 1 < pts.length
        · rw [List.getElem?_append_left hlt] at he
          exact h2 p (by omega) e he
        · have hidx : govIdx env p + 1 = pts.length := by omega
          rw [hidx, List.getElem?_append_right (le_refl _)] at he
          simp only [Nat.sub_self, List.getElem?_cons_zero, Option.some.injEq] at he
          rw [← he]
          show (p : Int) < ((k + 1 : Nat) : Int)
          omega
  · have heq : structureOf (env (k + 1)) = structureOf (env k) := by
      rw [← hv]
      by_contra hc
      exact hd ((structureDiffers_iff _ _).mpr (fun h' => hc h'.symm))
    have hg : govIdx env (k + 1) = govIdx env k := by simp [govIdx, heq]
    rw [if_neg hd]
    refine ⟨by rw [hlen, hg], ?_, ?_⟩
    · intro p hp
      by_cases hpk : p = k + 1
      · subst hpk
        obtain ⟨e, he, hs, hv'⟩ := h1 k (le_refl _)
        refine ⟨e, by rw [hg]; exact he, ?_, by rw [heq]; exact hv'⟩
        push_cast
        omega
      · exact h1 p (by omega)
    · intro p hp e he
      by_cases hpk : p = k + 1
      · subst hpk
        rw [hg, List.getElem?_eq_none (by omega)] at he
        exact Option.noConfusion he
      · exact h2 p (by omega) e he


theorem registerMeasure_eq (s s' : Recorder) (h : registerMeasure s = some s') :
    ∃ meas n', s' = { s with mMeasures := meas, mNumMeasures := n' } ∧
      (0 ≤ s.mNumMeasures → 0 ≤ n') := by
  simp only [registerMeasure, Option.bind_eq_bind, Option.bind_eq_some] at h
  obtain ⟨b, -, h⟩ := h
  split at h
  · split at h
    · cases h
      exact ⟨_, _, rfl, fun h0 => by omega⟩
    · exact Option.noConfusion h
  · cases h
    exact ⟨s.mMeasures, s.mNumMeasures, rfl, fun h0 => h0⟩

theorem RecordStructure_eq (m : ℚ) (s s' : Recorder) (h : RecordStructure m s = some s') :
    ∃ mp' meas n', s' = appendStructure { s with
        mMeasurePos := mp'
        mMaxRecordedLength := max s.mPlayhead s.mMaxRecordedLength
        mMeasures := meas
        mNumMeasures := n' } ∧
      mp'.length = s.mMeasurePos.length ∧ (0 ≤ s.mNumMeasures → 0 ≤ n') := by
  simp only [RecordStructure, Option.bind_eq_bind, Option.bind_eq_some] at h
  obtain ⟨mp, hmp, s2, hs2, h⟩ := h
  cases h
  obtain ⟨meas, n', rfl, hn⟩ := registerMeasure_eq _ _ hs2
  refine ⟨mp, meas, n', rfl, ?_, hn⟩
  rw [writeAt_some _ _ _ _ hmp, List.length_set]

theorem recordInput_eq (r : Int) (x : SampleIn) (s s' : Recorder)
    (h : recordInput r x s = some s') : ∃ bufs, s' = { s with mRecordBuffers := bufs } := by
  unfold recordInput at h
  split at h
  · simp only [Option.bind_eq_bind, Option.bind_eq_some] at h
    obtain ⟨_, -, _, -, _, -, h⟩ := h
    cases h
    exact ⟨_, rfl⟩
  · cases h
    exact ⟨s.mRecordBuffers, rfl⟩

/-- A one-sample batch is one per-sample step when recording or playing. -/
theorem Process_single (s : Recorder) (x : SampleIn) (h : s.mRecording = true ∨ s.mPlay = true) :
    Process s [x] = (ProcessSample s x).bind (fun r => some (r.1, [r.2])) := by
  unfold Process
  rw [if_pos h]
  simp only [processLoop, Option.bind_eq_bind]
  cases ProcessSample s x with
  | none => rfl
  | some r => rfl


theorem ProcessSample_eq (s s' : Recorder) (x : SampleIn) (out : ℚ × ℚ)
    (h : ProcessSample s x = some (s', out)) :
    ∃ s1 bufs, structureStep s x = some s1 ∧
      recordInput (GetRecordIdx s) x s1 = some { s1 with mRecordBuffers := bufs } ∧
      s' = advancePlayhead { s1 with mRecordBuffers := bufs } := by
  simp only [ProcessSample, Option.bind_eq_bind, Option.bind_eq_some] at h
  obtain ⟨s1, h1, s2, h2, o, ho, h⟩ := h
  simp only [Option.some.injEq, Prod.mk.injEq] at h
  obtain ⟨rfl, -⟩ := h
  obtain ⟨bufs, rfl⟩ := recordInput_eq _ _ _ _ h2
  exact ⟨s1, bufs, h1, h2, rfl⟩

theorem appendStructure_eq (s : Recorder) :
    appendStructure s = { s with
      mStructureInfoPoints := (appendStructure s).mStructureInfoPoints
      mActiveStructureIdx := (appendStructure s).mActiveStructureIdx } := by
  unfold appendStructure
  split <;> rfl

theorem appendStructure_points (s : Recorder) :
    (appendStructure s).mStructureInfoPoints
      = if needToRecord s = true then
          s.mStructureInfoPoints ++ [snapshot s.mPlayhead s.world]
        else s.mStructureInfoPoints := by
  unfold appendStructure
  split <;> rfl

/-- One captured sample takes a capture state to the next one. -/
theorem capture_step_world (C : Nat) (env : Nat → Collaborators) (x : SampleIn) (n : Nat)
    (s : Recorder) (hn : n < C) (h : CaptureState C env n s) (hworld : s.world = env n) :
    ∃ s' outs, Process s [x] = some (s', outs) ∧ CaptureState C env (n + 1) s' := by
  obtain ⟨hrec, hL, hmp, hp, hmax, hidx, ⟨b, hb, hbwf, hblen⟩, hnum, hw, hmerge, hundo, hpts⟩ := h
  rw [if_pos hn] at hp
  have hsafe : StepSafe s := by
    refine ⟨?_, ?_, hnum, ?_, ?_⟩
    · show 0 ≤ s.mPlayhead
      omega
    · show s.mPlayhead < _
      rw [hp, hmp]; omega
    · show ∀ b ∈ s.mRecordBuffers, b.WF
      rw [hb]
      intro c hc
      rw [List.mem_singleton.mp hc]; exact hbwf
    · intro _
      refine ⟨b, ?_, ?_⟩
      · show getBuffer s.mRecordBuffers s.mRecordIdx = some b
        rw [hb, hidx]; rfl
      · show s.mPlayhead < _
        rw [hp, hblen]; omega
  obtain ⟨⟨s', out⟩, hr⟩ := ProcessSample_isSome _ x hsafe
  refine ⟨s', [out], ?_, ?_⟩
  · rw [Process_single s x (Or.inl hrec), hr]; rfl
  obtain ⟨s1, bufs, h1, h2, rfl⟩ := ProcessSample_eq _ _ _ _ hr
  have hirs : IsRecordingStructure s = true := by
    simp only [IsRecordingStructure, hrec, Bool.true_and, decide_eq_true_eq]
    omega
  simp only [structureStep, hirs, if_true] at h1
  obtain ⟨mp', meas, n', rfl, hmplen, hn'⟩ := RecordStructure_eq _ _ _ h1
  obtain ⟨-, -, -, -, g5⟩ := recordInput_spec _ _ _ _ h2
  have hbufs : ∃ b', bufs = [b'] ∧ b'.WF ∧ b'.mLength = C := by
    rcases g5 with g5 | ⟨-, -, b0, hb0, g5⟩
    · refine ⟨b, ?_, hbwf, hblen⟩
      have : bufs = (appendStructure _).mRecordBuffers := g5
      rw [this, (appendStructure_frame _).2.2.1]
      exact hb
    · have e1 : bufs = (appendStructure _).mRecordBuffers.set _ _ := g5
      rw [(appendStructure_frame _).2.2.1] at e1 hb0
      have hgr : GetRecordIdx s = 0 := by
        simp [GetRecordIdx, hrec, hidx]
      rw [hgr] at e1 hb0
      simp only [hb] at e1 hb0
      have hb0' : b0 = b := by
        simp only [getBuffer, le_refl, if_true, Int.toNat_zero, List.getElem?_cons_zero,
          Option.some.injEq] at hb0
        exact hb0.symm
      subst hb0'
      refine ⟨_, e1, ?_, hblen⟩
      simpa [RecordBuffer.WF] using hbwf
  rw [appendStructure_eq]
  simp only [advancePlayhead]
  have hpts' : EntriesOK env n (appendStructure
      { s with mMeasurePos := mp',
               mMaxRecordedLength := max s.mPlayhead s.mMaxRecordedLength,
               mMeasures := meas, mNumMeasures := n' }).mStructureInfoPoints := by
    rw [appendStructure_points]
    cases n with
    | zero =>
      simp only at hpts
      simp only [needToRecord, hpts, List.getLast?_nil, if_true, List.nil_append, hp, hworld]
      exact EntriesOK_zero env
    | succ k =>
      simp only at hpts
      obtain ⟨last, hlast, -⟩ := EntriesOK_last env k _ hpts
      simp only [needToRecord, hlast, hp, hworld]
      exact EntriesOK_succ env k _ last hpts hlast
  have hpl : s.mPlayhead < (C : Int) - 1 ↔ n + 1 < C := by omega
  split
  · rename_i hlt
    have hlt' : n + 1 < C := by
      apply hpl.mp
      have : s.mPlayhead < s.mRecordingLength - 1 := hlt
      omega
    refine ⟨hrec, hL, by simpa [hmplen] using hmp, ?_, ?_, hidx, hbufs, hn' hnum, hw, hmerge,
      hundo, hpts'⟩
    · show s.mPlayhead + 1 = _
      rw [if_pos hlt']; push_cast; omega
    · show max s.mPlayhead s.mMaxRecordedLength = _
      push_cast; omega
  · rename_i hlt
    have hlt' : ¬ n + 1 < C := by
      intro hc
      apply hlt
      show s.mPlayhead < s.mRecordingLength - 1
      omega
    refine ⟨hrec, hL, by simpa [hmplen] using hmp, ?_, ?_, hidx, hbufs, hn' hnum, hw, hmerge,
      hundo, hpts'⟩
    · show s.mPlayhead = _
      rw [if_neg hlt']; omega
    · show max s.mPlayhead s.mMaxRecordedLength = _
      push_cast; omega

/-- One captured sample, with the collaborators holding `env n`, takes a capture state to
the next one. -/
theorem capture_step (C : Nat) (env : Nat → Collaborators) (x : SampleIn) (n : Nat)
    (s : Recorder) (hn : n < C) (h : CaptureState C env n s) :
    ∃ s' outs, Process { s with world := env n } [x] = some (s', outs) ∧
      CaptureState C env (n + 1) s' :=
  capture_step_world C env x n { s with world := env n } hn h rfl


theorem captureFrom_state (C : Nat) (env : Nat → Collaborators) (inp : Nat → SampleIn)
    (s : Recorder) (h : CaptureState C env 0 s) (n : Nat) (hn : n ≤ C) :
    ∃ s', captureFrom env inp s n = some s' ∧ CaptureState C env n s' := by
  induction n with
  | zero => exact ⟨s, rfl, h⟩
  | succ k ih =>
    obtain ⟨s1, h1, hc1⟩ := ih (by omega)
    obtain ⟨s2, outs, h2, hc2⟩ := capture_step C env (inp k) k s1 (by omega) hc1
    refine ⟨s2, ?_, hc2⟩
    simp only [captureFrom, h1, h2, Option.bind_eq_bind, Option.some_bind]

/-- The constructor succeeds and produces `freshEngine`. -/
theorem Recorder.new_eq (C : Nat) (sel : Bool) (m : Nat → Int) (w : Collaborators) :
    Recorder.new C sel m w = some (freshEngine C sel m w) := by
  simp [Recorder.new, AddRecordBuffer, RecordBuffer.new, freshEngine]

/-- The record checkbox in closed form: only `mRecording`, the undo buffer and (through
`TheTransport->Reset()`) the collaborators change. -/
theorem setRecording_eq (transportReset : Collaborators → Collaborators) (junk : Nat → ℚ)
    (value : Bool) (s : Recorder) (b : RecordBuffer)
    (hb : getBuffer s.mRecordBuffers s.mRecordIdx = some b) (hwf : b.WF)
    (hu : s.mUndoBuffer.WF) :
    ∃ w', setRecording transportReset junk value s = some { s with
      mRecording := value
      world := w'
      mUndoBuffer :=
        { s.mUndoBuffer with mLeft := b.mLeft, mRight := b.mRight, mLength := b.mLength } } := by
  have hc1 := CopyRecordBufferContents_eq junk s.mUndoBuffer b hu hwf
  simp only [setRecording, CheckboxUpdated, if_true, Option.bind_eq_bind]
  split
  · exact ⟨transportReset s.world, by simp only [hb, hc1, Option.some_bind]⟩
  · exact ⟨s.world, by simp only [hb, hc1, Option.some_bind]⟩

theorem WF_replicate (C : Nat) :
    (⟨List.replicate C 0, List.replicate C 0, C, BufferControls.new⟩ : RecordBuffer).WF := by
  simp [RecordBuffer.WF]

/-- Enabling recording on a fresh engine gives the capture state before sample 0. -/
theorem fresh_capture_state (C : Nat) (sel : Bool) (m : Nat → Int) (w : Collaborators)
    (transportReset : Collaborators → Collaborators) (junk : Nat → ℚ)
    (env : Nat → Collaborators) (hC : 0 < C) :
    ∃ s0 s1, Recorder.new C sel m w = some s0 ∧
      setRecording transportReset junk true s0 = some s1 ∧ CaptureState C env 0 s1 := by
  obtain ⟨w', hs1⟩ := setRecording_eq transportReset junk true (freshEngine C sel m w)
    ⟨List.replicate C 0, List.replicate C 0, C, BufferControls.new⟩ rfl (WF_replicate C)
    (WF_replicate C)
  refine ⟨_, _, Recorder.new_eq C sel m w, hs1, ?_⟩
  refine ⟨rfl, rfl, by simp [freshEngine], ?_, by simp [freshEngine], rfl,
    ⟨_, rfl, WF_replicate C, rfl⟩, le_refl _, rfl, rfl, WF_replicate C, rfl⟩
  show (0 : Int) = _
  rw [if_pos hC]
  rfl


/-- The cursor step of `ApplyStructure` at playhead `p` of a captured session: the cursor
lands on the entry governing `p` and the collaborators hold the values of `env p`. -/
theorem advanceStructure_replay (env : Nat → Collaborators) (N p : Nat) (s : Recorder)
    (hE : EntriesOK env N s.mStructureInfoPoints) (hp : p ≤ N) (hph : s.mPlayhead = p)
    (hc : CursorAt env p s.mActiveStructureIdx s.world) :
    ∃ w', advanceStructure s
        = some { s with mActiveStructureIdx := (govIdx env p : Int), world := w' } ∧
      structureOf w' = structureOf (env p) ∧ w'.measurePos = s.world.measurePos := by
  obtain ⟨hlen, h1, h2⟩ := hE
  cases p with
  | zero =>
    simp only [CursorAt] at hc
    obtain ⟨e, he, -, hv⟩ := h1 0 (Nat.zero_le _)
    simp only [govIdx] at he
    refine ⟨pushStructure e s.world, ?_, hv, rfl⟩
    simp only [advanceStructure, hc, if_true, Option.bind_eq_bind, Option.some_bind,
      Int.reduceNeg, Int.reduceAdd, Int.toNat_zero, he, neg_add_cancel, govIdx, Nat.cast_zero]
  | succ q =>
    simp only [CursorAt] at hc
    obtain ⟨hcur, hw⟩ := hc
    have hne : s.mActiveStructureIdx ≠ -1 := by omega
    have hmono := govIdx_mono env (q + 1) N hp
    by_cases hd : structureOf (env (q + 1)) ≠ structureOf (env q)
    · have hg : govIdx env (q + 1) = govIdx env q + 1 := by simp [govIdx, hd]
      obtain ⟨e, he, hs, hv⟩ := h1 (q + 1) hp
      rw [hg] at he
      have hrange : 0 ≤ s.mActiveStructureIdx ∧
          s.mActiveStructureIdx < (s.mStructureInfoPoints.length : Int) - 1 := by
        rw [hcur, hlen]; omega
      have hidx : (s.mActiveStructureIdx + 1).toNat = govIdx env q + 1 := by omega
      have hadv : decide (e.mSample ≤ s.mPlayhead) = true := by
        rw [hph]; exact decide_eq_true hs
      refine ⟨pushStructure e s.world, ?_, hv, rfl⟩
      simp only [advanceStructure, hne, if_false, hrange, and_self, if_true, hidx, he,
        Option.bind_eq_bind, Option.some_bind, hadv]
      rw [hcur, hg]
      push_cast
      rfl
    · have heq : structureOf (env (q + 1)) = structureOf (env q) := not_not.mp hd
      have hg : govIdx env (q + 1) = govIdx env q := by simp [govIdx, heq]
      have hstay : advanceStructure s = some s := by
        unfold advanceStructure
        by_cases hrange : 0 ≤ s.mActiveStructureIdx ∧
            s.mActiveStructureIdx < (s.mStructureInfoPoints.length : Int) - 1
        · have hidx : (s.mActiveStructureIdx + 1).toNat = govIdx env q + 1 := by omega
          have hlt : govIdx env q + 1 < s.mStructureInfoPoints.length := by omega
          have hget := List.getElem?_eq_getElem hlt
          have hlate := h2 (q + 1) hp _ (by rw [hg]; exact hget)
          have hadv : decide ((s.mStructureInfoPoints[govIdx env q + 1]).mSample
              ≤ s.mPlayhead) = false := by
            rw [hph]; exact decide_eq_false (by omega)
          simp only [hne, if_false, hrange, and_self, if_true, hidx, hget, Option.bind_eq_bind,
            Option.some_bind, hadv, Bool.false_eq_true]
        · simp only [hne, if_false, hrange, Option.bind_eq_bind, Option.some_bind,
            Bool.false_eq_true]
      refine ⟨s.world, ?_, by rw [heq]; exact hw, rfl⟩
      rw [hstay, hg, ← hcur]


theorem applyMeasurePos_eq (mp : ℚ) (s : Recorder) :
    ∃ m', applyMeasurePos mp s = { s with world := { s.world with measurePos := m' } } := by
  unfold applyMeasurePos
  split
  · exact ⟨mp, rfl⟩
  · exact ⟨s.world.measurePos, rfl⟩

/-- One replayed sample takes a replay state to the next one. -/
theorem replay_step (C : Nat) (env : Nat → Collaborators) (N p : Nat) (s : Recorder)
    (x : SampleIn) (hN : N < C) (hp : p ≤ N) (h : ReplayState C env N p s) :
    ∃ s' outs, Process s [x] = some (s', outs) ∧ ReplayState C env N (p + 1) s' := by
  obtain ⟨hrec, hplay, hL, hmp, hph, hwf, hnum, hE, hc⟩ := h
  rw [if_pos (by omega)] at hph
  have hsafe : StepSafe s := by
    refine ⟨by omega, by rw [hph, hmp]; omega, hnum, hwf, ?_⟩
    intro hr
    rw [hrec] at hr
    exact absurd hr (by decide)
  obtain ⟨⟨s', out⟩, hr⟩ := ProcessSample_isSome s x hsafe
  refine ⟨s', [out], ?_, ?_⟩
  · rw [Process_single s x (Or.inr hplay), hr]; rfl
  obtain ⟨s1, bufs, h1, h2, rfl⟩ := ProcessSample_eq _ _ _ _ hr
  have hirs : IsRecordingStructure s = false := by
    simp [IsRecordingStructure, hrec]
  simp only [structureStep, hirs, Bool.false_eq_true, if_false] at h1
  simp only [ApplyStructure, Option.bind_eq_bind, Option.bind_eq_some] at h1
  obtain ⟨mp, -, h1⟩ := h1
  obtain ⟨m', hm'⟩ := applyMeasurePos_eq mp s
  rw [hm'] at h1
  have hnonempty : (s.mStructureInfoPoints.isEmpty) = false := by
    have : s.mStructureInfoPoints ≠ [] := by
      intro hnil
      have := hE.1
      rw [hnil] at this
      simp at this
    simpa using this
  simp only [hnonempty, Bool.false_eq_true, if_false] at h1
  obtain ⟨w', hadv, hw', -⟩ := advanceStructure_replay env N p
    { s with world := { s.world with measurePos := m' } } hE hp hph hc
  rw [hadv] at h1
  simp only [Option.some.injEq] at h1
  subst h1
  obtain ⟨-, -, -, -, g5⟩ := recordInput_spec _ _ _ _ h2
  have hbufs : bufs = s.mRecordBuffers := by
    rcases g5 with g5 | ⟨hr', -⟩
    · exact g5
    · have : s.mRecording = true := hr'
      rw [hrec] at this
      exact absurd this (by decide)
  subst hbufs
  simp only [advancePlayhead]
  split
  · rename_i hlt
    have hlt' : p + 1 < C := by
      have : s.mPlayhead < s.mRecordingLength - 1 := hlt
      omega
    refine ⟨hrec, hplay, hL, hmp, ?_, hwf, hnum, hE, ⟨rfl, hw'⟩⟩
    show s.mPlayhead + 1 = _
    rw [if_pos hlt']; push_cast; omega
  · rename_i hlt
    have hlt' : ¬ p + 1 < C := by
      intro hcn
      apply hlt
      show s.mPlayhead < s.mRecordingLength - 1
      omega
    refine ⟨hrec, hplay, hL, hmp, ?_, hwf, hnum, hE, ⟨rfl, hw'⟩⟩
    show s.mPlayhead = _
    rw [if_neg hlt']; omega

theorem replayFrom_state (C : Nat) (env : Nat → Collaborators) (N : Nat) (inp : Nat → SampleIn)
    (s : Recorder) (hN : N < C) (h : ReplayState C env N 0 s) (p : Nat) (hp : p ≤ N + 1) :
    ∃ s', replayFrom inp s p = some s' ∧ ReplayState C env N p s' := by
  induction p with
  | zero => exact ⟨s, rfl, h⟩
  | succ k ih =>
    obtain ⟨s1, h1, hc1⟩ := ih (by omega)
    obtain ⟨s2, outs, h2, hc2⟩ := replay_step C env N k s1 (inp k) hN (by omega) hc1
    refine ⟨s2, ?_, hc2⟩
    simp only [replayFrom, h1, h2, Option.bind_eq_bind, Option.some_bind]


theorem truncToInt_ofClamp_zero (v hi : ℚ) (_h0 : 0 ≤ v) (h1 : v < 1) (hhi : 0 ≤ hi) :
    truncToInt (ofClamp v 0 hi) = 0 := by
  obtain ⟨c0, -⟩ := ofClamp_mem v 0 hi hhi
  have c1 : ofClamp v 0 hi < 1 := by
    unfold ofClamp
    split
    · exact zero_lt_one
    · split
      · rename_i h2
        exact lt_trans h2 h1
      · exact h1
  unfold truncToInt
  rw [if_pos c0]
  exact Int.floor_eq_zero_iff.mpr ⟨c0, c1⟩

theorem seekClick_same_target (clickPos : ℚ) (s : Recorder) :
    seekClick s.mRecordIdx clickPos s = { s with
      mPlayhead := truncToInt (ofClamp (clickPos * (s.mRecordingLength : ℚ)) 0
        ((s.mRecordingLength - 1 : Int) : ℚ))
      mActiveStructureIdx := -1 } := by
  simp [seekClick]

theorem setPlaying_eq (transportReset : Collaborators → Collaborators) (junk : Nat → ℚ)
    (value : Bool) (s : Recorder) :
    setPlaying transportReset junk value s = some { s with mPlay := value } := by
  simp only [setPlaying, CheckboxUpdated, reduceCtorEq, if_false]

/-- The seek branch of `OnClicked` when the click is on the current record target. -/
theorem OnClicked_seek_eq (C : Nat) (junk : Nat → ℚ) (x y : Int) (s : Recorder)
    (hy : y > 20) (hx : x > 5) (hxw : (x : ℚ) < s.mBufferWidth + 5)
    (hmerge : s.mMergeBufferIdx = -1) (hci : clickedIndex s y = s.mRecordIdx) :
    OnClicked C junk ⟨false, false, false, false⟩ x y s = some { s with
      mPlayhead := truncToInt (ofClamp (MouseXToBufferPos s x * (s.mRecordingLength : ℚ)) 0
        ((s.mRecordingLength - 1 : Int) : ℚ))
      mActiveStructureIdx := -1 } := by
  unfold OnClicked
  simp only [Bool.false_eq_true, if_false, hy, hx, hxw, and_self, if_true, hmerge,
    ne_eq, not_true_eq_false, hci, seekClick_same_target]

/-- Stopping the recording, switching play on and clicking on sample 0 turns the state after
a capture of `N + 1` samples into the replay state before sample 0. -/
theorem seek_to_replay_state (C : Nat) (env : Nat → Collaborators) (N : Nat)
    (transportReset : Collaborators → Collaborators) (junk : Nat → ℚ) (x y : Int)
    (s2 : Recorder) (hN : N < C) (h : CaptureState C env (N + 1) s2)
    (hy : y > 20) (hx : x > 5) (hxw : x < 805)
    (hzero : ((x : ℚ) - 5) / 800 * (C : ℚ) < 1) :
    ∃ s3 s4 s5, setRecording transportReset junk false s2 = some s3 ∧
      setPlaying transportReset junk true s3 = some s4 ∧
      OnClicked C junk ⟨false, false, false, false⟩ x y s4 = some s5 ∧
      s5.mPlayhead = 0 ∧ ReplayState C env N 0 s5 := by
  obtain ⟨hrec, hL, hmp, hp, hmax, hidx, ⟨b, hb, hbwf, hblen⟩, hnum, hw, hmerge, hundo, hpts⟩ := h
  simp only at hpts
  have hget : getBuffer s2.mRecordBuffers s2.mRecordIdx = some b := by
    rw [hb, hidx]; rfl
  obtain ⟨w', hs3⟩ := setRecording_eq transportReset junk false s2 b hget hbwf hundo
  have hxq : (x : ℚ) < 800 + 5 := by
    have : ((x : Int) : ℚ) < ((805 : Int) : ℚ) := by exact_mod_cast hxw
    norm_num at this ⊢
    exact this
  have hx5 : (0 : ℚ) ≤ ((x : ℚ) - 5) / 800 * (C : ℚ) := by
    have : (5 : ℚ) < (x : ℚ) := by exact_mod_cast hx
    have h1 : (0 : ℚ) ≤ (x : ℚ) - 5 := by linarith
    have h2 : (0 : ℚ) ≤ (C : ℚ) := by exact_mod_cast Nat.zero_le C
    positivity
  have hC1 : (0 : ℚ) ≤ (((C : Int) - 1 : Int) : ℚ) := by
    have : (0 : Int) ≤ (C : Int) - 1 := by omega
    exact_mod_cast this
  have hzero' := truncToInt_ofClamp_zero _ _ hx5 hzero hC1
  refine ⟨_, _, _, hs3, setPlaying_eq _ _ _ _, OnClicked_seek_eq C junk x y _ hy hx ?_ hmerge ?_,
    ?_, ?_⟩
  · show (x : ℚ) < s2.mBufferWidth + 5
    rw [hw]; exact hxq
  · show clickedIndex _ y = s2.mRecordIdx
    rw [hidx]
    exact clickedIndex_single _ y b hb
  · show truncToInt (ofClamp (((x : ℚ) - 5) / s2.mBufferWidth * (s2.mRecordingLength : ℚ)) 0
      ((s2.mRecordingLength - 1 : Int) : ℚ)) = 0
    rw [hw, hL]
    push_cast at hzero' ⊢
    exact hzero'
  · refine ⟨rfl, rfl, hL, hmp, ?_, ?_, hnum, hpts, rfl⟩
    · show truncToInt (ofClamp (((x : ℚ) - 5) / s2.mBufferWidth * (s2.mRecordingLength : ℚ)) 0
        ((s2.mRecordingLength - 1 : Int) : ℚ)) = _
      rw [hw, hL, if_pos (by omega)]
      push_cast at hzero' ⊢
      exact hzero'
    · show ∀ c ∈ s2.mRecordBuffers, c.WF
      rw [hb]
      intro c hc
      rw [List.mem_singleton.mp hc]; exact hbwf


/-- Replay determinism on the click-to-seek path: on a fresh engine with chunk size `C`,
capture the samples `0 .. N` (`N < C`, so the playhead visits each of them) while the
collaborators hold `env p` at sample `p`; stop recording, switch play on and seek back with a
click that lands on sample 0 (which resets the replay cursor).  All these operations
succeed, and replaying sample by sample, after the replay step at each sample `p <= N` the
scale root and type, time signature, tempo and swing the collaborators hold are those of
`env p`. -/
theorem replay_determinism (C N : Nat) (hN : N < C) (selecting0 : Bool) (measures0 : Nat → Int)
    (w : Collaborators) (transportReset : Collaborators → Collaborators) (junk : Nat → ℚ)
    (env : Nat → Collaborators) (inp inp' : Nat → SampleIn) (x y : Int)
    (hy : y > 20) (hx : x > 5) (hxw : x < 805)
    (hzero : ((x : ℚ) - 5) / 800 * (C : ℚ) < 1) :
    ∃ s0 s1 s2 s3 s4 s5, Recorder.new C selecting0 measures0 w = some s0 ∧
      setRecording transportReset junk true s0 = some s1 ∧
      captureFrom env inp s1 (N + 1) = some s2 ∧
      setRecording transportReset junk false s2 = some s3 ∧
      setPlaying transportReset junk true s3 = some s4 ∧
      OnClicked C junk ⟨false, false, false, false⟩ x y s4 = some s5 ∧
      s5.mPlayhead = 0 ∧ s5.mRecording = false ∧
      ∀ p, p ≤ N → ∃ s6, replayFrom inp' s5 (p + 1) = some s6 ∧
        structureOf s6.world = structureOf (env p) := by
  obtain ⟨s0, s1, h0, h1, hc0⟩ :=
    fresh_capture_state C selecting0 measures0 w transportReset junk env (by omega)
  obtain ⟨s2, h2, hc2⟩ := captureFrom_state C env inp s1 hc0 (N + 1) (by omega)
  obtain ⟨s3, s4, s5, h3, h4, h5, hp5, hr5⟩ :=
    seek_to_replay_state C env N transportReset junk x y s2 hN hc2 hy hx hxw hzero
  refine ⟨s0, s1, s2, s3, s4, s5, h0, h1, h2, h3, h4, h5, hp5, hr5.1, ?_⟩
  intro p hp
  obtain ⟨s6, h6, hr6⟩ := replayFrom_state C env N inp' s5 hN hr5 (p + 1) (by omega)
  exact ⟨s6, h6, hr6.2.2.2.2.2.2.2.2.2⟩

/-- The click-to-seek replay theorem applies to the example session: chunk size 2, two
captured samples with a tempo change at sample 1, and a click at `x = 6`, which lands on
sample 0. -/
theorem replay_determinism_witness :
    ∃ s0 s1 s2 s3 s4 s5, Recorder.new 2 false (fun _ => 0) demoWorld = some s0 ∧
      setRecording id demoJunk true s0 = some s1 ∧
      captureFrom demoEnv demoInput s1 (1 + 1) = some s2 ∧
      setRecording id demoJunk false s2 = some s3 ∧
      setPlaying id demoJunk true s3 = some s4 ∧
      OnClicked 2 demoJunk ⟨false, false, false, false⟩ 6 21 s4 = some s5 ∧
      s5.mPlayhead = 0 ∧ s5.mRecording = false ∧
      ∀ p, p ≤ 1 → ∃ s6, replayFrom demoInput s5 (p + 1) = some s6 ∧
        structureOf s6.world = structureOf (demoEnv p) :=
  replay_determinism 2 1 (by decide) false (fun _ => 0) demoWorld id demoJunk demoEnv demoInput
    demoInput 6 21 (by decide) (by decide) (by decide) (by norm_num)

/-- C7 (code defect): the reset-playhead button moves the playhead to 0 but, unlike the
click-to-seek branch, leaves `mActiveStructureIdx` on the last captured entry.  In the
example session the tempo read at sample 0 during capture is 120, yet before the replay
and after the replay step at sample 0 the playhead is 0 resp. 1 with the cursor on entry 1
and the collaborators still holding tempo 130: nothing is pushed during the replay. -/
theorem replay_after_reset_button_diverges :
    (demoButtonReplay 0).map (fun s => (s.mPlayhead, s.mRecording, s.mActiveStructureIdx))
      = some (0, false, 1) ∧
    (demoButtonReplay 1).map (fun s => (s.mPlayhead, s.mActiveStructureIdx, s.world.tempo))
      = some (1, 1, 130) ∧
    (demoEnv 0).tempo = 120 ∧
    (demoButtonReplay 1).map (fun s => structureOf s.world) ≠ some (structureOf (demoEnv 0)) := by
  refine ⟨?_, ?_, ?_, ?_⟩ <;> with_unfolding_all decide

/-! ## Length normalisation (C13) -/

theorem padTo_getElem?_lt (chan : List ℚ) (k i : Nat) (h : i < chan.length) :
    (chan ++ List.replicate k (0 : ℚ))[i]? = chan[i]? :=
  List.getElem?_append_left h

theorem padTo_getElem?_zero (chan : List ℚ) (k i : Nat) (h0 : chan.length ≤ i)
    (h1 : i < chan.length + k) : (chan ++ List.replicate k (0 : ℚ))[i]? = some 0 := by
  rw [List.getElem?_append_right h0, List.getElem?_replicate]
  simp
  omega

/-- C13 (length normalisation): for a track set of well-formed buffers none of which is
longer than `mRecordingLength`, `FixLengths` succeeds; the number and order of the buffers
and their controls are unchanged; every buffer then has length exactly `mRecordingLength`
on both channels; its samples below its old length are unchanged and every index from its
old length up to `mRecordingLength` holds 0. -/
theorem FixLengths_normalizes (junk : Nat → ℚ) (s : Recorder)
    (hwf : ∀ b ∈ s.mRecordBuffers, b.WF)
    (hle : ∀ b ∈ s.mRecordBuffers, b.mLength ≤ s.mRecordingLength) :
    ∃ s', FixLengths junk s = some s' ∧
      s'.mRecordBuffers.length = s.mRecordBuffers.length ∧
      ∀ (k : Nat) (b : RecordBuffer), s.mRecordBuffers[k]? = some b →
        ∃ b' : RecordBuffer, s'.mRecordBuffers[k]? = some b' ∧
          b'.mLength = s.mRecordingLength ∧
          (b'.mLeft.length : Int) = s.mRecordingLength ∧
          (b'.mRight.length : Int) = s.mRecordingLength ∧
          b'.mControls = b.mControls ∧
          (∀ i : Nat, (i : Int) < b.mLength →
            b'.mLeft[i]? = b.mLeft[i]? ∧ b'.mRight[i]? = b.mRight[i]?) ∧
          (∀ i : Nat, b.mLength ≤ (i : Int) → (i : Int) < s.mRecordingLength →
            b'.mLeft[i]? = some 0 ∧ b'.mRight[i]? = some 0) := by
  refine ⟨_, FixLengths_eq junk s hwf, by simp, ?_⟩
  intro k b hb
  have hmem := List.getElem?_mem hb
  obtain ⟨hl, hr⟩ := hwf b hmem
  have hlen := hle b hmem
  refine ⟨padTo s.mRecordingLength b, by simp [hb], ?_, ?_, ?_, rfl, ?_, ?_⟩
  · simp only [padTo]; omega
  · simp only [padTo, List.length_append, List.length_replicate]; omega
  · simp only [padTo, List.length_append, List.length_replicate]; omega
  · intro i hi
    exact ⟨padTo_getElem?_lt _ _ _ (by omega), padTo_getElem?_lt _ _ _ (by omega)⟩
  · intro i hi hiL
    exact ⟨padTo_getElem?_zero _ _ _ (by omega) (by omega),
      padTo_getElem?_zero _ _ _ (by omega) (by omega)⟩

/-- Witness for C13: the two buffers of `demoShortBuffers` have length 2 and the recording
length is 3. -/
theorem FixLengths_normalizes_witness :
    ∃ s', FixLengths demoJunk demoShortBuffers = some s' ∧
      s'.mRecordBuffers.length = demoShortBuffers.mRecordBuffers.length ∧
      ∀ (k : Nat) (b : RecordBuffer), demoShortBuffers.mRecordBuffers[k]? = some b →
        ∃ b' : RecordBuffer, s'.mRecordBuffers[k]? = some b' ∧
          b'.mLength = demoShortBuffers.mRecordingLength ∧
          (b'.mLeft.length : Int) = demoShortBuffers.mRecordingLength ∧
          (b'.mRight.length : Int) = demoShortBuffers.mRecordingLength ∧
          b'.mControls = b.mControls ∧
          (∀ i : Nat, (i : Int) < b.mLength →
            b'.mLeft[i]? = b.mLeft[i]? ∧ b'.mRight[i]? = b.mRight[i]?) ∧
          (∀ i : Nat, b.mLength ≤ (i : Int) → (i : Int) < demoShortBuffers.mRecordingLength →
            b'.mLeft[i]? = some 0 ∧ b'.mRight[i]? = some 0) :=
  FixLengths_normalizes demoJunk demoShortBuffers (by decide) (by decide)

/-! ## Seeking and the replay cursor (C11) -/

/-- The click-to-seek branch puts the playhead on the clamped sample index and forgets the
replay cursor. -/
theorem seekClick_cursor (clickedIdx : Int) (clickPos : ℚ) (s : Recorder) :
    (seekClick clickedIdx clickPos s).mActiveStructureIdx = -1 ∧
    (seekClick clickedIdx clickPos s).mPlayhead
      = truncToInt (ofClamp (clickPos * (s.mRecordingLength : ℚ)) 0
          ((s.mRecordingLength - 1 : Int) : ℚ)) := by
  unfold seekClick
  constructor
  · rfl
  · simp only
    split <;> rfl

/-- The reset-playhead button in closed form: only the playhead changes. -/
theorem ButtonClicked_resetPlayhead (junk : Nat → ℚ) (s : Recorder) :
    ButtonClicked junk Button.resetPlayhead s = some { s with mPlayhead := 0 } := by
  simp [ButtonClicked]

/-- The state produced by `demoCapturedSession` is reachable. -/
theorem demoCapturedSession_reachable (s : Recorder) (h : demoCapturedSession = some s) :
    Reachable 2 2 s := by
  simp only [demoCapturedSession, captureFrom, Option.bind_eq_bind, Option.bind_eq_some,
    Option.some.injEq, exists_eq_left'] at h
  obtain ⟨s0, h0, s1, h1, s2, ⟨s3, ⟨⟨s4, o4⟩, h4, h5⟩, ⟨s6, o6⟩, h6, h7⟩, s8, h8, h9⟩ := h
  cases h5
  cases h7
  exact ((((((Reachable.init _ _ _ h0).step (Step.record _ _ _ h1)).step
    (Step.collaborators (demoEnv 0))).step (Step.process _ _ h4)).step
    (Step.collaborators (demoEnv 1))).step (Step.process _ _ h6)).step
    (Step.record _ _ _ h8) |>.step (Step.play _ _ _ h9)

/-- C11 (code defect): the reset-playhead button sets the playhead to 0 and changes nothing
else, so the replay cursor keeps its value; in the reachable state after the example
capture the cursor is 1 and is still 1 after the button, where the click-to-seek branch
(`seekClick_cursor`) leaves -1. -/
theorem reset_button_keeps_replay_cursor :
    (∀ (junk : Nat → ℚ) (s : Recorder),
      ButtonClicked junk Button.resetPlayhead s = some { s with mPlayhead := 0 }) ∧
    ∃ s s', Reachable 2 2 s ∧ demoCapturedSession = some s ∧
      ButtonClicked demoJunk Button.resetPlayhead s = some s' ∧
      s'.mPlayhead = 0 ∧ s'.mActiveStructureIdx = 1 := by
  refine ⟨ButtonClicked_resetPlayhead, ?_⟩
  have hv : demoCapturedSession.map (fun s => s.mActiveStructureIdx) = some 1 := by
    with_unfolding_all decide
  cases hs : demoCapturedSession with
  | none => rw [hs] at hv; exact Option.noConfusion hv
  | some s =>
    rw [hs] at hv
    simp only [Option.map_some', Option.some.injEq] at hv
    exact ⟨s, _, demoCapturedSession_reachable s hs, rfl, ButtonClicked_resetPlayhead demoJunk s,
      rfl, hv⟩


/-! ## The structure entry list (C16) -/

theorem advanceStructure_eq (s s' : Recorder) (h : advanceStructure s = some s') :
    ∃ c w, s' = { s with mActiveStructureIdx := c, world := w } := by
  simp only [advanceStructure, Option.bind_eq_bind, Option.bind_eq_some] at h
  obtain ⟨adv, -, h⟩ := h
  split at h
  · simp only [Option.bind_eq_some] at h
    obtain ⟨info, -, h⟩ := h
    cases h
    exact ⟨_, _, rfl⟩
  · cases h
    exact ⟨s.mActiveStructureIdx, s.world, rfl⟩

/-- `ApplyStructure` changes nothing but the replay cursor and the collaborators. -/
theorem ApplyStructure_eq (s s' : Recorder) (h : ApplyStructure s = some s') :
    ∃ c w, s' = { s with mActiveStructureIdx := c, world := w } := by
  simp only [ApplyStructure, Option.bind_eq_bind, Option.bind_eq_some] at h
  obtain ⟨mp, -, h⟩ := h
  obtain ⟨m', hm'⟩ := applyMeasurePos_eq mp s
  rw [hm'] at h
  split at h
  · cases h
    exact ⟨s.mActiveStructureIdx, _, rfl⟩
  · obtain ⟨c, w, rfl⟩ := advanceStructure_eq _ _ h
    exact ⟨c, w, rfl⟩

theorem appendStructure_noRedundant (s : Recorder)
    (h : NoRedundantEntries s.mStructureInfoPoints) :
    NoRedundantEntries (appendStructure s).mStructureInfoPoints := by
  rw [appendStructure_points]
  split
  · rename_i hneed
    intro i a b ha hb
    by_cases hi : i + 1 < s.mStructureInfoPoints.length
    · rw [List.getElem?_append_left (by omega)] at ha
      rw [List.getElem?_append_left hi] at hb
      exact h i a b ha hb
    · have hlen : i + 1 < (s.mStructureInfoPoints ++ [snapshot s.mPlayhead s.world]).length :=
        getElem?_lt_length _ _ _ hb
      simp only [List.length_append, List.length_singleton] at hlen
      have hi' : i + 1 = s.mStructureInfoPoints.length := by omega
      rw [List.getElem?_append_left (by omega)] at ha
      rw [hi', List.getElem?_append_right (le_refl _)] at hb
      simp only [Nat.sub_self, List.getElem?_cons_zero, Option.some.injEq] at hb
      have hlast : s.mStructureInfoPoints.getLast? = some a := by
        rw [List.getLast?_eq_getElem?, ← hi']
        simpa using ha
      simp only [needToRecord, hlast] at hneed
      rw [← hb]
      exact (structureDiffers_iff a s.world).mp hneed
  · exact h

/-- The entry list after a per-sample step: unchanged, or extended by `appendStructure`. -/
theorem ProcessSample_noRedundant (s s' : Recorder) (x : SampleIn) (out : ℚ × ℚ)
    (h : ProcessSample s x = some (s', out)) (hs : NoRedundantEntries s.mStructureInfoPoints) :
    NoRedundantEntries s'.mStructureInfoPoints := by
  obtain ⟨s1, bufs, h1, -, rfl⟩ := ProcessSample_eq _ _ _ _ h
  have h1' : NoRedundantEntries s1.mStructureInfoPoints := by
    unfold structureStep at h1
    split at h1
    · obtain ⟨mp', meas, n', rfl, -, -⟩ := RecordStructure_eq _ _ _ h1
      exact appendStructure_noRedundant _ hs
    · obtain ⟨c, w, rfl⟩ := ApplyStructure_eq _ _ h1
      exact hs
  unfold advancePlayhead
  split <;> exact h1'

theorem processLoop_noRedundant (batch : List SampleIn) (s s' : Recorder)
    (outs : List (ℚ × ℚ)) (h : processLoop s batch = some (s', outs))
    (hs : NoRedundantEntries s.mStructureInfoPoints) :
    NoRedundantEntries s'.mStructureInfoPoints := by
  induction batch generalizing s outs with
  | nil =>
    simp only [processLoop, Option.some.injEq, Prod.mk.injEq] at h
    rw [← h.1]; exact hs
  | cons x xs ih =>
    simp only [processLoop, Option.bind_eq_bind, Option.bind_eq_some] at h
    obtain ⟨⟨s1, o1⟩, h1, ⟨s2, o2⟩, h2, h⟩ := h
    simp only [Option.some.injEq, Prod.mk.injEq] at h
    obtain ⟨rfl, -⟩ := h
    exact ih s1 o2 h2 (ProcessSample_noRedundant s s1 x o1 h1 hs)

theorem AddRecordBuffer_points (s s' : Recorder) (h : AddRecordBuffer s = some s') :
    s'.mStructureInfoPoints = s.mStructureInfoPoints := by
  simp only [AddRecordBuffer, Option.bind_eq_bind, Option.bind_eq_some] at h
  obtain ⟨b, -, h⟩ := h
  cases h
  rfl

theorem growRecording_points (C : Nat) (rd : Int) (junk : Nat → ℚ) (s s' : Recorder)
    (h : growRecording C rd junk s = some s') :
    s'.mStructureInfoPoints = s.mStructureInfoPoints := by
  unfold growRecording at h
  revert h s'
  iterate 13 (refine bind_some_of_forall _ _ _ (fun _ => ?_))
  intro s' h
  cases h
  rfl

theorem Poll_points (C : Nat) (sr : Int) (junk : Nat → ℚ) (s s' : Recorder)
    (h : Poll C sr junk s = some s') :
    s'.mStructureInfoPoints = s.mStructureInfoPoints := by
  unfold Poll at h
  split at h
  · rw [growRecording_points C sr junk (publishLength s) s' h]
    rfl
  · cases h; rfl

theorem OnClicked_points (C : Nat) (junk : Nat → ℚ) (c : ClickContext) (x y : Int)
    (s s' : Recorder) (h : OnClicked C junk c x y s = some s') :
    s'.mStructureInfoPoints = s.mStructureInfoPoints := by
  unfold OnClicked at h
  split at h
  · cases h; rfl
  · split at h
    · simp only at h
      split at h
      · simp only [Option.bind_eq_bind, Option.bind_eq_some] at h
        obtain ⟨s1, h1, h⟩ := h
        have e1 := DeleteBuffer_some _ _ _ h1
        split at h
        · rw [AddRecordBuffer_points _ _ h, e1]; rfl
        · cases h; rw [e1]
      · split at h
        · cases h; rfl
        · split at h
          · split at h <;> (cases h; rfl)
          · split at h
            · simp only [Option.bind_eq_bind, Option.bind_eq_some] at h
              obtain ⟨s1, h1, h⟩ := h
              cases h
              split at h1
              · obtain ⟨bufs, rfl⟩ := mergeInto_some _ _ _ _ h1
                rfl
              · cases h1; rfl
            · cases h
              unfold seekClick
              simp only
              split <;> rfl
    · cases h; rfl

theorem ButtonClicked_points (junk : Nat → ℚ) (b : Button) (s s' : Recorder)
    (h : ButtonClicked junk b s = some s') :
    s'.mStructureInfoPoints = s.mStructureInfoPoints := by
  simp only [ButtonClicked, Option.bind_eq_bind, Option.bind_eq_some] at h
  obtain ⟨s1, h1, s2, h2, h⟩ := h
  have r1 : s1.mStructureInfoPoints = s.mStructureInfoPoints := by
    split at h1
    · exact AddRecordBuffer_points _ _ h1
    · cases h1; rfl
  have r2 : s2.mStructureInfoPoints = s.mStructureInfoPoints := by
    split at h2
    · obtain ⟨bufs, e⟩ := FixLengths_some _ _ _ h2
      rw [e]
      split <;> exact r1
    · cases h2
      split <;> exact r1
  split at h
  · simp only [Option.bind_eq_bind, Option.bind_eq_some] at h
    obtain ⟨_, -, _, -, h⟩ := h
    cases h
    exact r2
  · cases h; exact r2

theorem CheckboxUpdated_points (transportReset : Collaborators → Collaborators)
    (junk : Nat → ℚ) (cb : Checkbox) (s s' : Recorder)
    (h : CheckboxUpdated transportReset junk cb s = some s') :
    s'.mStructureInfoPoints = s.mStructureInfoPoints := by
  unfold CheckboxUpdated at h
  split at h
  · simp only [Option.bind_eq_bind, Option.bind_eq_some] at h
    obtain ⟨_, -, _, -, h⟩ := h
    cases h
    split <;> rfl
  · cases h; rfl

theorem Step_noRedundant (C : Nat) (sr : Int) (s s' : Recorder) (h : Step C sr s s')
    (hs : NoRedundantEntries s.mStructureInfoPoints) :
    NoRedundantEntries s'.mStructureInfoPoints := by
  cases h with
  | process batch outs h =>
    unfold Process at h
    split at h
    · exact processLoop_noRedundant batch s s' outs h hs
    · simp only [Option.some.injEq, Prod.mk.injEq] at h
      rw [← h.1]; exact hs
  | poll junk h => rw [Poll_points C sr junk s s' h]; exact hs
  | click junk c x y h => rw [OnClicked_points C junk c x y s s' h]; exact hs
  | button junk b h => rw [ButtonClicked_points junk b s s' h]; exact hs
  | record tr junk v h => rw [CheckboxUpdated_points tr junk _ _ s' h]; exact hs
  | play tr junk v h => rw [CheckboxUpdated_points tr junk _ _ s' h]; exact hs
  | controls j c =>
    unfold setControls
    split <;> exact hs
  | collaborators w => exact hs
  | resetAll => exact hs

/-- C16 (no redundant structure entries): in every state reachable from a fresh engine any
two consecutive entries of `mStructureInfoPoints` differ in at least one of scale root,
scale type, time signature top, time signature bottom, tempo or swing; and a per-sample
step of `Process` taken while not capturing (not recording, or playhead at or below
`mMaxRecordedLength`) leaves the entry list, the measure-position array, the measure list
and `mMaxRecordedLength` unchanged. -/
theorem no_redundant_structure_entries (C : Nat) (sr : Int) :
    (∀ s, Reachable C sr s → NoRedundantEntries s.mStructureInfoPoints) ∧
    (∀ (s : Recorder) (x : SampleIn) (s' : Recorder) (out : ℚ × ℚ),
      ProcessSample s x = some (s', out) →
      (s.mRecording = false ∨ s.mPlayhead ≤ s.mMaxRecordedLength) →
      s'.mStructureInfoPoints = s.mStructureInfoPoints ∧
      s'.mMeasurePos = s.mMeasurePos ∧
      s'.mMeasures = s.mMeasures ∧ s'.mNumMeasures = s.mNumMeasures ∧
      s'.mMaxRecordedLength = s.mMaxRecordedLength) := by
  constructor
  · intro s hr
    induction hr with
    | init sel m w h =>
      rw [(Recorder.new_structure C sel m w _ h).1]
      intro i a b ha
      simp at ha
    | step _ hstep ih => exact Step_noRedundant C sr _ _ hstep ih
  · intro s x s' out h hnot
    obtain ⟨s1, bufs, h1, -, rfl⟩ := ProcessSample_eq _ _ _ _ h
    have hirs : IsRecordingStructure s = false := by
      unfold IsRecordingStructure
      rcases hnot with hr | hp
      · simp [hr]
      · simp only [Bool.and_eq_false_imp, decide_eq_false_iff_not]
        intro _
        omega
    simp only [structureStep, hirs, Bool.false_eq_true, if_false] at h1
    obtain ⟨c, w, rfl⟩ := ApplyStructure_eq _ _ h1
    unfold advancePlayhead
    split <;> exact ⟨rfl, rfl, rfl, rfl, rfl⟩

/-! ## The record target (C17) -/

/-- The state produced by `demoStaleTargetSession` is reachable. -/
theorem demoStaleTargetSession_reachable (s : Recorder) (h : demoStaleTargetSession = some s) :
    Reachable 2 2 s := by
  simp only [demoStaleTargetSession, Option.bind_eq_bind, Option.bind_eq_some] at h
  obtain ⟨s0, h0, s1, h1, s2, h2, h3⟩ := h
  exact (((Reachable.init _ _ _ h0).step (Step.button _ _ h1)).step
    (Step.record _ _ _ h2)).step (Step.click _ _ _ _ h3)

/-- The state produced by `demoShortTargetSession` is reachable. -/
theorem demoShortTargetSession_reachable (s : Recorder) (h : demoShortTargetSession = some s) :
    Reachable 2 2 s := by
  simp only [demoShortTargetSession, Option.bind_eq_bind, Option.bind_eq_some] at h
  obtain ⟨s0, h0, s1, h1, ⟨s2, o2⟩, h2, s3, h3, ⟨s4, o4⟩, h4, s5, h5, h6⟩ := h
  exact ((((((Reachable.init _ _ _ h0).step (Step.record _ _ _ h1)).step
    (Step.process _ _ h2)).step (Step.poll _ h3)).step (Step.process _ _ h4)).step
    (Step.button _ _ h5)).step (Step.record _ _ _ h6)

/-- C17 (code defect): two reachable states with recording on in which the per-sample write
has no defined target. After the add button, the record checkbox and an x-click deleting
buffer 0, recording is on with `mRecordIdx = 1` and a single buffer, so the active index is
not a valid index of the track set. After recording across a growth of `Poll`, the undo
button and the record checkbox, recording is on, the active buffer has length 2 and the
playhead is 3. In both states `Process` has no defined result. -/
theorem recording_write_out_of_bounds :
    (∃ s, Reachable 2 2 s ∧ demoStaleTargetSession = some s ∧ s.mRecording = true ∧
      s.mRecordBuffers.length = 1 ∧ s.mRecordIdx = 1 ∧
      getBuffer s.mRecordBuffers s.mRecordIdx = none ∧
      (Process s [⟨1, 1, 0⟩]).isNone = true) ∧
    (∃ s b, Reachable 2 2 s ∧ demoShortTargetSession = some s ∧ s.mRecording = true ∧
      getBuffer s.mRecordBuffers s.mRecordIdx = some b ∧
      b.mLength = 2 ∧ s.mPlayhead = 3 ∧ (Process s [⟨1, 1, 0⟩]).isNone = true) := by
  constructor
  · have hv : demoStaleTargetSession.map (fun s => (s.mRecording, s.mRecordBuffers.length,
        s.mRecordIdx, getBuffer s.mRecordBuffers s.mRecordIdx,
        (Process s [⟨1, 1, 0⟩]).isNone)) = some (true, 1, 1, none, true) := by
      with_unfolding_all decide
    cases hs : demoStaleTargetSession with
    | none => rw [hs] at hv; exact Option.noConfusion hv
    | some s =>
      rw [hs] at hv
      simp only [Option.map_some', Option.some.injEq, Prod.mk.injEq] at hv
      obtain ⟨h1, h2, h3, h4, h5⟩ := hv
      exact ⟨s, demoStaleTargetSession_reachable s hs, rfl, h1, h2, h3, h4, h5⟩
  · have hv : demoShortTargetSession.map (fun s => (s.mRecording,
        (getBuffer s.mRecordBuffers s.mRecordIdx).map (fun b => b.mLength), s.mPlayhead,
        (Process s [⟨1, 1, 0⟩]).isNone)) = some (true, some 2, 3, true) := by
      with_unfolding_all decide
    cases hs : demoShortTargetSession with
    | none => rw [hs] at hv; exact Option.noConfusion hv
    | some s =>
      rw [hs] at hv
      simp only [Option.map_some', Option.some.injEq, Prod.mk.injEq] at hv
      obtain ⟨h1, h2, h3, h4⟩ := hv
      cases hb : getBuffer s.mRecordBuffers s.mRecordIdx with
      | none => rw [hb] at h2; exact Option.noConfusion h2
      | some b =>
        rw [hb] at h2
        simp only [Option.map_some', Option.some.injEq] at h2
        exact ⟨s, b, demoShortTargetSession_reachable s hs, rfl, h1, hb, h2, h3, h4⟩

/-! ## Buffer lengths (C12) -/

theorem SameShape.trans (l1 l2 l3 : List RecordBuffer) (h12 : SameShape l1 l2)
    (h23 : SameShape l2 l3) : SameShape l1 l3 := by
  intro k b hb
  obtain ⟨b2, hb2, e1, e2, e3⟩ := h12 k b hb
  obtain ⟨b3, hb3, f1, f2, f3⟩ := h23 k b2 hb2
  exact ⟨b3, hb3, f1.trans e1, f2.trans e2, f3.trans e3⟩

/-- The state produced by `demoGrownSession` is reachable. -/
theorem demoGrownSession_reachable (s : Recorder) (h : demoGrownSession = some s) :
    Reachable 2 2 s := by
  simp only [demoGrownSession, Option.bind_eq_bind, Option.bind_eq_some] at h
  obtain ⟨s0, h0, s1, h1, ⟨s2, o2⟩, h2, h3⟩ := h
  exact (((Reachable.init _ _ _ h0).step (Step.record _ _ _ h1)).step
    (Step.process _ _ h2)).step (Step.poll _ h3)

theorem structureOf_measurePos (w : Collaborators) (m : ℚ) :
    structureOf { w with measurePos := m } = structureOf w := rfl

/-- In a strictly increasing list the entry after the governing one lies beyond the
playhead. -/
theorem GoverningEntry.next_later (pts : List StructureInfo) (p : Int) (g : Nat)
    (hinc : StrictlyIncreasingSamples pts) (hg : GoverningEntry pts p g)
    (e : StructureInfo) (he : pts[g + 1]? = some e) : p < e.mSample := by
  obtain ⟨eg, heg, -, hmax⟩ := hg
  by_contra hle
  have h1 := hmax (g + 1) e he (by omega)
  have h2 := hinc g eg e heg he
  omega

/-- C15, amended (replay advances the cursor by at most one entry per step): with the
playhead inside the measure-position array, a non-empty, strictly increasing entry list and
a prior cursor in `[-1, size - 1]`, `ApplyStructure` succeeds and leaves the entry list and the playhead as
they are; the cursor stays or moves forward by exactly one entry, and it moves exactly when
it is -1 or the next entry lies at or before the playhead; when it stays, the six
structure values of the collaborators are unchanged; when it moves, the collaborators hold
the values of the entry it moved to; and when the entry governing the playhead is the prior cursor's entry or the one after it (as it is
during continuous playback, and for the cursor -1 when entry 0 governs), the cursor
afterwards indexes the governing entry. -/
theorem ApplyStructure_advances_one_entry (s : Recorder)
    (hp0 : 0 ≤ s.mPlayhead) (hp1 : s.mPlayhead < s.mMeasurePos.length)
    (hne : s.mStructureInfoPoints ≠ [])
    (hc0 : -1 ≤ s.mActiveStructureIdx)
    (hc1 : s.mActiveStructureIdx ≤ (s.mStructureInfoPoints.length : Int) - 1)
    (hinc : StrictlyIncreasingSamples s.mStructureInfoPoints) :
    ∃ s', ApplyStructure s = some s' ∧
      s'.mStructureInfoPoints = s.mStructureInfoPoints ∧ s'.mPlayhead = s.mPlayhead ∧
      (s'.mActiveStructureIdx = s.mActiveStructureIdx ∨
        s'.mActiveStructureIdx = s.mActiveStructureIdx + 1) ∧
      (s'.mActiveStructureIdx = s.mActiveStructureIdx + 1 ↔
        (s.mActiveStructureIdx = -1 ∨ ∃ e : StructureInfo,
          s.mStructureInfoPoints[(s.mActiveStructureIdx + 1).toNat]? = some e ∧
          e.mSample ≤ s.mPlayhead)) ∧
      (s'.mActiveStructureIdx = s.mActiveStructureIdx →
        structureOf s'.world = structureOf s.world) ∧
      (s'.mActiveStructureIdx = s.mActiveStructureIdx + 1 →
        ∃ e : StructureInfo,
          s.mStructureInfoPoints[(s.mActiveStructureIdx + 1).toNat]? = some e ∧
          structureOf s'.world = e.values) ∧
      (∀ g : Nat, GoverningEntry s.mStructureInfoPoints s.mPlayhead g →
        ((g : Int) = s.mActiveStructureIdx ∨ (g : Int) = s.mActiveStructureIdx + 1) →
        s'.mActiveStructureIdx = (g : Int)) := by
  obtain ⟨mp, hmp⟩ := readAt_isSome s.mMeasurePos s.mPlayhead hp0 hp1
  obtain ⟨m', hm'⟩ := applyMeasurePos_eq mp s
  have hlen : 0 < s.mStructureInfoPoints.length := List.length_pos.mpr hne
  have hemp : s.mStructureInfoPoints.isEmpty = false := by
    cases hpts : s.mStructureInfoPoints with
    | nil => exact absurd hpts hne
    | cons a l => rfl
  have hnext : (s.mActiveStructureIdx + 1).toNat < s.mStructureInfoPoints.length ∨
      s.mActiveStructureIdx = (s.mStructureInfoPoints.length : Int) - 1 := by omega
  simp only [ApplyStructure, hmp, Option.bind_eq_bind, Option.some_bind, hm', hemp,
    Bool.false_eq_true, if_false]
  by_cases hc : s.mActiveStructureIdx = -1
  · have h0 : (s.mActiveStructureIdx + 1).toNat < s.mStructureInfoPoints.length := by
      rw [hc]; simpa using hlen
    simp only [advanceStructure, hc, if_true, Option.bind_eq_bind, Option.some_bind] at h0 ⊢
    rw [List.getElem?_eq_getElem h0]
    refine ⟨_, rfl, rfl, rfl, Or.inr rfl, ⟨fun _ => Or.inl trivial, fun _ => rfl⟩, ?_, ?_, ?_⟩
    · intro h
      have h' : (-1 : Int) + 1 = -1 := h
      omega
    · intro _
      exact ⟨_, rfl, rfl⟩
    · intro g hg hor
      show (-1 : Int) + 1 = (g : Int)
      rcases hor with h | h
      · omega
      · omega
  · by_cases hr : 0 ≤ s.mActiveStructureIdx ∧
        s.mActiveStructureIdx < (s.mStructureInfoPoints.length : Int) - 1
    · have h0 : (s.mActiveStructureIdx + 1).toNat < s.mStructureInfoPoints.length := by omega
      by_cases hs : (s.mStructureInfoPoints[(s.mActiveStructureIdx + 1).toNat]).mSample
          ≤ s.mPlayhead
      · simp only [advanceStructure, hc, if_false, hr, and_self, if_true, Option.bind_eq_bind,
          List.getElem?_eq_getElem h0, Option.some_bind, hs, decide_True]
        refine ⟨_, rfl, rfl, rfl, Or.inr rfl,
          ⟨fun _ => Or.inr ⟨_, rfl, hs⟩, fun _ => rfl⟩, ?_, ?_, ?_⟩
        · intro h
          have h' : s.mActiveStructureIdx + 1 = s.mActiveStructureIdx := h
          omega
        · intro _
          exact ⟨_, rfl, rfl⟩
        · intro g hg hor
          show s.mActiveStructureIdx + 1 = (g : Int)
          rcases hor with h | h
          · exfalso
            have hgn : s.mActiveStructureIdx.toNat = g := by omega
            have hidx : (s.mActiveStructureIdx + 1).toNat = g + 1 := by omega
            have hlt := GoverningEntry.next_later _ _ g hinc hg
              (s.mStructureInfoPoints[(s.mActiveStructureIdx + 1).toNat])
              (by rw [← hidx]; exact List.getElem?_eq_getElem h0)
            omega
          · omega
      · simp only [advanceStructure, hc, if_false, hr, and_self, if_true, Option.bind_eq_bind,
          List.getElem?_eq_getElem h0, Option.some_bind, hs, decide_False, Bool.false_eq_true]
        refine ⟨_, rfl, rfl, rfl, Or.inl rfl, ⟨?_, ?_⟩, ?_, ?_, ?_⟩
        · intro h
          have h' : s.mActiveStructureIdx = s.mActiveStructureIdx + 1 := h
          omega
        · intro h
          exfalso
          rcases h with h | ⟨e, he, hle⟩
          · exact h
          · simp only [Option.some.injEq] at he
            rw [← he] at hle
            exact hs hle
        · intro _
          rfl
        · intro h
          have h' : s.mActiveStructureIdx = s.mActiveStructureIdx + 1 := h
          omega
        · intro g hg hor
          show s.mActiveStructureIdx = (g : Int)
          rcases hor with h | h
          · omega
          · exfalso
            obtain ⟨eg, heg, hle, -⟩ := hg
            have hidx : (s.mActiveStructureIdx + 1).toNat = g := by omega
            rw [← hidx, List.getElem?_eq_getElem h0] at heg
            cases heg
            exact hs hle
    · simp only [advanceStructure, hc, if_false, hr, Option.bind_eq_bind, Option.some_bind,
        Bool.false_eq_true]
      refine ⟨_, rfl, rfl, rfl, Or.inl rfl, ⟨?_, ?_⟩, ?_, ?_, ?_⟩
      · intro h
        have h' : s.mActiveStructureIdx = s.mActiveStructureIdx + 1 := h
        omega
      · intro h
        exfalso
        rcases h with h | ⟨e, he, -⟩
        · exact h
        · have := getElem?_lt_length _ _ _ he
          omega
      · intro _
        rfl
      · intro h
        have h' : s.mActiveStructureIdx = s.mActiveStructureIdx + 1 := h
        omega
      · intro g hg hor
        show s.mActiveStructureIdx = (g : Int)
        rcases hor with h | h
        · omega
        · exfalso
          obtain ⟨eg, heg, -, -⟩ := hg
          have := getElem?_lt_length _ _ _ heg
          omega


theorem StrictlyIncreasingSamples_pair (a b : StructureInfo) (h : a.mSample < b.mSample) :
    StrictlyIncreasingSamples [a, b] := by
  intro i x y hx hy
  cases i with
  | zero =>
    simp only [List.getElem?_cons_zero, Option.some.injEq, zero_add,
      List.getElem?_cons_succ] at hx hy
    subst hx
    subst hy
    exact h
  | succ i =>
    simp at hy

/-- Witness for C15: in `demoReplaying` the cursor is on entry 0 and the playhead has
reached the sample of entry 1. -/
theorem ApplyStructure_advances_one_entry_witness :
    StrictlyIncreasingSamples demoReplaying.mStructureInfoPoints ∧
    ∃ s', ApplyStructure demoReplaying = some s' ∧
      s'.mStructureInfoPoints = demoReplaying.mStructureInfoPoints ∧
      s'.mPlayhead = demoReplaying.mPlayhead ∧
      (s'.mActiveStructureIdx = demoReplaying.mActiveStructureIdx ∨
        s'.mActiveStructureIdx = demoReplaying.mActiveStructureIdx + 1) ∧
      (s'.mActiveStructureIdx = demoReplaying.mActiveStructureIdx + 1 ↔
        (demoReplaying.mActiveStructureIdx = -1 ∨ ∃ e : StructureInfo,
          demoReplaying.mStructureInfoPoints[(demoReplaying.mActiveStructureIdx + 1).toNat]?
            = some e ∧
          e.mSample ≤ demoReplaying.mPlayhead)) ∧
      (s'.mActiveStructureIdx = demoReplaying.mActiveStructureIdx →
        structureOf s'.world = structureOf demoReplaying.world) ∧
      (s'.mActiveStructureIdx = demoReplaying.mActiveStructureIdx + 1 →
        ∃ e : StructureInfo,
          demoReplaying.mStructureInfoPoints[(demoReplaying.mActiveStructureIdx + 1).toNat]?
            = some e ∧
          structureOf s'.world = e.values) ∧
      (∀ g : Nat, GoverningEntry demoReplaying.mStructureInfoPoints demoReplaying.mPlayhead g →
        ((g : Int) = demoReplaying.mActiveStructureIdx ∨
          (g : Int) = demoReplaying.mActiveStructureIdx + 1) →
        s'.mActiveStructureIdx = (g : Int)) :=
  ⟨StrictlyIncreasingSamples_pair _ _ (by decide),
    ApplyStructure_advances_one_entry demoReplaying (by decide) (by decide) (by decide)
      (by decide) (by decide) (StrictlyIncreasingSamples_pair _ _ (by decide))⟩

/-- The state produced by `demoSeekSession` is reachable. -/
theorem demoSeekSession_reachable (s : Recorder) (h : demoSeekSession = some s) :
    Reachable 2 2 s := by
  simp only [demoSeekSession, Option.bind_eq_bind, Option.bind_eq_some] at h
  obtain ⟨s0, h0, h1⟩ := h
  exact (demoCapturedSession_reachable s0 h0).step (Step.click _ _ _ _ h1)

/-- C15, counterexample: in the reachable state after the example capture (entries at samples
0 and 1) and a click that seeks to sample 1, the cursor is -1, the list is strictly
increasing and entry 1 governs the playhead, yet one call of `ApplyStructure` leaves the
cursor on entry 0 and pushes tempo 120, the value of entry 0. -/
theorem replay_after_seek_lags_counterexample :
    ∃ s s', Reachable 2 2 s ∧ demoSeekSession = some s ∧
      s.mActiveStructureIdx = -1 ∧ s.mPlayhead = 1 ∧
      s.mStructureInfoPoints
        = [snapshot 0 demoWorld, snapshot 1 { demoWorld with tempo := 130 }] ∧
      ApplyStructure s = some s' ∧ s'.mActiveStructureIdx = 0 ∧ s'.world.tempo = 120 ∧
      GoverningEntry s.mStructureInfoPoints s.mPlayhead 1 ∧ ¬ ReplayLocatesAsStated s := by
  have hv : demoSeekSession.map (fun s => (s.mActiveStructureIdx, s.mPlayhead,
      s.mStructureInfoPoints,
      (ApplyStructure s).map (fun s' => (s'.mActiveStructureIdx, s'.world.tempo))))
      = some (-1, 1, [snapshot 0 demoWorld, snapshot 1 { demoWorld with tempo := 130 }],
          some (0, 120)) := by
    with_unfolding_all decide
  cases hs : demoSeekSession with
  | none => rw [hs] at hv; exact Option.noConfusion hv
  | some s =>
    rw [hs] at hv
    simp only [Option.map_some', Option.some.injEq, Prod.mk.injEq] at hv
    obtain ⟨h1, h2, h3, h4⟩ := hv
    cases hs' : ApplyStructure s with
    | none => rw [hs'] at h4; exact Option.noConfusion h4
    | some s' =>
      rw [hs'] at h4
      simp only [Option.map_some', Option.some.injEq, Prod.mk.injEq] at h4
      have hgov : GoverningEntry s.mStructureInfoPoints s.mPlayhead 1 := by
        rw [h2, h3]
        refine ⟨snapshot 1 { demoWorld with tempo := 130 }, rfl, le_refl _, ?_⟩
        intro j e' _ hle
        exact hle
      refine ⟨s, s', demoSeekSession_reachable s hs, rfl, h1, h2, h3, hs', h4.1, h4.2,
        hgov, ?_⟩
      intro hstated
      have hinc : StrictlyIncreasingSamples s.mStructureInfoPoints := by
        rw [h3]
        exact StrictlyIncreasingSamples_pair _ _ (by decide)
      obtain ⟨s2, g, e, e1, e2, ⟨eg, heg, -, hmax⟩, -, -⟩ := hstated
        (by rw [h3]; exact List.cons_ne_nil _ _) hinc
        ⟨snapshot 0 demoWorld, by rw [h3]; exact List.mem_cons_self _ _, by rw [h2]; decide⟩
        (by rw [h1]) (by rw [h1, h3]; decide)
        (by intro e h0; rw [h1] at h0; exact absurd h0 (by decide))
      rw [hs'] at e1
      cases e1
      rw [h4.1] at e2
      have hg : g = 0 := by omega
      subst hg
      rw [h3] at heg hmax
      have hm := hmax 1 (snapshot 1 { demoWorld with tempo := 130 }) rfl
        (by rw [h2]; exact le_refl _)
      simp only [List.getElem?_cons_zero, Option.some.injEq] at heg
      subst heg
      exact absurd hm (by decide)

/-! ## Lock discipline (C14) -/

theorem runLocks_append (es fs : List Effect) (d : Nat) :
    runLocks d (es ++ fs) = (runLocks d es).bind (fun d' => runLocks d' fs) := by
  induction es generalizing d with
  | nil => simp only [List.nil_append, runLocks, Option.some_bind]
  | cons e es ih =>
    cases e with
    | lock =>
      simp only [List.cons_append, runLocks]
      exact ih (d + 1)
    | unlock =>
      simp only [List.cons_append, runLocks]
      split
      · rfl
      · exact ih (d - 1)
    | write t =>
      simp only [List.cons_append, runLocks]
      split
      · rfl
      · exact ih d
    | sample =>
      simp only [List.cons_append, runLocks]
      split
      · rfl
      · exact ih d

/-- Writes and samples do not change the number of acquisitions, and are all allowed while
the mutex is held. -/
theorem runLocks_held (es : List Effect) (d : Nat)
    (h : ∀ e ∈ es, e ≠ Effect.lock ∧ e ≠ Effect.unlock) :
    runLocks (d + 1) es = some (d + 1) := by
  induction es with
  | nil => rfl
  | cons e es ih =>
    have hes := ih (fun e he => h e (List.mem_cons_of_mem _ he))
    have he := h e (List.mem_cons_self _ _)
    cases e with
    | lock => exact absurd rfl he.1
    | unlock => exact absurd rfl he.2
    | write t =>
      simp only [runLocks, Nat.add_one_ne_zero, and_false, if_false]
      exact hes
    | sample =>
      simp only [runLocks, Nat.add_one_ne_zero, if_false]
      exact hes

theorem fixLengthsEffects_plain (L : Int) (bufs : List RecordBuffer) :
    ∀ e ∈ fixLengthsEffects L bufs, e ≠ Effect.lock ∧ e ≠ Effect.unlock := by
  induction bufs with
  | nil =>
    intro e he
    simp [fixLengthsEffects] at he
  | cons b bs ih =>
    intro e he
    simp only [fixLengthsEffects, List.mem_append] at he
    rcases he with he | he
    · split at he
      · simp only [List.mem_cons, List.mem_singleton, List.not_mem_nil, or_false] at he
        rcases he with rfl | rfl | rfl <;> exact ⟨by simp, by simp⟩
      · simp at he
    · exact ih e he

/-- `FixLengths` leaves the number of acquisitions as it found it, whatever it was. -/
theorem FixLengthsEffects_run (s : Recorder) (d : Nat) :
    runLocks d (FixLengthsEffects s) = some d := by
  unfold FixLengthsEffects
  rw [List.append_assoc, List.singleton_append]
  simp only [runLocks]
  rw [runLocks_append, runLocks_held _ _ (fixLengthsEffects_plain _ _)]
  simp [runLocks]

theorem ResetAllEffects_plain (s : Recorder) :
    ∀ e ∈ ResetAllEffects s, e ≠ Effect.lock ∧ e ≠ Effect.unlock := by
  intro e he
  simp only [ResetAllEffects, List.mem_append, List.mem_map, List.mem_cons,
    List.mem_singleton, List.not_mem_nil, or_false] at he
  rcases he with ⟨_, _, rfl⟩ | rfl | rfl <;> exact ⟨by simp, by simp⟩


/-- A sequence that, run while the mutex is held, succeeds and leaves it held as often. -/
theorem runLocks_bracket (es : List Effect) (h : ∀ d, runLocks (d + 1) es = some (d + 1)) :
    LockDisciplined ([Effect.lock] ++ es ++ [Effect.unlock]) := by
  unfold LockDisciplined
  rw [List.append_assoc, List.singleton_append]
  simp only [runLocks]
  rw [runLocks_append, h 0]
  simp [runLocks]

theorem runLocks_neutral_append (es fs : List Effect)
    (h1 : ∀ d, runLocks (d + 1) es = some (d + 1))
    (h2 : ∀ d, runLocks (d + 1) fs = some (d + 1)) (d : Nat) :
    runLocks (d + 1) (es ++ fs) = some (d + 1) := by
  rw [runLocks_append, h1 d]
  exact h2 d

theorem DeleteBufferEffects_run (d : Nat) :
    runLocks (d + 1) DeleteBufferEffects = some (d + 1) := by
  simp [DeleteBufferEffects, runLocks]

theorem AddRecordBufferEffects_run (d : Nat) :
    runLocks (d + 1) AddRecordBufferEffects = some (d + 1) := by
  simp [AddRecordBufferEffects, runLocks]

theorem CopyRecordBufferContentsEffects_trackSet (dst src : RecordBuffer) :
    runLocks 0 (CopyRecordBufferContentsEffects true dst src) = none ∧
    Effect.lock ∉ CopyRecordBufferContentsEffects true dst src ∧
    Effect.write Target.bufferData ∈ CopyRecordBufferContentsEffects true dst src := by
  unfold CopyRecordBufferContentsEffects
  by_cases h : dst.mLength ≠ src.mLength
  · simp [h, runLocks, Target.isShared]
  · simp [h, runLocks, Target.isShared]

theorem CopyRecordBufferContentsEffects_undo (dst src : RecordBuffer) :
    Effect.lock ∉ CopyRecordBufferContentsEffects false dst src := by
  unfold CopyRecordBufferContentsEffects
  by_cases h : dst.mLength ≠ src.mLength
  · simp [h]
  · simp [h]

/-- C14 (code defect): reading each method as the sequence of its mutex operations and
writes, `Poll`, `Process`, `AddRecordBuffer`, `DeleteBuffer`, `FixLengths`, every branch of
`OnClicked` and every button other than undo write the protected data only while the mutex
is held and release it as often as they take it; the undo button, for a valid record index,
overwrites the channels of the active buffer through `CopyRecordBufferContents` without
ever taking the mutex, and the record checkbox makes its copy without taking it either; in
the reachable state after a growth of `Poll` the undo also replaces the channel arrays and
the length of the active buffer, all of it outside the lock. -/
theorem undo_copy_outside_lock :
    (∀ (gSampleRate : Int) (s : Recorder), LockDisciplined (PollEffects gSampleRate s)) ∧
    (∀ (s : Recorder) (batch : List SampleIn), LockDisciplined (ProcessEffects s batch)) ∧
    LockDisciplined AddRecordBufferEffects ∧
    LockDisciplined DeleteBufferEffects ∧
    (∀ s : Recorder, LockDisciplined (FixLengthsEffects s)) ∧
    (∀ (c : ClickContext) (x y : Int) (s : Recorder),
      LockDisciplined (OnClickedEffects c x y s)) ∧
    (∀ (b : Button) (s : Recorder), b ≠ Button.undoRecord →
      LockDisciplined (ButtonClickedEffects b s)) ∧
    (∀ (s : Recorder) (dst : RecordBuffer),
      getBuffer s.mRecordBuffers s.mRecordIdx = some dst →
      ¬ LockDisciplined (ButtonClickedEffects Button.undoRecord s) ∧
      Effect.lock ∉ ButtonClickedEffects Button.undoRecord s ∧
      Effect.write Target.bufferData ∈ ButtonClickedEffects Button.undoRecord s) ∧
    (∀ (cb : Checkbox) (s : Recorder), Effect.lock ∉ CheckboxUpdatedEffects cb s) ∧
    (∃ s, Reachable 2 2 s ∧ demoGrownSession = some s ∧
      ButtonClickedEffects Button.undoRecord s
        = [Effect.write Target.bufferData, Effect.write Target.bufferData,
            Effect.write Target.bufferLength, Effect.write Target.bufferData,
            Effect.write Target.bufferData] ∧
      ¬ LockDisciplined (ButtonClickedEffects Button.undoRecord s)) := by
  refine ⟨?_, ?_, ?_, ?_, ?_, ?_, ?_, ?_, ?_, ?_⟩
  · intro sr s
    unfold PollEffects LockDisciplined
    split
    · simp [runLocks]
    · rfl
  · intro s batch
    unfold ProcessEffects
    apply runLocks_bracket
    intro d
    apply runLocks_held
    intro e he
    split at he
    · simp only [List.mem_map] at he
      obtain ⟨_, _, rfl⟩ := he
      exact ⟨by simp, by simp⟩
    · simp at he
  · simp [LockDisciplined, AddRecordBufferEffects, runLocks]
  · simp [LockDisciplined, DeleteBufferEffects, runLocks]
  · intro s
    exact FixLengthsEffects_run s 0
  · intro c x y s
    unfold OnClickedEffects
    split
    · rfl
    · split
      · simp only
        split
        · rw [List.append_assoc [Effect.lock]]
          apply runLocks_bracket
          apply runLocks_neutral_append _ _ DeleteBufferEffects_run
          intro d
          split
          · split
            · exact runLocks_neutral_append _ _
                (fun d => runLocks_held _ d (ResetAllEffects_plain _))
                AddRecordBufferEffects_run d
            · rfl
          · rfl
        · split
          · rfl
          · split
            · rfl
            · split
              · split
                · rw [List.append_assoc [Effect.lock], List.append_assoc [Effect.lock]]
                  apply runLocks_bracket
                  apply runLocks_neutral_append _ _ _ DeleteBufferEffects_run
                  apply runLocks_neutral_append _ _ (fun d => FixLengthsEffects_run s (d + 1))
                  intro d
                  simp [runLocks]
                · rfl
              · rfl
      · rfl
  · intro b s hb
    unfold ButtonClickedEffects
    cases b with
    | addTrack => simp [LockDisciplined, AddRecordBufferEffects, runLocks]
    | resetPlayhead => simp [LockDisciplined, runLocks]
    | fixLengths =>
      simp only [reduceCtorEq, if_false, if_true, List.nil_append, List.append_nil]
      exact FixLengthsEffects_run s 0
    | undoRecord => exact absurd rfl hb
  · intro s dst hdst
    have h := CopyRecordBufferContentsEffects_trackSet dst s.mUndoBuffer
    have he : ButtonClickedEffects Button.undoRecord s
        = CopyRecordBufferContentsEffects true dst s.mUndoBuffer := by
      simp [ButtonClickedEffects, hdst]
    rw [he]
    refine ⟨?_, h.2.1, h.2.2⟩
    unfold LockDisciplined
    rw [h.1]
    exact Option.noConfusion
  · intro cb s
    unfold CheckboxUpdatedEffects
    split
    · split
      · exact CopyRecordBufferContentsEffects_undo _ _
      · simp
    · simp
  · have hv : demoGrownSession.map (fun s => (ButtonClickedEffects Button.undoRecord s,
        runLocks 0 (ButtonClickedEffects Button.undoRecord s)))
        = some ([Effect.write Target.bufferData, Effect.write Target.bufferData,
            Effect.write Target.bufferLength, Effect.write Target.bufferData,
            Effect.write Target.bufferData], none) := by
      with_unfolding_all decide
    cases hs : demoGrownSession with
    | none => rw [hs] at hv; exact Option.noConfusion hv
    | some s =>
      rw [hs] at hv
      simp only [Option.map_some', Option.some.injEq, Prod.mk.injEq] at hv
      refine ⟨s, demoGrownSession_reachable s hs, rfl, hv.1, ?_⟩
      unfold LockDisciplined
      rw [hv.2]
      exact Option.noConfusion

end MultitrackRecorder
